import Mathlib

/-!
Verification development for the go2cpp translator (src/main.go): a
line-oriented Go-to-C++ source translator.  Go strings are modelled as
`List Char`; the Go standard-library string functions used by the program
are given executable Lean models, and each function of the program is
translated one-to-one.  Functions that can panic (slice out of range,
index out of range, explicit panic) or exit return `Option`.
-/

/-- GoStr models a Go string as a list of characters. -/
abbrev GoStr := List Char

/-- str converts a Lean string literal to the `List Char` model. -/
def str (s : String) : GoStr := s.data

/-- isSpaceChar models the white-space test of Go's strings.TrimSpace and
strings.Fields for the ASCII white-space characters used by the program. -/
def isSpaceChar (c : Char) : Bool :=
  c = ' ' || c = '\t' || c = '\n' || c = '\x0b' || c = '\x0c' || c = '\r'

/-- goTrimSpace models Go strings.TrimSpace: drop white space from both ends. -/
def goTrimSpace (s : GoStr) : GoStr :=
  ((s.dropWhile isSpaceChar).reverse.dropWhile isSpaceChar).reverse

/-- goIndex models Go strings.Index: the first index at which `sub` occurs in
`s`, or `none` where Go returns -1.  As in Go, the empty pattern occurs at 0. -/
def goIndex : GoStr → GoStr → Option Nat
  | [], sub => if sub.isEmpty then some 0 else none
  | c :: t, sub =>
      if sub.isPrefixOf (c :: t) then some 0
      else (goIndex t sub).map (· + 1)

/-- goLastIndex models Go strings.LastIndex: the last index at which `sub`
occurs in `s`, or `none` where Go returns -1. -/
def goLastIndex : GoStr → GoStr → Option Nat
  | [], sub => if sub.isEmpty then some 0 else none
  | c :: t, sub =>
      match goLastIndex t sub with
      | some i => some (i + 1)
      | none => if sub.isPrefixOf (c :: t) then some 0 else none

/-- goContains models Go strings.Contains. -/
def goContains (s sub : GoStr) : Bool :=
  (goIndex s sub).isSome

/-- goStartsWith models Go strings.HasPrefix. -/
def goStartsWith (s p : GoStr) : Bool :=
  p.isPrefixOf s

/-- goEndsWith models Go strings.HasSuffix. -/
def goEndsWith (s p : GoStr) : Bool :=
  p.isSuffixOf s

/-- goSlice models the Go slice expression s[lo:hi]: `none` models the
run-time panic when the bounds are invalid. -/
def goSlice (s : GoStr) (lo hi : Nat) : Option GoStr :=
  if lo ≤ hi ∧ hi ≤ s.length then some ((s.take hi).drop lo) else none

/-- goCountF is the fuelled worker for goCount; the fuel only bounds the
recursion depth and any fuel above the string length is enough. -/
def goCountF : Nat → GoStr → GoStr → Nat
  | 0, _, _ => 0
  | fuel + 1, s, sub =>
      match goIndex s sub with
      | none => 0
      | some i => 1 + goCountF fuel (s.drop (i + sub.length)) sub

/-- goCount models Go strings.Count: non-overlapping occurrences of `sub`
in `s`; for the empty pattern Go returns the rune count plus one. -/
def goCount (s sub : GoStr) : Nat :=
  if sub.isEmpty then s.length + 1 else goCountF (s.length + 1) s sub

/-- goSplitF is the fuelled worker for goSplit. -/
def goSplitF : Nat → GoStr → GoStr → List GoStr
  | 0, s, _ => [s]
  | fuel + 1, s, sep =>
      match goIndex s sep with
      | none => [s]
      | some i => s.take i :: goSplitF fuel (s.drop (i + sep.length)) sep

/-- goSplit models Go strings.Split with a non-empty separator; the program
never splits on the empty string, for which the model explodes into
characters as Go explodes into runes. -/
def goSplit (s sep : GoStr) : List GoStr :=
  if sep.isEmpty then s.map (fun c => [c]) else goSplitF (s.length + 1) s sep

/-- goSplitN2 models Go strings.SplitN with n = 2 (the only count the
program uses): split at the first occurrence only. -/
def goSplitN2 (s sep : GoStr) : List GoStr :=
  match goIndex s sep with
  | none => [s]
  | some i => [s.take i, s.drop (i + sep.length)]

/-- goReplaceAllF is the fuelled worker for goReplaceAll. -/
def goReplaceAllF : Nat → GoStr → GoStr → GoStr → GoStr
  | 0, s, _, _ => s
  | fuel + 1, s, old, new =>
      match goIndex s old with
      | none => s
      | some i => s.take i ++ new ++ goReplaceAllF fuel (s.drop (i + old.length)) old new

/-- goReplaceAll models Go strings.Replace with n = -1 and a non-empty
pattern; the program never replaces the empty string, for which the model
returns `s` unchanged. -/
def goReplaceAll (s old new : GoStr) : GoStr :=
  if old.isEmpty then s else goReplaceAllF (s.length + 1) s old new

/-- goReplace1 models Go strings.Replace with n = 1: replace the first
occurrence only. -/
def goReplace1 (s old new : GoStr) : GoStr :=
  match goIndex s old with
  | none => s
  | some i => s.take i ++ new ++ s.drop (i + old.length)

/-- goFieldsF is the fuelled worker for goFields. -/
def goFieldsF : Nat → GoStr → List GoStr
  | 0, _ => []
  | fuel + 1, s =>
      match s with
      | [] => []
      | c :: t =>
          if isSpaceChar c then goFieldsF fuel t
          else (c :: t.takeWhile (fun x => !isSpaceChar x)) ::
               goFieldsF fuel (t.dropWhile (fun x => !isSpaceChar x))

/-- goFields models Go strings.Fields: the white-space separated words. -/
def goFields (s : GoStr) : List GoStr :=
  goFieldsF (s.length + 1) s

/-- goJoin models Go strings.Join. -/
def goJoin (l : List GoStr) (sep : GoStr) : GoStr :=
  match l with
  | [] => []
  | [a] => a
  | a :: rest => a ++ sep ++ goJoin rest sep

/-- digitChar gives the decimal digit character for d < 10. -/
def digitChar (d : Nat) : Char :=
  Char.ofNat (48 + d)

/-- natDigitsF is the fuelled worker for natDigits. -/
def natDigitsF : Nat → Nat → GoStr
  | 0, _ => []
  | fuel + 1, n =>
      if n < 10 then [digitChar n]
      else natDigitsF fuel (n / 10) ++ [digitChar (n % 10)]

/-- natDigits renders a natural number in decimal. -/
def natDigits (n : Nat) : GoStr :=
  natDigitsF (n + 1) n

/-- itoa models Go strconv.Itoa on the int values the program produces. -/
def itoa (n : Int) : GoStr :=
  if n < 0 then '-' :: natDigits (-n).toNat else natDigits n.toNat

/-- tupleType is the constant `tupleType` of the source. -/
def tupleType : GoStr := str "std::tuple"

/-- hashMapSuffix is the constant of the source. -/
def hashMapSuffix : GoStr := str "_h__"

/-- keysSuffix is the constant of the source. -/
def keysSuffix : GoStr := str "_k__"

/-- switchPrefixC is the constant `switchPrefix` of the source. -/
def switchPrefixC : GoStr := str "_s__"

/-- labelPrefixC is the constant `labelPrefix` of the source. -/
def labelPrefixC : GoStr := str "_l__"

/-- endings is the `endings` variable of the source: the line endings after
which no statement terminator is added. -/
def endings : List GoStr := [str "\x7b", str ",", str "\x7d", str ":"]

/-- between translates the source's `between`: the string between two given
strings, or the original string; `none` models the slice-bounds panic that
Go raises when the two selected anchors overlap. -/
def between (s a b : GoStr) (lastA lastB : Bool) : Option GoStr :=
  match (if lastA then goLastIndex s a else goIndex s a) with
  | none => some s
  | some apos =>
      match (if lastB then goLastIndex s b else goIndex s b) with
      | none => some s
      | some bpos =>
          if bpos < apos then goSlice s (bpos + b.length) apos
          else goSlice s (apos + a.length) bpos

/-- leftBetween translates the source's `leftBetween`. -/
def leftBetween (s a b : GoStr) : Option GoStr :=
  between s a b false false

/-- greedyBetween translates the source's `greedyBetween`. -/
def greedyBetween (s a b : GoStr) : Option GoStr :=
  between s a b false true

/-- LiteralStrings translates the source's `LiteralStrings`, whose body
returns the source unchanged (the replacement logic is commented out). -/
def LiteralStrings (source : GoStr) : GoStr :=
  source

/-- WholeProgramReplace translates the source's `WholeProgramReplace`.  The
Go code iterates a two-entry map in unspecified order; the model fixes the
order in which the entries are listed in the source. -/
def WholeProgramReplace (source : GoStr) : GoStr :=
  goReplaceAll (goReplaceAll source (str " string ") (str " std::string "))
    (str "(string ") (str "(std::string ")

/-- lastchar translates the source's `lastchar`. -/
def lastchar (line : GoStr) : GoStr :=
  match line.getLast? with
  | some c => [c]
  | none => []

/-- has translates the source's `has`. -/
def has (l : List GoStr) (s : GoStr) : Bool :=
  l.any (fun x => x = s)

/-- splitArgsStep models one iteration of the character loop of the source's
`SplitArgs`: the quoting state, the current word and the collected
arguments after consuming one character. -/
def splitArgsStep (st : Bool × Bool × Bool × Bool × GoStr × List GoStr) (letter : Char) :
    Bool × Bool × Bool × Bool × GoStr × List GoStr :=
  match st with
  | (inQuote, inSingleQuote, inPar, inCurly, word, args) =>
      let inQuote := if letter = '"' then !inQuote else inQuote
      let inSingleQuote := if letter = '\'' then !inSingleQuote else inSingleQuote
      let inPar :=
        if letter = '(' && !inQuote && !inSingleQuote && !inPar && !inCurly then true
        else if letter = ')' && !inQuote && !inSingleQuote then false
        else inPar
      let inCurly :=
        if letter = '\x7b' && !inQuote && !inSingleQuote && !inPar && !inCurly then true
        else if letter = '\x7d' && !inQuote && !inSingleQuote then false
        else inCurly
      if letter = ',' && !inQuote && !inSingleQuote && !inPar && !inCurly then
        (inQuote, inSingleQuote, inPar, inCurly, [], args ++ [goTrimSpace word])
      else
        (inQuote, inSingleQuote, inPar, inCurly, word ++ [letter], args)

/-- SplitArgs translates the source's `SplitArgs`: split arguments at commas,
handling quoting one level deep. -/
def SplitArgs (s : GoStr) : List GoStr :=
  match s.foldl splitArgsStep (false, false, false, false, [], []) with
  | (_, _, _, _, word, args) => args ++ [goTrimSpace word]

/-- isDigitChar tests for an ASCII decimal digit. -/
def isDigitChar (c : Char) : Bool :=
  '0' ≤ c && c ≤ '9'

/-- numBody accepts a non-empty digit run with at most one decimal point,
optionally followed by an exponent part. -/
def numBody (s : GoStr) : Bool :=
  let intPart := s.takeWhile isDigitChar
  let rest := s.dropWhile isDigitChar
  match rest with
  | [] => !intPart.isEmpty
  | '.' :: frac =>
      let fracPart := frac.takeWhile isDigitChar
      let rest2 := frac.dropWhile isDigitChar
      (!intPart.isEmpty || !fracPart.isEmpty) &&
        (match rest2 with
         | [] => true
         | 'e' :: e | 'E' :: e =>
             let e2 := match e with
               | '+' :: d => d
               | '-' :: d => d
               | d => d
             !e2.isEmpty && e2.all isDigitChar
         | _ => false)
  | 'e' :: e | 'E' :: e =>
      let e2 := match e with
        | '+' :: d => d
        | '-' :: d => d
        | d => d
      !intPart.isEmpty && !e2.isEmpty && e2.all isDigitChar
  | _ => false

/-- isHexChar tests for an ASCII hexadecimal digit. -/
def isHexChar (c : Char) : Bool :=
  isDigitChar c || ('a' ≤ c && c ≤ 'f') || ('A' ≤ c && c ≤ 'F')

/-- intBody accepts the base-prefixed integer forms of Go strconv.ParseInt
with base 0. -/
def intBody (s : GoStr) : Bool :=
  match s with
  | '0' :: 'x' :: r | '0' :: 'X' :: r => !r.isEmpty && r.all isHexChar
  | '0' :: 'b' :: r | '0' :: 'B' :: r => !r.isEmpty && r.all (fun c => c = '0' || c = '1')
  | '0' :: 'o' :: r | '0' :: 'O' :: r => !r.isEmpty && r.all (fun c => '0' ≤ c && c ≤ '7')
  | _ => !s.isEmpty && s.all isDigitChar

/-- isNum models the source's `isNum`, which asks Go strconv.ParseFloat and
strconv.ParseInt whether the string is a numeric literal.  The model accepts
an optional sign followed by a decimal (possibly fractional or exponent)
literal or a base-prefixed integer literal; underscored digit groups are not
modelled.  The claims rely only on plain literals being accepted and on
non-numeric tokens, such as quoted strings, being rejected. -/
def isNum (s : GoStr) : Bool :=
  let body := match s with
    | '+' :: r => r
    | '-' :: r => r
    | r => r
  numBody body || intBody body

/-- stripSingleLineComment translates the source's `stripSingleLineComment`. -/
def stripSingleLineComment (line : GoStr) : GoStr :=
  if goCount line (str "//") = 1 then
    match goIndex line (str "//") with
    | some p => goTrimSpace (line.take p)
    | none => line
  else line

/-- TypeReplace translates the source's `TypeReplace`: map a Go primitive
type name to its C++ counterpart, moving a leading pointer star to the end. -/
def TypeReplace (source : GoStr) : GoStr :=
  let trimmed0 := goTrimSpace source
  let trimmed := if goStartsWith trimmed0 (str "*") then trimmed0.drop 1 ++ str "*" else trimmed0
  if trimmed = str "string" then str "std::string"
  else if trimmed = str "float64" then str "double"
  else if trimmed = str "float32" then str "float"
  else if trimmed = str "uint64" then str "std::uint64_t"
  else if trimmed = str "uint32" then str "std::uint32_t"
  else if trimmed = str "uint16" then str "std::uint16_t"
  else if trimmed = str "uint8" then str "std::uint8_t"
  else if trimmed = str "int64" then str "std::int64_t"
  else if trimmed = str "int32" then str "std::int32_t"
  else if trimmed = str "int16" then str "std::int16_t"
  else if trimmed = str "int8" then str "std::int8_t"
  else if trimmed = str "byte" then str "std::uint8_t"
  else if trimmed = str "rune" then str "std::int32_t"
  else if trimmed = str "uint" then str "unsigned int"
  else trimmed

/-- functionArgsStep models one iteration of the backwards argument loop of
the source's `FunctionArguments`: the state is (currentName, currentType,
output). -/
def functionArgsStep (st : GoStr × GoStr × GoStr) (arg : GoStr) : GoStr × GoStr × GoStr :=
  match st with
  | (curName0, curType0, output) =>
      let strippedArg := goTrimSpace arg
      let (curName, curType) :=
        if goContains strippedArg (str " ") then
          let elems := goSplitN2 strippedArg (str " ")
          (elems.getD 0 [], elems.getD 1 [])
        else (strippedArg, curType0)
      let _ := curName0
      let newArgs := str " " ++ curType ++ str " " ++ curName
      (curName, curType, goReplaceAll output arg newArgs)

/-- FunctionArguments translates the source's `FunctionArguments`: transform
the arguments given to a function from Go to C++ order. -/
def FunctionArguments (source : GoStr) : GoStr :=
  if goContains source (str ",") then
    let args := goSplit source (str ",")
    match args.reverse.foldl functionArgsStep ([], [], source) with
    | (_, _, out) => goTrimSpace out
  else if goContains source (str " ") then
    let words := goSplit source (str " ")
    goTrimSpace (goTrimSpace (words.getD 1 []) ++ str " " ++ goTrimSpace (words.getD 0 []))
  else goTrimSpace source

/-- FunctionRetvals translates the source's `FunctionRetvals`. -/
def FunctionRetvals (source : GoStr) : Option GoStr :=
  if (goTrimSpace source).length = 0 then some source
  else if goContains source (str "(") then do
    let s ← greedyBetween source (str "(") (str ")")
    let retvals := FunctionArguments s
    let output := if goContains retvals (str ",") then str "(" ++ retvals ++ str ")" else retvals
    some (goTrimSpace output)
  else some (goTrimSpace source)

/-- CPPTypes translates the source's `CPPTypes`: pick out the types from a
list of C++ arguments with name and type. -/
def CPPTypes (args : GoStr) : Option GoStr := do
  let inner ← leftBetween args (str "(") (str ")")
  let words := goSplit inner (str ",")
  let atypes := words.map (fun word => (goSplit (goTrimSpace word) (str " ")).getD 0 [])
  some (goJoin atypes (str ", "))

/-- FunctionSignature translates the source's `FunctionSignature`: transform
a one-line function signature, forcing main's return type to int.  Returns
(output, returntype, name). -/
def FunctionSignature (source : GoStr) : Option (GoStr × GoStr × GoStr) :=
  if (goTrimSpace source).length = 0 then some (source, [], [])
  else do
    let lb ← leftBetween source (str "(") (str ")")
    let args := FunctionArguments lb
    let retsRaw ←
      if goContains source (str ") (") then between source (str ")") (str "\x7b") false true
      else between source (str ")") (str "\x7b") true true
    let rets1 ← FunctionRetvals retsRaw
    let rets2 ←
      if goContains rets1 (str ",") then do
        let ct ← CPPTypes rets1
        pure (tupleType ++ str "<" ++ ct ++ str ">")
      else pure rets1
    let name ← leftBetween source (str "func ") (str "(")
    let rets3 := if name = str "main" then str "int" else rets2
    some (goTrimSpace (str "auto " ++ name ++ str "(" ++ args ++ str ") -> " ++ rets3 ++ str " \x7b"),
          rets3, name)

/-- IfSentence translates the source's `IfSentence`. -/
def IfSentence (source : GoStr) : Option GoStr := do
  let e ← leftBetween source (str "if") (str "\x7b")
  some (str "if (" ++ goTrimSpace e ++ str ") \x7b")

/-- ElseIfSentence translates the source's `ElseIfSentence`. -/
def ElseIfSentence (source : GoStr) : Option GoStr := do
  let e ← leftBetween source (str "\x7d else if") (str "\x7b")
  some (str "\x7d else if (" ++ goTrimSpace e ++ str ") \x7b")

/-- ForLoop translates the source's `ForLoop`: transform all the loop header
variants; `none` models the index-out-of-range panics reachable on
malformed headers. -/
def ForLoop (source : GoStr) (encounteredHashMaps : List GoStr) : Option GoStr := do
  let e0 ← leftBetween source (str "for") (str "\x7b")
  let expression := goTrimSpace e0
  if expression = [] then some (str "for (;;) \x7b")
  else if goCount expression (str ",") = 0 && goContains expression (str "range") then
    let fields := goSplit expression (str " ")
    let varName := fields.getD 0 []
    let listName := fields.getLastD []
    let hashMapName := listName
    if has encounteredHashMaps hashMapName then
      some (str "for (const auto & [" ++ varName ++ str ", " ++ varName ++ str "__" ++
            str "] : " ++ hashMapName ++ str ") \x7b")
    else if varName = str "_" then
      some (str "for (const auto & [" ++ varName ++ str "__" ++ str ", " ++ varName ++
            str "___" ++ str "] : " ++ hashMapName ++ str ") \x7b")
    else
      some (str "for (std::size_t " ++ varName ++ str " = 0; " ++ varName ++
            str " < std::size(" ++ listName ++ str "); " ++ varName ++ str "++) \x7b")
  else if goCount expression (str ",") = 1 && goContains expression (str "range") &&
          goContains expression (str ":=") then do
    let fields := goSplit expression (str ":=")
    let varnames := goSplit (fields.getD 0 []) (str ",")
    let indexvar := varnames.getD 0 []
    let elemvar ← varnames[1]?
    let fields2 := goSplit expression (str " ")
    let listName := fields2.getLastD []
    let hashMapName := listName
    if has encounteredHashMaps hashMapName then
      if indexvar = str "_" then
        let hashMapHashKey := hashMapName ++ hashMapSuffix
        some (str "for (const auto & " ++ hashMapHashKey ++ str " : " ++ hashMapName ++
              str ") \x7b" ++ str "\n" ++ str "auto " ++ elemvar ++ str " = " ++
              hashMapHashKey ++ str ".second")
      else
        some (str "for (const auto & [" ++ indexvar ++ str ", " ++ elemvar ++ str "] : " ++
              hashMapName ++ str ") \x7b")
    else if indexvar = str "_" then
      some (str "for (auto " ++ elemvar ++ str " : " ++ listName ++ str ") \x7b")
    else
      some (str "for (std::size_t " ++ indexvar ++ str " = 0; " ++ indexvar ++
            str " < std::size(" ++ listName ++ str "); " ++ indexvar ++ str "++) \x7b" ++
            str "\n" ++ str "auto " ++ elemvar ++ str " = " ++ listName ++ str "[" ++
            indexvar ++ str "]")
  else do
    let expression2 ←
      if goContains expression (str ":=") then
        if goStartsWith expression (str "_,") && goContains expression (str "range") then do
          let varname ← leftBetween expression (str ",") (str ":")
          let fields := goSplitN2 expression (str "range ")
          let listname ← fields[1]?
          pure (str "auto &" ++ varname ++ str " : " ++ listname)
        else pure (str "auto " ++ goReplace1 expression (str ":=") (str "="))
      else pure expression
    some (str "for (" ++ expression2 ++ str ") \x7b")

/-- GState models the package-level mutable variables of the source: the
switch-expression counter, the first-case flag, the pending fallthrough
label, the label counter and the iota counter. -/
structure GState where
  switchExpressionCounter : Int
  firstCase : Bool
  switchLabel : GoStr
  labelCounter : Int
  iotaNumber : Int
deriving DecidableEq, Repr

/-- initGState is the state of the package-level variables at process
start: Go zero values, with the switch-expression counter initialised
to -1 by the source. -/
def initGState : GState :=
  ⟨-1, false, [], 0, 0⟩

/-- SwitchExpressionVariable translates the source's function of the same
name, reading the switch-expression counter. -/
def SwitchExpressionVariable (g : GState) : GoStr :=
  switchPrefixC ++ itoa g.switchExpressionCounter

/-- LabelName translates the source's `LabelName`, reading the label
counter. -/
def LabelName (g : GState) : GoStr :=
  labelPrefixC ++ itoa g.labelCounter

/-- Switch translates the source's `Switch`: bind a hidden temporary to the
switch subject, incrementing the switch-expression counter and resetting
the first-case flag; `none` models the slice panic when the trimmed line is
shorter than the word switch plus a space. -/
def Switch (g : GState) (source : GoStr) : Option (GoStr × GState) := do
  let t := goTrimSpace source
  let o1 ← goSlice t (str "switch ").length t.length
  let o2 := if goEndsWith o1 (str "\x7b") then goTrimSpace (o1.take (o1.length - 1)) else o1
  let g' : GState := { g with switchExpressionCounter := g.switchExpressionCounter + 1,
                              firstCase := true }
  some (str "auto " ++ SwitchExpressionVariable g' ++ str " = " ++ o2 ++
        str "; // switch on " ++ o2, g')

/-- Case translates the source's `Case`: open the conditional (or chained
alternative) comparing the hidden temporary with the case value, emitting
and clearing a pending fallthrough label. -/
def Case (g : GState) (source : GoStr) : Option (GoStr × GState) := do
  let s ← leftBetween source (str " ") (str ":")
  let (head, g1) :=
    if g.firstCase then (str "if (", { g with firstCase := false })
    else (str "\x7d else if (", g)
  let out0 := head ++ SwitchExpressionVariable g1 ++ str " == " ++ s ++ str ") \x7b // case " ++ s
  if g1.switchLabel ≠ [] then
    some (out0 ++ str "\n" ++ g1.switchLabel ++ str ":", { g1 with switchLabel := [] })
  else
    some (out0, g1)

/-- VarDeclaration translates the source's `VarDeclaration`: the transformed
line and the declared variable name; `none` models the panics on
unrecognized declarations. -/
def VarDeclaration (source : GoStr) : Option (GoStr × GoStr) :=
  if goContains source (str "=") then
    let parts := goSplitN2 (goTrimSpace source) (str "=")
    let left := parts.getD 0 []
    let right := goTrimSpace (parts.getD 1 [])
    let fields0 := goSplit (goTrimSpace left) (str " ")
    let fields := if fields0.getD 0 [] = str "var" then fields0.drop 1 else fields0
    match fields with
    | [] => none
    | [f0] => some (str "auto" ++ str " " ++ f0 ++ str " = " ++ right, f0)
    | [f0, f1] => some (TypeReplace f1 ++ str " " ++ f0 ++ str " = " ++ right, f0)
    | f0 :: f1 :: rest =>
        some (TypeReplace f1 ++ str " " ++ f0 ++ str " " ++ goJoin rest (str " ") ++
              str " = " ++ right, f0)
  else
    let fields0 := goFields source
    let fields := if fields0.getD 0 [] = str "var" then fields0.drop 1 else fields0
    match fields with
    | [f0, f1] => some (TypeReplace f1 ++ str " " ++ f0, f0)
    | _ => none

/-- TypeDeclaration translates the source's `TypeDeclaration`: the
transformed line and whether a struct body opens; `none` models both the
index panic on a one-word line and the explicit panic on an unrecognized
declaration. -/
def TypeDeclaration (source : GoStr) : Option (GoStr × Bool) := do
  let fields0 := goSplit (goTrimSpace source) (str " ")
  let fields := if fields0.getD 0 [] = str "type" then fields0.drop 1 else fields0
  let f0 ← fields[0]?
  let f1 ← fields[1]?
  let left := goTrimSpace f0
  let right := goTrimSpace f1
  let words := goSplit left (str " ")
  if fields.length = 2 then some (str "using " ++ left ++ str " = " ++ TypeReplace right, false)
  else if words.length = 2 then
    some (str "using " ++ words.getD 1 [] ++ str " " ++ words.getD 0 [] ++ str " = " ++
          TypeReplace right, false)
  else if goContains right (str "struct") then
    some (str "class " ++ left ++ str " \x7b public:", true)
  else if words.length = 1 then
    some (str "using " ++ left ++ str " = " ++ TypeReplace right, false)
  else none

/-- ConstDeclaration translates the source's `ConstDeclaration` with the
iota counter threaded explicitly: a bare name increments the counter, a
right-hand side equal to iota resets it to zero. -/
def ConstDeclaration (g : GState) (source : GoStr) : Option (GoStr × GState) :=
  match goSplitN2 source (str "=") with
  | [] => none
  | [f0] =>
      let g' : GState := { g with iotaNumber := g.iotaNumber + 1 }
      some (str "const auto " ++ goTrimSpace f0 ++ str " = " ++ itoa g'.iotaNumber, g')
  | f0 :: f1 :: _ =>
      let left := goTrimSpace f0
      let right0 := goTrimSpace f1
      let words := goSplit left (str " ")
      let (right, g') :=
        if right0 = str "iota" then (itoa 0, { g with iotaNumber := 0 }) else (right0, g)
      if words.length = 1 then some (str "const auto " ++ left ++ str " = " ++ right, g')
      else if words.length = 2 then
        if words.getD 0 [] = str "const" then
          some (str "const auto " ++ words.getD 1 [] ++ str " = " ++ right, g')
        else
          some (str "const " ++ TypeReplace (words.getD 1 []) ++ str " " ++ words.getD 0 [] ++
                str " = " ++ right, g')
      else none

/-- hashPairsLoop models the pair loop of the source's `HashElements`. -/
def hashPairsLoop : List GoStr → Bool → Option GoStr
  | [], _ => some []
  | pair :: rest, first => do
      let pe := goSplitN2 pair (str ": ")
      if pe.length ≠ 2 then none
      else do
        let chunk := (if first then [] else str ",") ++ str "\x7b " ++
          goTrimSpace (pe.getD 0 []) ++ str ", " ++ goTrimSpace (pe.getD 1 []) ++ str " \x7d"
        let restOut ← hashPairsLoop rest false
        some (chunk ++ restOut)

/-- HashElements translates the source's `HashElements`: turn the contents
of a Go map literal into C++ pair syntax; the keyType and keyForBoth
parameters are kept although the source's body never reads them. -/
def HashElements (source keyType : GoStr) (keyForBoth : Bool) : Option GoStr :=
  let _ := keyType
  let _ := keyForBoth
  if !goContains source (str ",") then some source
  else if goCount source (str ": ") = 1 then
    let pairElements := goSplitN2 source (str ": ")
    if pairElements.length ≠ 2 then none
    else some (str "\x7b " ++ goTrimSpace (pairElements.getD 0 []) ++ str ", " ++
               goTrimSpace (pairElements.getD 1 []) ++ str " \x7d, ")
  else do
    let body ← hashPairsLoop (goSplit source (str ",")) true
    some (str "\x7b" ++ body ++ str "\x7d")

/-- strMethodBody models the field loop of the source's `CreateStrMethod`. -/
def strMethodBody : Nat → List GoStr → GoStr
  | _, [] => []
  | i, v :: rest =>
      (if i > 0 then str "  ss << \" \";\n" else []) ++
      str "  _format_output(ss, " ++ v ++ str ");\n" ++ strMethodBody (i + 1) rest

/-- CreateStrMethod translates the source's `CreateStrMethod`: synthesize
the _str formatting method enumerating the collected field names. -/
def CreateStrMethod (varNames : List GoStr) : GoStr :=
  str "std::string _str() \x7b\n" ++ str "  std::stringstream ss;\n" ++
  str "  ss << \"\x7b\";\n" ++ strMethodBody 0 varNames ++
  str "  ss << \"\x7d\";" ++ str "  return ss.str();\n" ++ str "\x7d\n"

/-- printStmtLoop models the several-arguments loop of the source's
`PrintStatement`; the state is the loop index and the output built so far. -/
def printStmtLoop (outputName pipe blank pipeNewline : GoStr) (lastIndex : Nat) :
    Nat → GoStr → List GoStr → GoStr
  | _, output, [] => output
  | i, output, arg :: rest =>
      let output :=
        if goStartsWith arg (str "\"") then output ++ pipe ++ arg
        else if isNum arg then output ++ pipe ++ arg
        else (if i = 0 then [] else output ++ str ";\n") ++ str "_format_output(" ++
             outputName ++ str ", " ++ arg ++ str ");\n" ++ outputName
      let output := if i < lastIndex then output ++ pipe ++ blank else output ++ pipeNewline
      printStmtLoop outputName pipe blank pipeNewline lastIndex (i + 1) output rest

/-- PrintStatement translates the source's `PrintStatement`: the transformed
print call and whether pretty printing may be needed; `none` models the
panic on an unsupported %v format verb. -/
def PrintStatement (source : GoStr) : Option (GoStr × Bool) := do
  let inner ← greedyBetween (goTrimSpace source) (str "(") (str ")")
  let args := SplitArgs inner
  if !goContains source (str "(") then some (source, false)
  else do
    let idx ← goIndex source (str "(")
    let fname := goTrimSpace (source.take idx)
    let addNewline := goEndsWith fname (str "ln")
    let lowercasePrint := goStartsWith fname (str "print")
    let allLiteralStrings := args.all (fun a => goStartsWith a (str "\""))
    let allLiteralNumbers := args.all isNum
    let mayNeedPrettyPrint := !allLiteralStrings || !allLiteralNumbers
    if goEndsWith fname (str "rintf") then
      let output := goReplace1 source (str "fmt.Printf") (str "printf")
      let output := goReplace1 output (str "fmt.Fprintf") (str "fprintf")
      let output := goReplace1 output (str "fmt.Sprintf") (str "sprintf")
      if goContains output (str "%v") then none
      else some (output, mayNeedPrettyPrint)
    else
      let outputName := if lowercasePrint then str "std::cerr" else str "std::cout"
      let pipe := str " << "
      let blank := str "\" \""
      let nl := str "std::endl"
      let pipeNewline := if addNewline then pipe ++ nl else []
      if args.length = 0 && addNewline then some (outputName ++ pipeNewline, false)
      else if args.length = 1 && goTrimSpace (args.getD 0 []) = [] && addNewline then
        some (outputName ++ pipeNewline, false)
      else if args.length = 1 && (allLiteralStrings || allLiteralNumbers) then
        some (outputName ++ pipe ++ args.getD 0 [] ++ pipeNewline, false)
      else if args.length = 1 then
        let output := str "_format_output(" ++ outputName ++ str ", " ++ args.getD 0 [] ++ str ")"
        let output := if addNewline then output ++ str ";\n" ++ outputName ++ pipeNewline
                      else output
        some (output, true)
      else
        some (printStmtLoop outputName pipe blank pipeNewline (args.length - 1) 0 outputName args,
              mayNeedPrettyPrint)

/-- apostr is the apostrophe character, used inside injected C++ helper text. -/
def apostr : GoStr := ['\'']

/-- stringsContainsHelper is the C++ helper text injected for
strings.Contains. -/
def stringsContainsHelper : GoStr :=
  str "inline auto stringsContains(std::string const& a, std::string const& b) -> bool \x7b return a.find(b) != std::string::npos; \x7d"

/-- stringsHasPrefixHelper is the C++ helper text injected for
strings.HasPrefix. -/
def stringsHasPrefixHelper : GoStr :=
  str "inline auto stringsHasPrefix(std::string const& givenString, std::string const& prefix) -> auto \x7b return 0 == givenString.find(prefix); \x7d"

/-- formatOutputHelperFull is the generic formatting helper with the
string-conversion special cases, as written in the source. -/
def formatOutputHelperFull : GoStr :=
  str "template<typename T>\nusing _str_t = decltype( std::declval<T&>()._str() );\n\ntemplate<typename T>\nusing _p_str_t = decltype( std::declval<T&>()->_str() );\n\ntemplate <typename T> void _format_output(std::ostream& out, T x)\n\x7b\n    if constexpr (std::is_same<T, bool>::value) \x7b\n        out << std::boolalpha << x << std::noboolalpha;\n    \x7d else if constexpr (std::is_integral<T>::value) \x7b\n        out << static_cast<int>(x);\n    \x7d else if constexpr (std::is_object<T>::value && !std::is_pointer<T>::value && std::experimental::is_detected_v<_str_t, T>) \x7b\n        out << x._str();\n    \x7d else if constexpr (std::is_object<T>::value && std::is_pointer<T>::value && std::experimental::is_detected_v<_p_str_t, T>) \x7b\n        out << \"&\" << x->_str();\n    \x7d else \x7b\n        out << x;\n    \x7d\n\x7d"

/-- formatOutputHelperSmall is the variant of the formatting helper without
the string-conversion special case, injected when pretty printing is used
but no struct is present. -/
def formatOutputHelperSmall : GoStr :=
  str "template <typename T> void _format_output(std::ostream& out, T x)\n\x7b\n    if constexpr (std::is_same<T, bool>::value) \x7b\n        out << std::boolalpha << x << std::noboolalpha;\n    \x7d else if constexpr (std::is_integral<T>::value) \x7b\n        out << static_cast<int>(x);\n    \x7d else \x7b\n        out << x;\n    \x7d\n\x7d"

/-- stringsTrimSpaceHelper is the C++ helper text injected for
strings.TrimSpace (built around its C++ character literals). -/
def stringsTrimSpaceHelper : GoStr :=
  str "inline auto stringsTrimSpace(std::string const& s) -> std::string \x7b std::string news \x7b\x7d; for (auto l : s) \x7b if (l != " ++
  apostr ++ str " " ++ apostr ++ str " && l != " ++ apostr ++ str "\\n" ++ apostr ++ str " && l != " ++
  apostr ++ str "\\t" ++ apostr ++ str " && l != " ++ apostr ++ str "\\v" ++ apostr ++ str " && l != " ++
  apostr ++ str "\\f" ++ apostr ++ str " && l != " ++ apostr ++ str "\\r" ++ apostr ++
  str ") \x7b news += l; \x7d \x7d return news; \x7d"

/-- addFunctionsEntry models one iteration of the replacement loop of the
source's `AddFunctions`. -/
def addFunctionsEntry (output : GoStr) (kv : GoStr × GoStr) : GoStr :=
  if goContains output kv.1 then
    kv.2 ++ str "\n" ++ goReplaceAll output kv.1 (goReplaceAll kv.1 (str ".") [])
  else output

/-- addFunctionsTable is the replacements map of the source's `AddFunctions`
written as an association list in source-listing order, with the small
formatting helper substituted when useFormatOutput is set and no struct was
seen. -/
def addFunctionsTable (useFormatOutput haveStructs : Bool) : List (GoStr × GoStr) :=
  [(str "strings.Contains", stringsContainsHelper),
   (str "strings.HasPrefix", stringsHasPrefixHelper),
   (str "_format_output",
    if useFormatOutput && !haveStructs then formatOutputHelperSmall
    else formatOutputHelperFull),
   (str "strings.TrimSpace", stringsTrimSpaceHelper)]

/-- AddFunctions translates the source's `AddFunctions`.  The Go code ranges
over its replacements map with `for k, v := range replacements`, and the Go
runtime randomizes map iteration order on every call, so the order in which
the triggered helpers are injected is not determined by the inputs; the
model therefore takes the run's iteration order as an explicit argument.  A
run of the Go function on `source` with flags `u`, `h` is modelled by
`AddFunctions order source` for some permutation `order` of
`addFunctionsTable u h`. -/
def AddFunctions (order : List (GoStr × GoStr)) (source : GoStr) : GoStr :=
  order.foldl addFunctionsEntry source

/-- includesTable is the symbol-to-header association of the source's
`AddIncludes`, in the order listed in the source. -/
def includesTable : List (GoStr × GoStr) :=
  [(str "std::tuple", str "tuple"),
   (str "std::endl", str "iostream"),
   (str "std::cout", str "iostream"),
   (str "std::string", str "string"),
   (str "std::size", str "iterator"),
   (str "std::unordered_map", str "unordered_map"),
   (str "std::hash", str "functional"),
   (str "std::size_t", str "cstddef"),
   (str "std::int8_t", str "cinttypes"),
   (str "std::int16_t", str "cinttypes"),
   (str "std::int32_t", str "cinttypes"),
   (str "std::int64_t", str "cinttypes"),
   (str "std::uint8_t", str "cinttypes"),
   (str "std::uint16_t", str "cinttypes"),
   (str "std::uint32_t", str "cinttypes"),
   (str "std::uint64_t", str "cinttypes"),
   (str "printf", str "cstdio"),
   (str "fprintf", str "cstdio"),
   (str "sprintf", str "cstdio"),
   (str "snprintf", str "cstdio"),
   (str "std::stringstream", str "sstream"),
   (str "std::is_pointer", str "type_traits"),
   (str "std::experimental::is_detected_v", str "experimental/type_traits")]

/-- addIncludesEntry models one iteration of the include-gathering loop of
the source's `AddIncludes`, accumulating the include string. -/
def addIncludesEntry (output : GoStr) (includeString : GoStr) (kv : GoStr × GoStr) : GoStr :=
  if goContains output kv.1 then
    let newInclude := str "#include <" ++ kv.2 ++ str ">\n"
    if !goContains includeString newInclude then includeString ++ newInclude
    else includeString
  else includeString

/-- AddIncludes translates the source's `AddIncludes`.  The Go code ranges
over its includes map with `for k, v := range includes`, and the Go runtime
randomizes map iteration order on every call, so the order of the collected
`#include` lines is not determined by the input; the model therefore takes
the run's iteration order as an explicit argument.  A run of the Go
function on `source` is modelled by `AddIncludes order source` for some
permutation `order` of `includesTable`. -/
def AddIncludes (order : List (GoStr × GoStr)) (source : GoStr) : GoStr :=
  (order.foldl (addIncludesEntry source) []) ++ str "\n" ++ source

/-- LState models the local per-run variables of the source's `go2cpp`
except the output line accumulator. -/
structure LState where
  currentReturnType : GoStr
  currentFunctionName : GoStr
  inImport : Bool
  inVar : Bool
  inType : Bool
  inConst : Bool
  inHashMap : Bool
  hashKeyType : GoStr
  curlyCount : Int
  encounteredHashMaps : List GoStr
  encounteredStructNames : List GoStr
  inStruct : Bool
  usePrettyPrint : Bool
deriving DecidableEq, Repr

/-- initLState models the local variables of `go2cpp` at the start of a
run. -/
def initLState : LState :=
  ⟨[], [], false, false, false, false, false, [], 0, [], [], false, false⟩

/-- processDispatch models the if/else-if dispatch chain in the body of the
source's `go2cpp` loop, from the inImport test to the default-case test: it
receives the already comment-stripped, trimmed, semicolon-stripped line
`t1`, the raw line, and the current states, and produces the (possibly
empty) emitted text for this line before the closing-brace and terminator
post-processing, together with the updated states.  `none` in the first
component of the result means the branch executed `continue` (no output and
no post-processing). -/
def processDispatch (g : GState) (l : LState) (line t1 : GoStr) :
    Option (Option GoStr × GState × LState) :=
  if l.inImport && goContains t1 (str ")") then
    some (none, g, { l with inImport := false })
  else if l.inImport then
    some (none, g, l)
  else if l.inVar && goContains t1 (str ")") then
    some (none, g, { l with inVar := false })
  else if l.inType && goContains t1 (str ")") then
    some (none, g, { l with inType := false })
  else if l.inConst && goContains t1 (str ")") then
    some (none, g, { l with inConst := false })
  else if l.inHashMap && t1 = str "\x7d" then
    some (some (t1 ++ str ";"), g, { l with inHashMap := false })
  else if l.inVar || (l.inStruct && t1 ≠ str "\x7d") then
    match VarDeclaration t1 with
    | none => none
    | some (newLine, name) =>
        if l.inStruct then
          some (some newLine, g,
                { l with encounteredStructNames := l.encounteredStructNames ++ [name] })
        else some (some newLine, g, l)
  else if l.inType then
    match TypeDeclaration t1 with
    | none => none
    | some (newLine, inStruct') =>
        let l' := { l with inStruct := inStruct' }
        if !l.inStruct && inStruct' then
          some (some newLine, g, { l' with encounteredStructNames := [] })
        else some (some newLine, g, l')
  else if l.inConst then
    match ConstDeclaration g line with
    | none => none
    | some (newLine, g') => some (some newLine, g', l)
  else if l.inHashMap then
    match HashElements t1 l.hashKeyType false with
    | none => none
    | some newLine => some (some newLine, g, l)
  else if goStartsWith t1 (str "func") then
    match FunctionSignature t1 with
    | none => none
    | some (newLine, rt, fn) =>
        some (some newLine, g, { l with currentReturnType := rt, currentFunctionName := fn })
  else if goStartsWith t1 (str "for") then
    match ForLoop line l.encounteredHashMaps with
    | none => none
    | some newLine => some (some newLine, g, l)
  else if goStartsWith t1 (str "switch") then
    match Switch g line with
    | none => none
    | some (newLine, g') => some (some newLine, g', l)
  else if goStartsWith t1 (str "case") then
    match Case g line with
    | none => none
    | some (newLine, g') => some (some newLine, g', l)
  else if goStartsWith t1 (str "return") then
    if goStartsWith l.currentReturnType tupleType then
      match (goSplitN2 line (str "return "))[1]? with
      | none => none
      | some e1 =>
          some (some (str "return " ++ l.currentReturnType ++ str "\x7b" ++ e1 ++ str "\x7d;"),
                g, l)
    else some (some line, g, l)
  else if goStartsWith t1 (str "fmt.Print") || goStartsWith t1 (str "print") then
    match PrintStatement t1 with
    | none => none
    | some (newLine, pp) =>
        some (some newLine, g, if pp then { l with usePrettyPrint := true } else l)
  else if goContains t1 (str "=") && !goStartsWith t1 (str "var ") &&
          !goStartsWith t1 (str "if ") && !goStartsWith t1 (str "const ") &&
          !goStartsWith t1 (str "type ") then
    let elem := goSplit t1 (str "=")
    let left0 := goTrimSpace (elem.getD 0 [])
    let declarationAssignment := goEndsWith left0 (str ":")
    let left := if declarationAssignment then left0.take (left0.length - 1) else left0
    let right0 := goTrimSpace (elem.getD 1 [])
    let right :=
      if goStartsWith right0 (str "&") && goContains right0 (str "\x7b") &&
         goContains right0 (str "\x7d") then str "new " ++ right0.drop 1
      else right0
    if goContains left (str ",") then
      some (some (str "auto [" ++ left ++ str "] = " ++ right), g, l)
    else if declarationAssignment then
      if goStartsWith right (str "[]") then
        match leftBetween right (str "]") (str "\x7b") with
        | none => none
        | some inner =>
            let theType := TypeReplace inner
            match (goSplitN2 right (str "\x7b"))[1]? with
            | none => none
            | some f1 =>
                some (some (theType ++ str " " ++ goTrimSpace left ++ str "[] \x7b" ++ f1), g, l)
      else if goStartsWith right (str "map[") then
        let hashName := goTrimSpace left
        let l1 := { l with encounteredHashMaps := l.encounteredHashMaps ++ [hashName] }
        match leftBetween right (str "map[") (str "]"), leftBetween right (str "]") (str "\x7b") with
        | some kInner, some vInner =>
            let keyType := TypeReplace kInner
            let valueType := TypeReplace vInner
            let closingBracket := goEndsWith (goTrimSpace right) (str "\x7d")
            if !closingBracket then
              some (some (str "std::unordered_map<" ++ keyType ++ str ", " ++ valueType ++
                          str "> " ++ hashName ++ str " \x7b"), g,
                    { l1 with inHashMap := true, hashKeyType := keyType })
            else
              match leftBetween right (str "\x7b") (str "\x7d") with
              | none => none
              | some elements =>
                  match HashElements elements keyType false with
                  | none => none
                  | some he =>
                      some (some (str "std::unordered_map<" ++ keyType ++ str ", " ++
                                  valueType ++ str "> " ++ hashName ++ str " " ++ he), g, l1)
        | _, _ => none
      else
        some (some (str "auto " ++ goTrimSpace left ++ str " = " ++ goTrimSpace right), g, l)
    else
      some (some (left ++ str " = " ++ right), g, l)
  else if goStartsWith t1 (str "package ") then
    some (none, g, l)
  else if goStartsWith t1 (str "import") then
    let im := if goContains t1 (str "(") then true else l.inImport
    let im := if goContains t1 (str ")") then false else im
    some (none, g, { l with inImport := im })
  else if goStartsWith t1 (str "if ") then
    match IfSentence line with
    | none => none
    | some newLine => some (some newLine, g, l)
  else if goStartsWith t1 (str "\x7d else if ") then
    match ElseIfSentence line with
    | none => none
    | some newLine => some (some newLine, g, l)
  else if t1 = str "var (" then
    some (none, g, { l with inVar := true })
  else if t1 = str "type (" then
    some (none, g, { l with inType := true })
  else if t1 = str "const (" then
    some (none, g, { l with inConst := true })
  else if goStartsWith t1 (str "var ") then
    match VarDeclaration line with
    | none => none
    | some (newLine, _) => some (some newLine, g, l)
  else if goStartsWith t1 (str "type ") then
    match TypeDeclaration t1 with
    | none => none
    | some (newLine, inStruct') => some (some newLine, g, { l with inStruct := inStruct' })
  else if goStartsWith t1 (str "const ") then
    match ConstDeclaration g t1 with
    | none => none
    | some (newLine, g') => some (some newLine, g', l)
  else if t1 = str "fallthrough" then
    some (some (str "goto " ++ LabelName g ++ str "; // fallthrough"),
          { g with switchLabel := LabelName g, labelCounter := g.labelCounter + 1 }, l)
  else if t1 = str "default:" then
    if g.switchLabel ≠ [] then
      some (some (str "\x7d else \x7b // default case" ++ str "\n" ++ g.switchLabel ++ str ":"),
            { g with switchLabel := [] }, l)
    else
      some (some (str "\x7d else \x7b // default case"), g, l)
  else
    some (some line, g, l)

/-- processLine models one full iteration of the source's `go2cpp` line
loop: comment stripping, semicolon stripping, brace counting, the dispatch,
and the closing-brace / string-method / statement-terminator
post-processing; semiStrip models the trailing-semicolon strip. -/
def semiStrip (t : GoStr) : GoStr :=
  if goEndsWith t (str ";") then t.take (t.length - 1) else t

/-- processLine models one full iteration of the source's `go2cpp` line
loop: comment stripping, semicolon stripping, brace counting, the dispatch,
and the closing-brace / string-method / statement-terminator
post-processing.  The first component of a successful result is the list
(empty or singleton) of lines appended to the output for this input line. -/
def processLine (g : GState) (l : LState) (line : GoStr) :
    Option (List GoStr × GState × LState) :=
  let trimmedLine := stripSingleLineComment (goTrimSpace line)
  if goStartsWith trimmedLine (str "//") then some ([trimmedLine], g, l)
  else
    let t1 := semiStrip trimmedLine
    if t1.length = 0 then some ([line], g, l)
    else
      let l := { l with curlyCount := l.curlyCount +
        ((goCount t1 (str "\x7b") : Int) - (goCount t1 (str "\x7d") : Int)) }
      match processDispatch g l line t1 with
      | none => none
      | some (none, g', l') => some ([], g', l')
      | some (some newLine0, g', l') =>
          let newLine1 :=
            if l'.currentFunctionName = str "main" && t1 = str "\x7d" && l'.curlyCount = 0 then
              goReplace1 t1 (str "\x7d") (str "return 0;\n\x7d")
            else newLine0
          let (newLine2, l'') :=
            if goEndsWith t1 (str "\x7d") then
              if l'.inStruct then
                (CreateStrMethod l'.encounteredStructNames ++ newLine1 ++ str ";" ++ str "\n",
                 { l' with inStruct := false })
              else (newLine1 ++ str "\n", l')
            else (newLine1, l')
          let newLine3 :=
            if ((!goEndsWith newLine2 (str ";") && !has endings (lastchar t1)) ||
                goContains t1 (str "=")) && !goStartsWith t1 (str "//") &&
               (!has endings (lastchar newLine2) && !goContains newLine2 (str "//")) then
              newLine2 ++ str ";"
            else newLine2
          some ([newLine3], g', l'')

/-- processLines folds processLine over a list of input lines, collecting
the emitted output lines. -/
def processLines (g : GState) (l : LState) : List GoStr →
    Option (List GoStr × GState × LState)
  | [] => some ([], g, l)
  | line :: rest =>
      match processLine g l line with
      | none => none
      | some (out, g', l') =>
          match processLines g' l' rest with
          | none => none
          | some (outs, g'', l'') => some (out ++ outs, g'', l'')

/-- go2cppBody models the line loop of the source's `go2cpp` together with
the join of the collected lines: the output text before the whole-program
post-processing passes, with the final states. -/
def go2cppBody (g : GState) (source : GoStr) : Option (GoStr × GState × LState) :=
  match processLines g initLState (goSplit source (str "\n")) with
  | none => none
  | some (outs, g', l') => some (goJoin outs (str "\n"), g', l')

/-- go2cpp models the source's `go2cpp` as a function of the package-level
state, the input text, and the iteration orders the Go runtime chooses for
the two map-ranging post-processing passes (`fOrder` for the helper map of
`AddFunctions`, `iOrder` for the include map of `AddIncludes`): the
translated C++ text and the package-level state after the run.  A run of
the Go function corresponds to some `fOrder` permuting
`addFunctionsTable usePrettyPrint haveStructs` (the flags the run computed
in its local state) and some `iOrder` permuting `includesTable`.  `none`
models the process aborts (the backtick check's os.Exit and the panics of
the transformers). -/
def go2cpp (fOrder iOrder : List (GoStr × GoStr)) (g : GState) (source : GoStr) :
    Option (GoStr × GState) :=
  if goContains source [Char.ofNat 96] then none
  else
    match go2cppBody g source with
    | none => none
    | some (out, g', _) =>
        let out := LiteralStrings out
        let out := WholeProgramReplace out
        let out := AddFunctions fOrder out
        let out := AddIncludes iOrder out
        some (out, g')

/-!
Supporting lemmas about the string models, used by the symbolic claim
proofs below.
-/

set_option maxRecDepth 40000

section Library

theorem isPrefixOf_eq_false_of_not_prefix {p s : GoStr} (h : ¬ p <+: s) :
    p.isPrefixOf s = false :=
  Bool.eq_false_iff.mpr (fun he => h (List.isPrefixOf_iff_prefix.mp he))

theorem goIndex_of_isPrefixOf {s sub : GoStr} (h : sub.isPrefixOf s = true) :
    goIndex s sub = some 0 := by
  cases s with
  | nil =>
      have : sub = [] := List.prefix_nil.mp (List.isPrefixOf_iff_prefix.mp h)
      simp [goIndex, this]
  | cons c t => simp [goIndex, h]

theorem goIndex_cons_not_prefix {sub : GoStr} {c : Char} {t : GoStr}
    (h : sub.isPrefixOf (c :: t) = false) :
    goIndex (c :: t) sub = (goIndex t sub).map (· + 1) := by
  simp [goIndex, h]

theorem goIndex_eq_none_iff {s sub : GoStr} : goIndex s sub = none ↔ ¬ sub <:+: s := by
  induction s with
  | nil =>
      constructor
      · intro h hinf
        have he : sub = [] := List.infix_nil.mp hinf
        simp [goIndex, he] at h
      · intro h
        have hne : ¬ sub.isEmpty := by
          intro he
          exact h (by simp [List.isEmpty_iff] at he; simp [he])
        simp [goIndex, hne]
  | cons c t ih =>
      by_cases hp : sub <+: c :: t
      · rw [goIndex_of_isPrefixOf (List.isPrefixOf_iff_prefix.mpr hp)]
        constructor
        · intro h; exact (Option.some_ne_none _ h).elim
        · intro h; exact (h hp.isInfix).elim
      · rw [ goIndex_cons_not_prefix ( isPrefixOf_eq_false_of_not_prefix hp)]
        rw [List.infix_cons_iff]
        simp only [Option.map_eq_none']
        constructor
        · intro h hor
          rcases hor with hpre | hinf
          · exact hp hpre
          · exact (ih.mp h) hinf
        · intro h
          exact ih.mpr (fun hinf => h (Or.inr hinf))

theorem goIndex_bound {s sub : GoStr} {i : Nat} (h : goIndex s sub = some i) :
    i + sub.length ≤ s.length := by
  induction s generalizing i with
  | nil =>
      simp [goIndex, List.isEmpty_iff] at h
      obtain ⟨h1, h2⟩ := h
      simp [h1, ← h2]
  | cons c t ih =>
      by_cases hp : sub <+: c :: t
      · rw [goIndex_of_isPrefixOf (List.isPrefixOf_iff_prefix.mpr hp)] at h
        cases h
        simpa using hp.length_le
      · rw [ goIndex_cons_not_prefix ( isPrefixOf_eq_false_of_not_prefix hp)] at h
        cases hj : goIndex t sub with
        | none => simp [hj] at h
        | some j =>
            simp [hj] at h
            have := ih hj
            simp [← h, List.length_cons]
            omega

theorem goIndex_append_notMem {p : GoStr} {hc : Char} (hp : p.head? = some hc)
    {a s : GoStr} (ha : hc ∉ a) :
    goIndex (a ++ s) p = (goIndex s p).map (· + a.length) := by
  induction a with
  | nil => simp [Option.map_id']
  | cons c a' ih =>
      have hne : hc ≠ c := fun he => ha (he ▸ List.mem_cons_self c a')
      have hnp : p.isPrefixOf (c :: (a' ++ s)) = false := by
        cases p with
        | nil => simp at hp
        | cons d q =>
            cases hp
            simp only [List.isPrefixOf]
            rw [beq_eq_false_iff_ne.mpr hne]
            rfl
      have ha' : hc ∉ a' := fun hm => ha (List.mem_cons_of_mem c hm)
      rw [List.cons_append, goIndex_cons_not_prefix hnp, ih ha']
      cases goIndex s p
      · simp
      · simp [List.length_cons]
        omega

theorem goIndex_boundary {p : GoStr} {hc : Char} (hp : p.head? = some hc)
    {a b : GoStr} (ha : hc ∉ a) :
    goIndex (a ++ p ++ b) p = some a.length := by
  rw [List.append_assoc, goIndex_append_notMem hp ha,
      goIndex_of_isPrefixOf (List.isPrefixOf_iff_prefix.mpr (List.prefix_append p b))]
  simp

theorem goContains_of_infix {s p : GoStr} (h : p <:+: s) : goContains s p = true := by
  unfold goContains
  cases hi : goIndex s p with
  | none => exact absurd h (goIndex_eq_none_iff.mp hi)
  | some i => rfl

theorem goContains_eq_false_of_not_infix {s p : GoStr} (h : ¬ p <:+: s) :
    goContains s p = false := by
  unfold goContains
  rw [goIndex_eq_none_iff.mpr h]
  rfl

theorem not_infix_of_not_mem {p s : GoStr} {c : Char} (hc : c ∈ p) (h : c ∉ s) :
    ¬ p <:+: s :=
  fun hinf => h (hinf.mem hc)

theorem singleton_infix_iff_mem {c : Char} {s : GoStr} : [c] <:+: s ↔ c ∈ s := by
  constructor
  · intro h; exact h.mem (List.mem_singleton_self c)
  · intro h
    obtain ⟨u, v, rfl⟩ := List.append_of_mem h
    exact ⟨u, v, by simp⟩

end Library

section Library2

theorem goCountF_fuel {sub : GoStr} (hsub : sub ≠ []) :
    ∀ (f1 : Nat) (s : GoStr) (f2 : Nat), s.length < f1 → s.length < f2 →
      goCountF f1 s sub = goCountF f2 s sub := by
  intro f1
  induction f1 with
  | zero => intro s f2 h1 _; omega
  | succ f1' ih =>
      intro s f2 h1 h2
      cases f2 with
      | zero => omega
      | succ f2' =>
          cases hi : goIndex s sub with
          | none => simp only [goCountF, hi]
          | some i =>
              have hb := goIndex_bound hi
              have hlen : sub.length ≥ 1 := by
                cases sub with
                | nil => exact absurd rfl hsub
                | cons _ _ => simp
              have hd : (s.drop (i + sub.length)).length < f1' := by
                simp [List.length_drop]; omega
              have hd2 : (s.drop (i + sub.length)).length < f2' := by
                simp [List.length_drop]; omega
              simp only [goCountF, hi]
              rw [ih _ _ hd hd2]

theorem length_pos_of_ne_nil {sub : GoStr} (hsub : sub ≠ []) : 1 ≤ sub.length := by
  cases sub with
  | nil => exact absurd rfl hsub
  | cons _ _ => simp

theorem goCountF_eq_goCount {sub : GoStr} (hsub : sub ≠ []) {f : Nat} {s : GoStr}
    (h : s.length < f) : goCountF f s sub = goCount s sub := by
  unfold goCount
  rw [if_neg (by simp [List.isEmpty_iff, hsub])]
  exact goCountF_fuel hsub f s (s.length + 1) h (by omega)

theorem goCount_eq (s : GoStr) {sub : GoStr} (hsub : sub ≠ []) :
    goCount s sub =
      (match goIndex s sub with
       | none => 0
       | some i => 1 + goCount (s.drop (i + sub.length)) sub) := by
  rw [← goCountF_eq_goCount hsub (show s.length < s.length + 1 by omega)]
  cases hi : goIndex s sub with
  | none => simp only [goCountF, hi]
  | some i =>
      have hb := goIndex_bound hi
      have hlen := length_pos_of_ne_nil hsub
      simp only [goCountF, hi]
      congr 1
      exact goCountF_eq_goCount hsub (by simp [List.length_drop]; omega)

theorem goCount_eq_zero_of_not_infix {s sub : GoStr} (h : ¬ sub <:+: s) :
    goCount s sub = 0 := by
  have hsub : sub ≠ [] := by
    intro he
    apply h
    rw [he]
    exact List.nil_infix
  rw [goCount_eq s hsub, goIndex_eq_none_iff.mpr h]

theorem goCount_single_char {c : Char} {a b : GoStr} (ha : c ∉ a) (hb : c ∉ b) :
    goCount (a ++ [c] ++ b) [c] = 1 := by
  rw [goCount_eq _ (by simp), @goIndex_boundary [c] c rfl a b ha]
  have : (a ++ [c] ++ b).drop (a.length + 1) = b := by
    have : a ++ [c] ++ b = (a ++ [c]) ++ b := by simp
    rw [this]
    have hl : (a ++ [c]).length = a.length + 1 := by simp
    rw [← hl, List.drop_left]
  simp only [List.length_singleton, this]
  rw [ goCount_eq_zero_of_not_infix (by rw [singleton_infix_iff_mem]; exact hb)]

end Library2

section Library3

theorem goSplitF_fuel {sep : GoStr} (hsep : sep ≠ []) :
    ∀ (f1 : Nat) (s : GoStr) (f2 : Nat), s.length < f1 → s.length < f2 →
      goSplitF f1 s sep = goSplitF f2 s sep := by
  intro f1
  induction f1 with
  | zero => intro s f2 h1 _; omega
  | succ f1' ih =>
      intro s f2 h1 h2
      cases f2 with
      | zero => omega
      | succ f2' =>
          cases hi : goIndex s sep with
          | none => simp only [goSplitF, hi]
          | some i =>
              have hb := goIndex_bound hi
              have hlen := length_pos_of_ne_nil hsep
              have hd : (s.drop (i + sep.length)).length < f1' := by
                simp [List.length_drop]; omega
              have hd2 : (s.drop (i + sep.length)).length < f2' := by
                simp [List.length_drop]; omega
              simp only [goSplitF, hi]
              rw [ih _ _ hd hd2]

theorem goSplitF_eq_goSplit {sep : GoStr} (hsep : sep ≠ []) {f : Nat} {s : GoStr}
    (h : s.length < f) : goSplitF f s sep = goSplit s sep := by
  unfold goSplit
  rw [if_neg (by simp [List.isEmpty_iff, hsep])]
  exact goSplitF_fuel hsep f s (s.length + 1) h (by omega)

theorem goSplit_eq (s : GoStr) {sep : GoStr} (hsep : sep ≠ []) :
    goSplit s sep =
      (match goIndex s sep with
       | none => [s]
       | some i => s.take i :: goSplit (s.drop (i + sep.length)) sep) := by
  rw [← goSplitF_eq_goSplit hsep (show s.length < s.length + 1 by omega)]
  cases hi : goIndex s sep with
  | none => simp only [goSplitF, hi]
  | some i =>
      have hb := goIndex_bound hi
      have hlen := length_pos_of_ne_nil hsep
      simp only [goSplitF, hi]
      congr 1
      exact goSplitF_eq_goSplit hsep (by simp [List.length_drop]; omega)

theorem goSplit_of_not_infix {s sep : GoStr} (hsep : sep ≠ []) (h : ¬ sep <:+: s) :
    goSplit s sep = [s] := by
  rw [goSplit_eq s hsep, goIndex_eq_none_iff.mpr h]

theorem drop_boundary (a p b : GoStr) :
    (a ++ p ++ b).drop (a.length + p.length) = b := by
  have h1 : a ++ p ++ b = (a ++ p) ++ b := by simp
  rw [h1, ← List.length_append a p, List.drop_left]

theorem take_boundary (a p b : GoStr) :
    (a ++ p ++ b).take a.length = a := by
  rw [List.append_assoc, List.take_left]

theorem goSplit_boundary {p : GoStr} {hc : Char} (hp : p.head? = some hc)
    {a b : GoStr} (ha : hc ∉ a) (hne : p ≠ []) :
    goSplit (a ++ p ++ b) p = a :: goSplit b p := by
  rw [goSplit_eq _ hne, goIndex_boundary hp ha]
  dsimp only
  rw [take_boundary, drop_boundary]

theorem goSplitN2_of_not_infix {s p : GoStr} (h : ¬ p <:+: s) :
    goSplitN2 s p = [s] := by
  unfold goSplitN2
  rw [goIndex_eq_none_iff.mpr h]

theorem goSplitN2_boundary {p : GoStr} {hc : Char} (hp : p.head? = some hc)
    {a b : GoStr} (ha : hc ∉ a) :
    goSplitN2 (a ++ p ++ b) p = [a, b] := by
  unfold goSplitN2
  rw [goIndex_boundary hp ha]
  dsimp only
  rw [take_boundary, drop_boundary]

theorem goReplaceAllF_fuel {old : GoStr} (hold : old ≠ []) (new : GoStr) :
    ∀ (f1 : Nat) (s : GoStr) (f2 : Nat), s.length < f1 → s.length < f2 →
      goReplaceAllF f1 s old new = goReplaceAllF f2 s old new := by
  intro f1
  induction f1 with
  | zero => intro s f2 h1 _; omega
  | succ f1' ih =>
      intro s f2 h1 h2
      cases f2 with
      | zero => omega
      | succ f2' =>
          cases hi : goIndex s old with
          | none => simp only [goReplaceAllF, hi]
          | some i =>
              have hb := goIndex_bound hi
              have hlen := length_pos_of_ne_nil hold
              have hd : (s.drop (i + old.length)).length < f1' := by
                simp [List.length_drop]; omega
              have hd2 : (s.drop (i + old.length)).length < f2' := by
                simp [List.length_drop]; omega
              simp only [goReplaceAllF, hi]
              rw [ih _ _ hd hd2]

theorem goReplaceAllF_eq {old : GoStr} (hold : old ≠ []) {new : GoStr} {f : Nat} {s : GoStr}
    (h : s.length < f) : goReplaceAllF f s old new = goReplaceAll s old new := by
  unfold goReplaceAll
  rw [if_neg (by simp [List.isEmpty_iff, hold])]
  exact goReplaceAllF_fuel hold new f s (s.length + 1) h (by omega)

theorem goReplaceAll_eq (s : GoStr) {old : GoStr} (hold : old ≠ []) (new : GoStr) :
    goReplaceAll s old new =
      (match goIndex s old with
       | none => s
       | some i => s.take i ++ new ++ goReplaceAll (s.drop (i + old.length)) old new) := by
  rw [← goReplaceAllF_eq hold (show s.length < s.length + 1 by omega)]
  cases hi : goIndex s old with
  | none => simp only [goReplaceAllF, hi]
  | some i =>
      have hb := goIndex_bound hi
      have hlen := length_pos_of_ne_nil hold
      simp only [goReplaceAllF, hi]
      congr 1
      exact goReplaceAllF_eq hold (by simp [List.length_drop]; omega)

theorem goReplaceAll_of_not_infix {s old new : GoStr} (h : ¬ old <:+: s) :
    goReplaceAll s old new = s := by
  by_cases hold : old = []
  · simp [goReplaceAll, hold]
  · rw [goReplaceAll_eq s hold new, goIndex_eq_none_iff.mpr h]

theorem goReplaceAll_boundary {old : GoStr} {hc : Char} (hp : old.head? = some hc)
    {a b : GoStr} (ha : hc ∉ a) (hb : ¬ old <:+: b) (new : GoStr) :
    goReplaceAll (a ++ old ++ b) old new = a ++ new ++ b := by
  have hne : old ≠ [] := by
    intro he
    rw [he] at hp
    simp at hp
  rw [goReplaceAll_eq _ hne, goIndex_boundary hp ha]
  dsimp only
  rw [take_boundary, drop_boundary, goReplaceAll_of_not_infix hb]

theorem goReplace1_boundary {old : GoStr} {hc : Char} (hp : old.head? = some hc)
    {a b : GoStr} (ha : hc ∉ a) (new : GoStr) :
    goReplace1 (a ++ old ++ b) old new = a ++ new ++ b := by
  unfold goReplace1
  rw [goIndex_boundary hp ha]
  dsimp only
  rw [take_boundary, drop_boundary]

theorem goReplace1_of_not_infix {s old new : GoStr} (h : ¬ old <:+: s) :
    goReplace1 s old new = s := by
  unfold goReplace1
  rw [goIndex_eq_none_iff.mpr h]

end Library3

section Library4

theorem dropWhile_eq_self_of_head {p : Char → Bool} {l : GoStr}
    (h : ∀ c, l.head? = some c → p c = false) : l.dropWhile p = l := by
  cases l with
  | nil => rfl
  | cons c t => simp [List.dropWhile_cons, h c rfl]

theorem goTrimSpace_eq_self {s : GoStr}
    (h1 : ∀ c, s.head? = some c → isSpaceChar c = false)
    (h2 : ∀ c, s.getLast? = some c → isSpaceChar c = false) :
    goTrimSpace s = s := by
  unfold goTrimSpace
  rw [dropWhile_eq_self_of_head h1]
  rw [dropWhile_eq_self_of_head (fun c hc => h2 c (by rwa [← List.head?_reverse]))]
  exact List.reverse_reverse s

theorem goTrimSpace_cons_space {c : Char} (h : isSpaceChar c = true) (s : GoStr) :
    goTrimSpace (c :: s) = goTrimSpace s := by
  unfold goTrimSpace
  rw [List.dropWhile_cons_of_pos h]

theorem goTrimSpace_append_space_of_head {c : Char} (hc : isSpaceChar c = true) {x : GoStr}
    (h1 : ∀ d, x.head? = some d → isSpaceChar d = false) :
    goTrimSpace (x ++ [c]) = goTrimSpace x := by
  cases x with
  | nil =>
      unfold goTrimSpace
      simp [List.dropWhile_cons_of_pos hc]
  | cons d t =>
      unfold goTrimSpace
      have hd : isSpaceChar d = false := h1 d rfl
      rw [List.cons_append, List.dropWhile_cons_of_neg (by simp [hd]),
          List.dropWhile_cons_of_neg (by simp [hd])]
      have : (d :: (t ++ [c])).reverse = c :: (d :: t).reverse := by simp
      rw [this, List.dropWhile_cons_of_pos hc]

end Library4

section Library5

/-- isIdentChar: an ASCII letter, digit or underscore. -/
def isIdentChar (c : Char) : Bool :=
  ('a' ≤ c && c ≤ 'z') || ('A' ≤ c && c ≤ 'Z') || ('0' ≤ c && c ≤ '9') || c = '_'

/-- okIdent: a non-empty string of identifier characters. -/
def okIdent (s : GoStr) : Bool :=
  !s.isEmpty && s.all isIdentChar

theorem okIdent_ne_nil {s : GoStr} (h : okIdent s = true) : s ≠ [] := by
  intro he
  simp [okIdent, he] at h

theorem okIdent_all {s : GoStr} (h : okIdent s = true) : ∀ c ∈ s, isIdentChar c = true := by
  intro c hc
  have := (Bool.and_eq_true _ _).mp h
  exact List.all_eq_true.mp this.2 c hc

theorem okIdent_notMem {s : GoStr} (h : okIdent s = true) {c : Char}
    (hc : isIdentChar c = false) : c ∉ s := by
  intro hm
  rw [okIdent_all h c hm] at hc
  cases hc

theorem okIdent_not_infix {s p : GoStr} (h : okIdent s = true) {c : Char}
    (hcp : c ∈ p) (hc : isIdentChar c = false) : ¬ p <:+: s :=
  not_infix_of_not_mem hcp (okIdent_notMem h hc)

theorem isSpaceChar_eq_false_of_isIdentChar {c : Char} (h : isIdentChar c = true) :
    isSpaceChar c = false := by
  revert h
  unfold isIdentChar isSpaceChar
  by_cases h1 : c = ' '
  · subst h1; decide
  · by_cases h2 : c = '\t'
    · subst h2; decide
    · by_cases h3 : c = '\n'
      · subst h3; decide
      · by_cases h4 : c = '\x0b'
        · subst h4; decide
        · by_cases h5 : c = '\x0c'
          · subst h5; decide
          · by_cases h6 : c = '\r'
            · subst h6; decide
            · intro _
              simp [h1, h2, h3, h4, h5, h6]

theorem okIdent_head {s : GoStr} (h : okIdent s = true) :
    ∀ c, s.head? = some c → isSpaceChar c = false := by
  intro c hc
  cases s with
  | nil => simp at hc
  | cons d t =>
      have hdc : d = c := by simpa using hc
      subst hdc
      exact isSpaceChar_eq_false_of_isIdentChar (okIdent_all h d (List.mem_cons_self d t))

theorem okIdent_last {s : GoStr} (h : okIdent s = true) :
    ∀ c, s.getLast? = some c → isSpaceChar c = false := by
  intro c hc
  have hds : s.dropLast ++ [c] = s := List.dropLast_append_getLast? c (by rw [hc]; rfl)
  have hm : c ∈ s := by
    rw [← hds]
    simp
  exact isSpaceChar_eq_false_of_isIdentChar (okIdent_all h c hm)

theorem okIdent_trim {s : GoStr} (h : okIdent s = true) : goTrimSpace s = s :=
  goTrimSpace_eq_self (okIdent_head h) (okIdent_last h)

end Library5

section Library6

theorem goStartsWith_eq_false_of_head_ne {s p : GoStr} {c d : Char}
    (hs : s.head? = some c) (hp : p.head? = some d) (h : c ≠ d) :
    goStartsWith s p = false := by
  cases s with
  | nil => simp at hs
  | cons c0 t =>
      cases p with
      | nil => simp at hp
      | cons d0 q =>
          simp at hs hp
          subst hs; subst hp
          unfold goStartsWith
          simp only [List.isPrefixOf]
          rw [beq_eq_false_iff_ne.mpr (Ne.symm h)]
          rfl

theorem goStartsWith_append {p x : GoStr} : goStartsWith (p ++ x) p = true := by
  unfold goStartsWith
  exact List.isPrefixOf_iff_prefix.mpr (List.prefix_append p x)

theorem getLast?_append_right {x y : GoStr} (hy : y ≠ []) :
    (x ++ y).getLast? = y.getLast? :=
  List.getLast?_append_of_ne_nil x hy

theorem goEndsWith_eq_false_of_last_ne {s p : GoStr} {c d : Char}
    (hs : s.getLast? = some c) (hp : p.getLast? = some d) (h : c ≠ d) :
    goEndsWith s p = false := by
  rw [goEndsWith]
  rw [Bool.eq_false_iff]
  intro hsuff
  obtain ⟨t, rfl⟩ := List.isSuffixOf_iff_suffix.mp hsuff
  have hpne : p ≠ [] := by
    intro he
    rw [he] at hp
    simp at hp
  rw [getLast?_append_right hpne, hp] at hs
  have : d = c := by injection hs
  exact h this.symm

theorem goEndsWith_append {p x : GoStr} : goEndsWith (x ++ p) p = true := by
  rw [goEndsWith]
  exact List.isSuffixOf_iff_suffix.mpr (List.suffix_append x p)

end Library6

theorem goLastIndex_bound {s sub : GoStr} {i : Nat} (h : goLastIndex s sub = some i) :
    i + sub.length ≤ s.length := by
  induction s generalizing i with
  | nil =>
      simp [goLastIndex, List.isEmpty_iff] at h
      obtain ⟨h1, h2⟩ := h
      simp [h1, ← h2]
  | cons c t ih =>
      rw [goLastIndex] at h
      cases hj : goLastIndex t sub with
      | some j =>
          rw [hj] at h
          have := ih hj
          simp at h
          simp [← h, List.length_cons]
          omega
      | none =>
          rw [hj] at h
          by_cases hp : sub.isPrefixOf (c :: t) = true
          · rw [if_pos hp] at h
            have hle := (List.isPrefixOf_iff_prefix.mp hp).length_le
            simp at h
            simp [← h]
            simpa using hle
          · rw [if_neg hp] at h
            cases h

theorem goSlice_infix {s : GoStr} {lo hi : Nat} {r : GoStr} (h : goSlice s lo hi = some r) :
    r <:+: s := by
  unfold goSlice at h
  by_cases hc : lo ≤ hi ∧ hi ≤ s.length
  · rw [if_pos hc] at h
    have : r = (s.take hi).drop lo := by injection h with h2; exact h2.symm
    rw [this]
    exact (List.drop_suffix _ _).isInfix.trans (List.take_prefix _ _).isInfix
  · rw [if_neg hc] at h
    cases h


/-!
Claim theorems.
-/

/-- C1 counterexample: translating the same source text twice does not
always yield identical output.  On the input `switch x {` the first run
names the hidden switch temporary `_s__0` and the second run, started from
the package-level state the first run left behind, names it `_s__1`: the
package-level counters are shared across translation runs.  Both runs here
use the source-listing iteration orders for the two map-ranging passes —
one possible outcome of the randomized per-call map orders (the run sets
neither the pretty-print flag nor a struct, so the helper table's flags are
false). -/
theorem c1_two_runs_differ_counterexample :
    go2cpp (addFunctionsTable false false) includesTable initGState (str "switch x \x7b") =
      some (str "\nauto _s__0 = x; // switch on x", ⟨0, true, [], 0, 0⟩) ∧
    go2cpp (addFunctionsTable false false) includesTable ⟨0, true, [], 0, 0⟩
        (str "switch x \x7b") =
      some (str "\nauto _s__1 = x; // switch on x", ⟨1, true, [], 0, 0⟩) ∧
    str "\nauto _s__0 = x; // switch on x" ≠ str "\nauto _s__1 = x; // switch on x" := by
  refine ⟨by decide, by decide, by decide⟩

/-- C1 amended: the translation's output is determined by the input text,
the package-level counter state, and the map iteration orders the Go
runtime picks for the helper- and include-injection passes — not by the
input alone.  Beyond the counter divergence of the counterexample, the
include order alone can differ between runs: on an input that triggers two
distinct includes, two valid iteration orders of the include map (both
permutations of the include table; the helper pass uses its source-listing
order, matching the run's flags, both false here) produce different
outputs on the same input from the same counter state, while both runs
leave that state unchanged. -/
theorem c1_output_depends_on_include_order :
    ∃ io1 io2 : List (GoStr × GoStr),
      io1.Perm includesTable ∧ io2.Perm includesTable ∧
      ∃ out1 out2 : GoStr,
        go2cpp (addFunctionsTable false false) io1 initGState
            (str "func f() (int, int) \x7b\n\tvar s string\n\x7d") =
          some (out1, initGState) ∧
        go2cpp (addFunctionsTable false false) io2 initGState
            (str "func f() (int, int) \x7b\n\tvar s string\n\x7d") =
          some (out2, initGState) ∧
        out1 ≠ out2 := by
  refine ⟨includesTable,
    (str "std::string", str "string") :: (str "std::tuple", str "tuple") ::
      (str "std::endl", str "iostream") :: (str "std::cout", str "iostream") ::
      includesTable.drop 4,
    List.Perm.refl _, by decide,
    str "#include <tuple>\n#include <string>\n\nauto f() -> std::tuple<int, int> \x7b\nstd::string s;\n\x7d\n",
    str "#include <string>\n#include <tuple>\n\nauto f() -> std::tuple<int, int> \x7b\nstd::string s;\n\x7d\n",
    by decide, by decide, by decide⟩

/-- C2 counterexample: on the discard-index list-value loop header
`for _, v := range list` with `list` not registered as a map, the loop
transformer does not signal an abort: it returns a C++ range-based value
loop (with the elemvar's surrounding spaces kept, giving double blanks). -/
theorem c2_discard_index_list_no_abort_counterexample :
    ForLoop (str "for _, v := range list \x7b") [] =
      some (str "for (auto  v  : list) \x7b") := by
  decide

/-- C3: the ordered struct-field list is reset only when a struct opens
inside a `type (` block; a standalone `type X struct {` line does not clear
it.  On an input with two standalone structs, the second struct's
synthesized string-conversion method also enumerates the first struct's
field: the translated text of `class B` formats the field `x` declared in
`A`, and the collected field list ends as [x, y] instead of [y]. -/
theorem c3_standalone_struct_field_list_not_cleared :
    ((go2cppBody initGState
        (str "type A struct \x7b\n\tx int\n\x7d\ntype B struct \x7b\n\ty int\n\x7d")).map
      (fun x => x.1)) =
      some (str "class A \x7b public:\nint x;\nstd::string _str() \x7b\n  std::stringstream ss;\n  ss << \"\x7b\";\n  _format_output(ss, x);\n  ss << \"\x7d\";  return ss.str();\n\x7d\n\x7d;\n\nclass B \x7b public:\nint y;\nstd::string _str() \x7b\n  std::stringstream ss;\n  ss << \"\x7b\";\n  _format_output(ss, x);\n  ss << \" \";\n  _format_output(ss, y);\n  ss << \"\x7d\";  return ss.str();\n\x7d\n\x7d;\n") ∧
    ((go2cppBody initGState
        (str "type A struct \x7b\n\tx int\n\x7d\ntype B struct \x7b\n\ty int\n\x7d")).map
      (fun x => x.2.2.encounteredStructNames)) = some [str "x", str "y"] ∧
    goContains
      (str "class B \x7b public:\nint y;\nstd::string _str() \x7b\n  std::stringstream ss;\n  ss << \"\x7b\";\n  _format_output(ss, x);\n  ss << \" \";\n  _format_output(ss, y);")
      (str "_format_output(ss, x)") = true := by
  refine ⟨by decide, by decide, by decide⟩

/-- C6 counterexample: for the single-line declaration
`func f() (int, float64) {` the emitted return type is the tuple of the
element types exactly as written in the Go source, not of the mapped
element types: the type mapper sends float64 to double, but the emitted
tuple keeps float64. -/
theorem c6_tuple_elements_not_mapped_counterexample :
    ((FunctionSignature (str "func f() (int, float64) \x7b")).map (fun x => x.2.1)) =
      some (str "std::tuple<int, float64>") ∧
    TypeReplace (str "float64") = str "double" ∧
    str "std::tuple<int, float64>" ≠
      str "std::tuple<" ++ TypeReplace (str "int") ++ str ", " ++
        TypeReplace (str "float64") ++ str ">" := by
  refine ⟨by decide, by decide, by decide⟩

/-- C7: on an input that declares `m := map[string]int{"a": 1, "b": 2}` and
later loops `for k, v := range m {`, the declaration line registers `m` in
the encountered-hash-maps list before the loop line is processed, and the
translated text destructures key-value pairs over `m` directly — no
index-counting construct (std::size) appears anywhere in the output. -/
theorem c7_map_registered_and_loop_destructures :
    ((processLine initGState initLState
        (str "m := map[string]int\x7b\"a\": 1, \"b\": 2\x7d")).map
      (fun x => x.2.2.encounteredHashMaps)) = some [str "m"] ∧
    ((go2cppBody initGState
        (str "m := map[string]int\x7b\"a\": 1, \"b\": 2\x7d\nfor k, v := range m \x7b\n\x7d")).map
      (fun x => goContains x.1 (str "for (const auto & [k,  v ] : m) \x7b"))) = some true ∧
    ((go2cppBody initGState
        (str "m := map[string]int\x7b\"a\": 1, \"b\": 2\x7d\nfor k, v := range m \x7b\n\x7d")).map
      (fun x => goContains x.1 (str "std::size"))) = some false := by
  refine ⟨by decide, by decide, by decide⟩

/-- C9 counterexample: on s = "ab" with markers a = "b" and b = "ab", both
markers occur and the selected b-anchor (index 0) lies before the selected
a-anchor (index 1), yet the fragment extractor aborts with a slice-bounds
panic (modelled as `none`) instead of returning s or a substring of s: the
swapped-anchor slice starts past its end when the two anchors overlap. -/
theorem c9_overlapping_anchors_panic_counterexample :
    goIndex (str "ab") (str "b") = some 1 ∧
    goIndex (str "ab") (str "ab") = some 0 ∧
    between (str "ab") (str "b") (str "ab") false false = none := by
  refine ⟨by decide, by decide, by decide⟩

/-- C10: the single-line comment stripper strips the line (and trims the
surrounding white space) at the first comment marker exactly when the line
contains exactly one occurrence of the marker; a line with zero or at least
two occurrences — for example a marker inside a string literal — is
returned unchanged. -/
theorem c10_single_marker_strips_otherwise_unchanged (line : GoStr) :
    (∀ p, goCount line (str "//") = 1 → goIndex line (str "//") = some p →
       stripSingleLineComment line = goTrimSpace (line.take p)) ∧
    (goCount line (str "//") ≠ 1 → stripSingleLineComment line = line) := by
  constructor
  · intro p h1 h2
    unfold stripSingleLineComment
    rw [if_pos h1, h2]
  · intro h
    unfold stripSingleLineComment
    rw [if_neg h]

/-- C10 witness: `ab // c` has one marker and is stripped to its trimmed
prefix; a line whose marker also appears inside a string literal has two
markers and is returned unchanged. -/
theorem c10_single_marker_witness :
    stripSingleLineComment (str "ab // c") = goTrimSpace ((str "ab // c").take 3) ∧
    stripSingleLineComment (str "u = \"http://x\" // c") = str "u = \"http://x\" // c" := by
  constructor
  · exact (c10_single_marker_strips_otherwise_unchanged (str "ab // c")).1 3
      (by decide) (by decide)
  · exact (c10_single_marker_strips_otherwise_unchanged (str "u = \"http://x\" // c")).2
      (by decide)

/-- C9 amended: the fragment extractor returns s unchanged whenever either
selected marker anchor is absent; when both anchors are found and the
b-anchor lies before the a-anchor with its marker fitting before the
a-anchor, it returns the substring between them (anchors swapped); when the
two anchors overlap it aborts with a slice panic instead; and every string
it does return is s itself or a contiguous substring (infix) of s. -/
theorem c9_between_fragment_amended (s a b : GoStr) (lastA lastB : Bool) :
    ((if lastA then goLastIndex s a else goIndex s a) = none →
       between s a b lastA lastB = some s) ∧
    ((if lastB then goLastIndex s b else goIndex s b) = none →
       between s a b lastA lastB = some s) ∧
    (∀ apos bpos, (if lastA then goLastIndex s a else goIndex s a) = some apos →
       (if lastB then goLastIndex s b else goIndex s b) = some bpos →
       bpos < apos → bpos + b.length ≤ apos →
       between s a b lastA lastB = some ((s.take apos).drop (bpos + b.length))) ∧
    (∀ apos bpos, (if lastA then goLastIndex s a else goIndex s a) = some apos →
       (if lastB then goLastIndex s b else goIndex s b) = some bpos →
       bpos < apos → apos < bpos + b.length →
       between s a b lastA lastB = none) ∧
    (∀ r, between s a b lastA lastB = some r → r = s ∨ r <:+: s) := by
  refine ⟨?_, ?_, ?_, ?_, ?_⟩
  · intro h
    unfold between
    rw [h]
  · intro h
    unfold between
    cases ha : (if lastA then goLastIndex s a else goIndex s a) with
    | none => rfl
    | some apos => rw [h]
  · intro apos bpos ha hb hlt hfit
    have hbound : apos ≤ s.length := by
      by_cases hA : lastA
      · rw [if_pos hA] at ha
        have := goLastIndex_bound ha
        omega
      · rw [if_neg hA] at ha
        have := goIndex_bound ha
        omega
    unfold between
    rw [ha, hb]
    dsimp only
    rw [if_pos hlt]
    unfold goSlice
    rw [if_pos ⟨hfit, hbound⟩]
  · intro apos bpos ha hb hlt hover
    unfold between
    rw [ha, hb]
    dsimp only
    rw [if_pos hlt]
    unfold goSlice
    rw [if_neg (by omega)]
  · intro r h
    unfold between at h
    cases ha : (if lastA then goLastIndex s a else goIndex s a) with
    | none =>
        rw [ha] at h
        left
        injection h with h2
        exact h2.symm
    | some apos =>
        rw [ha] at h
        dsimp only at h
        cases hb : (if lastB then goLastIndex s b else goIndex s b) with
        | none =>
            rw [hb] at h
            left
            injection h with h2
            exact h2.symm
        | some bpos =>
            rw [hb] at h
            dsimp only at h
            right
            by_cases hlt : bpos < apos
            · rw [if_pos hlt] at h
              exact goSlice_infix h
            · rw [if_neg hlt] at h
              exact goSlice_infix h

/-- C9 witness: with s = `x[ab]y`, markers `[` and `]` in leftBetween
orientation give the inner fragment; with the marker pair reversed the
anchors swap and the same fragment is returned; a marker absent returns s. -/
theorem c9_between_fragment_witness :
    between (str "x[ab]y") (str "]") (str "[") false false =
      some (((str "x[ab]y").take 4).drop 2) ∧
    between (str "x[ab]y") (str "[") (str "#") false false = some (str "x[ab]y") := by
  constructor
  · exact (c9_between_fragment_amended (str "x[ab]y") (str "]") (str "[") false false).2.2.1
      4 1 (by decide) (by decide) (by decide) (by decide)
  · exact (c9_between_fragment_amended (str "x[ab]y") (str "[") (str "#") false false).2.1
      (by decide)

/-- C2 amended: for every loop header `for _, v := range list` whose
variable and list names are plain identifiers and whose list is not a
registered map, the loop transformer emits a C++ range-based loop over the
list values (keeping the spaces around the element variable), rather than
signalling an abort. -/
theorem c2_discard_index_list_value_loop_amended (v l : GoStr) (maps : List GoStr)
    (hv : okIdent v = true) (hl : okIdent l = true) (hm : has maps l = false) :
    ForLoop (str "for _, " ++ v ++ str " := range " ++ l ++ str " \x7b") maps =
      some (str "for (auto  " ++ v ++ str "  : " ++ l ++ str ") \x7b") := by
  have hvne := okIdent_ne_nil hv
  have hlne := okIdent_ne_nil hl
  have hvsp : ' ' ∉ v := okIdent_notMem hv (by decide)
  have hvcm : ',' ∉ v := okIdent_notMem hv (by decide)
  have hvco : ':' ∉ v := okIdent_notMem hv (by decide)
  have hvbr : '\x7b' ∉ v := okIdent_notMem hv (by decide)
  have hlsp : ' ' ∉ l := okIdent_notMem hl (by decide)
  have hlcm : ',' ∉ l := okIdent_notMem hl (by decide)
  have hlco : ':' ∉ l := okIdent_notMem hl (by decide)
  have hlbr : '\x7b' ∉ l := okIdent_notMem hl (by decide)
  set source := str "for _, " ++ v ++ str " := range " ++ l ++ str " \x7b" with hsource
  set A := str "for _, " ++ v ++ str " := range " ++ l ++ str " " with hA
  have hsrcA : source = A ++ str "\x7b" ++ [] := by simp [hsource, hA, str]
  have hbrA : '\x7b' ∉ A := by
    simp [hA, str]
    exact ⟨hvbr, hlbr⟩
  have hfor : goIndex source (str "for") = some 0 :=
    goIndex_of_isPrefixOf (by simp [hsource, str, List.isPrefixOf])
  have hbrace : goIndex source (str "\x7b") = some A.length := by
    rw [hsrcA]
    refine goIndex_boundary ?_ hbrA
    rfl
  have hAlen : 3 ≤ A.length := by
    simp [hA, str]
  have hslice : goSlice source 3 A.length = some (A.drop 3) := by
    unfold goSlice
    rw [if_pos]
    · congr 1
      rw [hsrcA]
      rw [List.append_assoc, List.take_left]
    · constructor
      · exact hAlen
      · rw [hsrcA]
        simp
  have hlb : leftBetween source (str "for") (str "\x7b") = some (A.drop 3) := by
    unfold leftBetween between
    rw [if_neg (show ¬ (false = true) by decide), if_neg (show ¬ (false = true) by decide),
        hfor, hbrace]
    dsimp only
    rw [if_neg (show ¬ (A.length < 0) by omega)]
    simpa using hslice
  set mid := str "_, " ++ v ++ str " := range " ++ l with hmid
  have hdrop : A.drop 3 = str " " ++ mid ++ str " " := by
    simp [hA, hmid, str]
  have hmidhead : ∀ d, mid.head? = some d → isSpaceChar d = false := by
    intro d hd
    rw [hmid] at hd
    simp [str] at hd
    subst hd
    decide
  have hmidlast : ∀ d, mid.getLast? = some d → isSpaceChar d = false := by
    intro d hd
    rw [hmid] at hd
    rw [show str "_, " ++ v ++ str " := range " ++ l =
         (str "_, " ++ v ++ str " := range ") ++ l by simp] at hd
    rw [getLast?_append_right hlne] at hd
    exact okIdent_last hl d hd
  have htrim : goTrimSpace (A.drop 3) = mid := by
    rw [hdrop]
    rw [show str " " ++ mid ++ str " " = ' ' :: (mid ++ [' ']) by simp [str]]
    rw [goTrimSpace_cons_space (by decide)]
    rw [goTrimSpace_append_space_of_head (by decide) hmidhead]
    exact goTrimSpace_eq_self hmidhead hmidlast
  have hmidne : mid ≠ [] := by simp [hmid, str]
  have hnotmem1 : ',' ∉ str " " ++ v ++ str " := range " ++ l := by
    simp [str, hvcm, hlcm]
  have hc1 : goCount mid (str ",") = 1 := by
    rw [show (str "," : GoStr) = [','] from rfl,
        show mid = ['_'] ++ [','] ++ (str " " ++ v ++ str " := range " ++ l) by
          simp [hmid, str]]
    exact goCount_single_char (by decide) hnotmem1
  have hinfr : (str " := range " : GoStr) <:+: mid :=
    ⟨str "_, " ++ v, l, by simp [hmid, str]⟩
  have hrange : goContains mid (str "range") = true :=
    goContains_of_infix ((by decide : (str "range" : GoStr) <:+: str " := range ").trans hinfr)
  have hcolon : goContains mid (str ":=") = true :=
    goContains_of_infix ((by decide : (str ":=" : GoStr) <:+: str " := range ").trans hinfr)
  have hsplit1 : goSplit mid (str ":=") = [str "_, " ++ v ++ str " ", str " range " ++ l] := by
    rw [show mid = (str "_, " ++ v ++ str " ") ++ str ":=" ++ (str " range " ++ l) by
          simp [hmid, str]]
    rw [@goSplit_boundary (str ":=") ':' rfl (str "_, " ++ v ++ str " ")
          (str " range " ++ l) (by simp [str, hvco]) (by decide)]
    rw [ goSplit_of_not_infix (by decide)
          (not_infix_of_not_mem (show ':' ∈ (str ":=" : GoStr) by decide)
            (by simp [str, hlco]))]
  have hsplit2 : goSplit (str "_, " ++ v ++ str " ") (str ",") =
      [['_'], str " " ++ v ++ str " "] := by
    rw [show (str "," : GoStr) = [','] from rfl,
        show (str "_, " ++ v ++ str " " : GoStr) = ['_'] ++ [','] ++ (str " " ++ v ++ str " ")
          by simp [str]]
    rw [@goSplit_boundary [','] ',' rfl ['_'] (str " " ++ v ++ str " ") (by decide) (by decide)]
    rw [ goSplit_of_not_infix (by decide)
          ((not_infix_of_not_mem (List.mem_singleton_self ',')) (by simp [str, hvcm]))]
  have hsplitsp : goSplit mid (str " ") = [str "_,", v, str ":=", str "range", l] := by
    rw [show (str " " : GoStr) = [' '] from rfl]
    rw [show mid = (str "_,") ++ [' '] ++ (v ++ str " := range " ++ l) by simp [hmid, str]]
    rw [@goSplit_boundary [' '] ' ' rfl (str "_,") (v ++ str " := range " ++ l)
          (by decide) (by decide)]
    rw [show (v ++ str " := range " ++ l : GoStr) = v ++ [' '] ++ (str ":= range " ++ l) by
          simp [str]]
    rw [@goSplit_boundary [' '] ' ' rfl v (str ":= range " ++ l) hvsp (by decide)]
    rw [show (str ":= range " ++ l : GoStr) = (str ":=") ++ [' '] ++ (str "range " ++ l) by
          simp [str]]
    rw [@goSplit_boundary [' '] ' ' rfl (str ":=") (str "range " ++ l) (by decide) (by decide)]
    rw [show (str "range " ++ l : GoStr) = (str "range") ++ [' '] ++ l by simp [str]]
    rw [@goSplit_boundary [' '] ' ' rfl (str "range") l (by decide) (by decide)]
    rw [ goSplit_of_not_infix (by decide) (by rw [singleton_infix_iff_mem]; exact hlsp)]
  have hgl : ([str "_,", v, str ":=", str "range", l] : List GoStr).getLastD [] = l := rfl
  have hg0 : ([['_'], str " " ++ v ++ str " "] : List GoStr).getD 0 [] = ['_'] := rfl
  have hg1 : ([['_'], str " " ++ v ++ str " "] : List GoStr)[1]? =
    some (str " " ++ v ++ str " ") := rfl
  have hf0 : ([str "_, " ++ v ++ str " ", str " range " ++ l] : List GoStr).getD 0 [] =
    str "_, " ++ v ++ str " " := rfl
  simp only [ForLoop, hlb, bind, Option.bind, htrim]
  rw [if_neg hmidne]
  rw [hc1, hrange, hcolon]
  rw [if_neg (by decide), if_pos (by decide)]
  rw [hsplit1, hf0, hsplit2, hg1]
  simp only [bind, Option.bind]
  rw [hg0, hsplitsp, hgl, hm]
  rw [if_neg (by decide)]
  rw [if_pos (show (['_'] : GoStr) = str "_" from rfl)]
  simp [str]

/-- C2 witness: the amended loop translation at v and list. -/
theorem c2_discard_index_list_value_loop_witness :
    ForLoop (str "for _, " ++ str "v" ++ str " := range " ++ str "list" ++ str " \x7b") [] =
      some (str "for (auto  " ++ str "v" ++ str "  : " ++ str "list" ++ str ") \x7b") :=
  c2_discard_index_list_value_loop_amended (str "v") (str "list") []
    (by decide) (by decide) (by decide)

/-- head?_append_left: the head of an append with a non-empty left part. -/
theorem head?_append_left {x y : GoStr} (hx : x ≠ []) : (x ++ y).head? = x.head? := by
  cases x with
  | nil => exact absurd rfl hx
  | cons c t => rfl

/-- okIdent_head?_ident: an identifier's first character is an identifier character. -/
theorem okIdent_head?_ident {s : GoStr} (h : okIdent s = true) :
    ∃ c, s.head? = some c ∧ isIdentChar c = true := by
  cases s with
  | nil => exact absurd rfl (okIdent_ne_nil h)
  | cons c t => exact ⟨c, rfl, okIdent_all h c (List.mem_cons_self c t)⟩

/-- okIdent_getLast?_ident: an identifier's last character is an identifier character. -/
theorem okIdent_getLast?_ident {s : GoStr} (h : okIdent s = true) :
    ∃ c, s.getLast? = some c ∧ isIdentChar c = true := by
  cases hl : s.getLast? with
  | none =>
      rw [List.getLast?_eq_none_iff] at hl
      exact absurd hl (okIdent_ne_nil h)
  | some c =>
      refine ⟨c, rfl, ?_⟩
      have hds : s.dropLast ++ [c] = s := List.dropLast_append_getLast? c (by rw [hl]; rfl)
      have hm : c ∈ s := by rw [← hds]; simp
      exact okIdent_all h c hm

/-- ident_char_ne: an identifier character differs from any non-identifier character. -/
theorem ident_char_ne {c d : Char} (hc : isIdentChar c = true) (hd : isIdentChar d = false) :
    c ≠ d := by
  intro he
  rw [he, hd] at hc
  cases hc

/-- has_endings_of_ident: an identifier character is not an ending character. -/
theorem has_endings_of_ident {c : Char} (hc : isIdentChar c = true) :
    has endings [c] = false := by
  have h1 := ident_char_ne hc (show isIdentChar '\x7b' = false by decide)
  have h2 := ident_char_ne hc (show isIdentChar ',' = false by decide)
  have h3 := ident_char_ne hc (show isIdentChar '\x7d' = false by decide)
  have h4 := ident_char_ne hc (show isIdentChar ':' = false by decide)
  simp [has, endings, str]
  exact ⟨fun he => h1 he.symm, fun he => h2 he.symm, fun he => h3 he.symm, fun he => h4 he.symm⟩

set_option maxHeartbeats 1000000 in
/-- processConstBlockOpen: the const block opening line emits nothing and enters const mode. -/
theorem processConstBlockOpen (g : GState) (l : LState)
    (hImp : l.inImport = false) (hVar : l.inVar = false) (hTy : l.inType = false)
    (hC : l.inConst = false) (hH : l.inHashMap = false) (hS : l.inStruct = false) :
    processLine g l (str "const (") =
      some ([], g, { l with curlyCount := l.curlyCount + (0 - 0), inConst := true }) := by
  simp +decide [processLine, semiStrip, processDispatch, hImp, hVar, hTy, hC, hH, hS]

set_option maxHeartbeats 2000000 in
/-- processConstIotaLine: inside a const block, a line name-equals-iota resets the
iota counter and emits the constant bound to 0. -/
theorem processConstIotaLine (g : GState) (l : LState) (n1 : GoStr) (hn : okIdent n1 = true)
    (hImp : l.inImport = false) (hVar : l.inVar = false) (hTy : l.inType = false)
    (hC : l.inConst = true) (hH : l.inHashMap = false) (hS : l.inStruct = false) :
    processLine g l (n1 ++ str " = iota") =
      some ([str "const auto " ++ n1 ++ str " = 0;"],
            { g with iotaNumber := 0 },
            { l with curlyCount := l.curlyCount + (0 - 0) }) := by
  obtain ⟨hc, hhc, hhi⟩ := okIdent_head?_ident hn
  have hne := okIdent_ne_nil hn
  set l1 : GoStr := n1 ++ str " = iota" with hl1
  have hsl : '/' ∉ n1 := okIdent_notMem hn (by decide)
  have hbr : '\x7b' ∉ n1 := okIdent_notMem hn (by decide)
  have hbr2 : '\x7d' ∉ n1 := okIdent_notMem hn (by decide)
  have hrp : ')' ∉ n1 := okIdent_notMem hn (by decide)
  have heq : '=' ∉ n1 := okIdent_notMem hn (by decide)
  have hsp : ' ' ∉ n1 := okIdent_notMem hn (by decide)
  have hhead : l1.head? = some hc := by rw [hl1, head?_append_left hne, hhc]
  have hlast : l1.getLast? = some 'a' := by
    rw [hl1, getLast?_append_right (by simp [str])]
    decide
  have htrim : goTrimSpace l1 = l1 :=
    goTrimSpace_eq_self
      (fun d hd => by
        rw [hhead] at hd
        injection hd with hd2
        subst hd2
        exact isSpaceChar_eq_false_of_isIdentChar hhi)
      (fun d hd => by
        rw [hlast] at hd
        injection hd with hd2
        subst hd2
        decide)
  have hstrip : stripSingleLineComment l1 = l1 := by
    unfold stripSingleLineComment
    rw [if_neg]
    rw [ goCount_eq_zero_of_not_infix
      (not_infix_of_not_mem (show '/' ∈ (str "//" : GoStr) by decide)
        (by rw [hl1]; simp [str, hsl]))]
    decide
  have hsemi : goEndsWith l1 (str ";") = false :=
    goEndsWith_eq_false_of_last_ne hlast (show (str ";" : GoStr).getLast? = some ';' from rfl)
      (by decide)
  have hlen : ¬ l1.length = 0 := by
    rw [hl1]
    simp [str]
  have hcb : goCount l1 (str "\x7b") = 0 :=
    goCount_eq_zero_of_not_infix (not_infix_of_not_mem (show '\x7b' ∈ (str "\x7b" : GoStr) by decide)
      (by rw [hl1]; simp [str, hbr]))
  have hcb2 : goCount l1 (str "\x7d") = 0 :=
    goCount_eq_zero_of_not_infix (not_infix_of_not_mem (show '\x7d' ∈ (str "\x7d" : GoStr) by decide)
      (by rw [hl1]; simp [str, hbr2]))
  have hcp : goContains l1 (str ")") = false :=
    goContains_eq_false_of_not_infix (not_infix_of_not_mem (show ')' ∈ (str ")" : GoStr) by decide)
      (by rw [hl1]; simp [str, hrp]))
  have hsplitn : goSplitN2 l1 (str "=") = [n1 ++ str " ", str " iota"] := by
    rw [show l1 = (n1 ++ str " ") ++ str "=" ++ str " iota" by rw [hl1]; simp [str]]
    exact @goSplitN2_boundary (str "=") '=' rfl (n1 ++ str " ") (str " iota")
      (by simp [str, heq])
  have htrimn : goTrimSpace (n1 ++ str " ") = n1 := by
    rw [show (n1 ++ str " " : GoStr) = n1 ++ [' '] by simp [str]]
    rw [goTrimSpace_append_space_of_head (by decide) (okIdent_head hn)]
    exact okIdent_trim hn
  have hsplitw : goSplit n1 (str " ") = [n1] :=
    goSplit_of_not_infix (by decide)
      (not_infix_of_not_mem (show ' ' ∈ (str " " : GoStr) by decide) hsp)
  have hconst : ConstDeclaration g l1 = some (str "const auto " ++ n1 ++ str " = 0",
      { g with iotaNumber := 0 }) := by
    unfold ConstDeclaration
    rw [hsplitn]
    dsimp only
    rw [htrimn]
    rw [show goTrimSpace (str " iota") = str "iota" by decide]
    rw [if_pos rfl, hsplitw]
    simp [itoa, natDigits, natDigitsF, digitChar]
    decide
  have hstart2 : goStartsWith l1 (str "//") = false :=
    goStartsWith_eq_false_of_head_ne hhead rfl (ident_char_ne hhi (by decide))
  have hne2 : ¬ (l1 = str "\x7d") := by
    intro he
    rw [he] at hlast
    exact absurd hlast (by decide)
  have hebr : goEndsWith l1 (str "\x7d") = false :=
    goEndsWith_eq_false_of_last_ne hlast rfl (by decide)
  have hceq : goContains l1 (str "=") = true :=
    goContains_of_infix ⟨n1 ++ str " ", str " iota", by rw [hl1]; simp [str]⟩
  have hnl : (str "const auto " ++ n1 ++ str " = 0" : GoStr).getLast? = some '0' := by
    rw [show (str "const auto " ++ n1 ++ str " = 0" : GoStr) =
      (str "const auto " ++ n1) ++ str " = 0" by simp]
    rw [getLast?_append_right (by simp [str])]
    decide
  have hnlc : lastchar (str "const auto " ++ n1 ++ str " = 0") = ['0'] := by
    unfold lastchar
    rw [hnl]
  have hlc : lastchar l1 = ['a'] := by
    unfold lastchar
    rw [hlast]
  have hsemi2 : goEndsWith (str "const auto " ++ n1 ++ str " = 0") (str ";") = false :=
    goEndsWith_eq_false_of_last_ne hnl rfl (by decide)
  have hncc : goContains (str "const auto " ++ n1 ++ str " = 0") (str "//") = false :=
    goContains_eq_false_of_not_infix
      (not_infix_of_not_mem (show '/' ∈ (str "//" : GoStr) by decide) (by simp [str, hsl]))
  have hd1 : decide (l1 = str "\x7d") = false := decide_eq_false hne2
  have hsemis : semiStrip l1 = l1 := by
    unfold semiStrip
    rw [hsemi]
    rfl
  have hha : has endings ['a'] = false := by decide
  have hh0 : has endings ['0'] = false := by decide
  simp only [processLine, processDispatch, htrim, hstrip, hsemis, hsemi, hlen, hcb, hcb2,
    hImp, hVar, hTy, hC, hH, hS, hcp, hconst, hstart2, hd1, hebr, hceq, hnlc, hlc,
    hsemi2, hncc, hha, hh0, Bool.false_eq_true, Bool.true_and, Bool.false_and,
    Bool.and_true, Bool.and_false, Bool.or_false, Bool.false_or, Bool.not_true,
    Bool.not_false, Bool.true_eq_false, if_false, if_true, ite_false, ite_true]
  simp [str]

set_option maxHeartbeats 2000000 in
/-- processConstBareLine: inside a const block, a bare name increments the iota
counter and emits the constant bound to the new value. -/
theorem processConstBareLine (g : GState) (l : LState) (n : GoStr) (hn : okIdent n = true)
    (d : Char) (hi : itoa (g.iotaNumber + 1) = [d]) (hd : isIdentChar d = true)
    (hImp : l.inImport = false) (hVar : l.inVar = false) (hTy : l.inType = false)
    (hC : l.inConst = true) (hH : l.inHashMap = false) (hS : l.inStruct = false) :
    processLine g l n =
      some ([str "const auto " ++ n ++ str " = " ++ [d] ++ str ";"],
            { g with iotaNumber := g.iotaNumber + 1 },
            { l with curlyCount := l.curlyCount + (0 - 0) }) := by
  obtain ⟨hc, hhc, hhi⟩ := okIdent_head?_ident hn
  obtain ⟨lc, hlc0, hli⟩ := okIdent_getLast?_ident hn
  have hne := okIdent_ne_nil hn
  have hsl : '/' ∉ n := okIdent_notMem hn (by decide)
  have hbr : '\x7b' ∉ n := okIdent_notMem hn (by decide)
  have hbr2 : '\x7d' ∉ n := okIdent_notMem hn (by decide)
  have hrp : ')' ∉ n := okIdent_notMem hn (by decide)
  have heq : '=' ∉ n := okIdent_notMem hn (by decide)
  have htrim : goTrimSpace n = n := okIdent_trim hn
  have hstrip : stripSingleLineComment n = n := by
    unfold stripSingleLineComment
    rw [if_neg]
    rw [ goCount_eq_zero_of_not_infix
      (not_infix_of_not_mem (show '/' ∈ (str "//" : GoStr) by decide) hsl)]
    decide
  have hsemi : goEndsWith n (str ";") = false :=
    goEndsWith_eq_false_of_last_ne hlc0 rfl (ident_char_ne hli (by decide))
  have hlen : ¬ n.length = 0 := by
    cases n with
    | nil => exact absurd rfl hne
    | cons a t => simp
  have hcb : goCount n (str "\x7b") = 0 :=
    goCount_eq_zero_of_not_infix (not_infix_of_not_mem
      (show '\x7b' ∈ (str "\x7b" : GoStr) by decide) hbr)
  have hcb2 : goCount n (str "\x7d") = 0 :=
    goCount_eq_zero_of_not_infix (not_infix_of_not_mem
      (show '\x7d' ∈ (str "\x7d" : GoStr) by decide) hbr2)
  have hcp : goContains n (str ")") = false :=
    goContains_eq_false_of_not_infix (not_infix_of_not_mem
      (show ')' ∈ (str ")" : GoStr) by decide) hrp)
  have hsplitn : goSplitN2 n (str "=") = [n] :=
    goSplitN2_of_not_infix (not_infix_of_not_mem
      (show '=' ∈ (str "=" : GoStr) by decide) heq)
  have hconst : ConstDeclaration g n =
      some (str "const auto " ++ n ++ str " = " ++ [d], { g with iotaNumber := g.iotaNumber + 1 }) := by
    unfold ConstDeclaration
    rw [hsplitn]
    dsimp only
    rw [htrim, hi]
  have hstart2 : goStartsWith n (str "//") = false :=
    goStartsWith_eq_false_of_head_ne hhc rfl (ident_char_ne hhi (by decide))
  have hne2 : ¬ (n = str "\x7d") := by
    intro he
    rw [he] at hlc0
    have : lc = '\x7d' := by
      have := hlc0
      simp [str] at this
      exact this.symm
    rw [this] at hli
    exact absurd hli (by decide)
  have hd1 : decide (n = str "\x7d") = false := decide_eq_false hne2
  have hebr : goEndsWith n (str "\x7d") = false :=
    goEndsWith_eq_false_of_last_ne hlc0 rfl (ident_char_ne hli (by decide))
  have hceq : goContains n (str "=") = false :=
    goContains_eq_false_of_not_infix (not_infix_of_not_mem
      (show '=' ∈ (str "=" : GoStr) by decide) heq)
  have hnl : (str "const auto " ++ n ++ str " = " ++ [d] : GoStr).getLast? = some d := by
    rw [getLast?_append_right (by simp)]
    rfl
  have hnlc : lastchar (str "const auto " ++ n ++ str " = " ++ [d]) = [d] := by
    unfold lastchar
    rw [hnl]
  have hlc2 : lastchar n = [lc] := by
    unfold lastchar
    rw [hlc0]
  have hsemi2 : goEndsWith (str "const auto " ++ n ++ str " = " ++ [d]) (str ";") = false :=
    goEndsWith_eq_false_of_last_ne hnl rfl (ident_char_ne hd (by decide))
  have hncc : goContains (str "const auto " ++ n ++ str " = " ++ [d]) (str "//") = false :=
    goContains_eq_false_of_not_infix
      (not_infix_of_not_mem (show '/' ∈ (str "//" : GoStr) by decide)
        (by
          simp [str, hsl]
          intro he
          subst he
          exact absurd hd (by decide)))
  have hha : has endings [lc] = false := has_endings_of_ident hli
  have hh0 : has endings [d] = false := has_endings_of_ident hd
  have hsemis : semiStrip n = n := by
    unfold semiStrip
    rw [hsemi]
    rfl
  simp only [processLine, processDispatch, htrim, hstrip, hsemis, hsemi, hlen, hcb, hcb2,
    hImp, hVar, hTy, hC, hH, hS, hcp, hconst, hstart2, hd1, hebr, hceq, hnlc, hlc2,
    hsemi2, hncc, hha, hh0, Bool.false_eq_true, Bool.true_and, Bool.false_and,
    Bool.and_true, Bool.and_false, Bool.or_false, Bool.false_or, Bool.not_true,
    Bool.not_false, Bool.true_eq_false, if_false, if_true, ite_false, ite_true]
  simp [str]

set_option maxHeartbeats 1000000 in
/-- processConstBlockClose: the closing parenthesis line of a const block emits
nothing and leaves const mode. -/
theorem processConstBlockClose (g : GState) (l : LState)
    (hImp : l.inImport = false) (hVar : l.inVar = false) (hTy : l.inType = false)
    (hC : l.inConst = true) :
    processLine g l (str ")") =
      some ([], g, { l with curlyCount := l.curlyCount + (0 - 0), inConst := false }) := by
  simp +decide [processLine, semiStrip, processDispatch, hImp, hVar, hTy, hC]

/-- C5: for every constant block whose first entry assigns iota and whose next
two entries are bare names, the three emitted constants are bound to 0, 1 and 2
in declaration order, and the auto-increment counter ends at 2: the counter
resets to zero on the iota marker and increments by one per bare entry. -/
theorem c5_iota_block_zero_one_two (g : GState) (l : LState) (n1 n2 n3 : GoStr)
    (h1 : okIdent n1 = true) (h2 : okIdent n2 = true) (h3 : okIdent n3 = true)
    (hImp : l.inImport = false) (hVar : l.inVar = false) (hTy : l.inType = false)
    (hC : l.inConst = false) (hH : l.inHashMap = false) (hS : l.inStruct = false) :
    (processLines g l [str "const (", n1 ++ str " = iota", n2, n3, str ")"]).map
        (fun x => (x.1, x.2.1.iotaNumber)) =
      some ([str "const auto " ++ n1 ++ str " = 0;",
             str "const auto " ++ n2 ++ str " = 1;",
             str "const auto " ++ n3 ++ str " = 2;"], 2) := by
  have e1 := processConstBlockOpen g l hImp hVar hTy hC hH hS
  set l1 : LState := { l with curlyCount := l.curlyCount + (0 - 0), inConst := true } with hl1def
  have e2 := processConstIotaLine g l1 n1 h1 (by simp [hl1def, hImp]) (by simp [hl1def, hVar])
    (by simp [hl1def, hTy]) (by simp [hl1def]) (by simp [hl1def, hH]) (by simp [hl1def, hS])
  set g1 : GState := { g with iotaNumber := 0 } with hg1def
  set l2 : LState := { l1 with curlyCount := l1.curlyCount + (0 - 0) } with hl2def
  have e3 := processConstBareLine g1 l2 n2 h2 '1' (by dsimp only [hg1def]; decide) (by decide)
    (by simp [hl2def, hl1def, hImp]) (by simp [hl2def, hl1def, hVar])
    (by simp [hl2def, hl1def, hTy]) (by simp [hl2def, hl1def])
    (by simp [hl2def, hl1def, hH]) (by simp [hl2def, hl1def, hS])
  set g2 : GState := { g1 with iotaNumber := g1.iotaNumber + 1 } with hg2def
  set l3 : LState := { l2 with curlyCount := l2.curlyCount + (0 - 0) } with hl3def
  have e4 := processConstBareLine g2 l3 n3 h3 '2' (by dsimp only [hg2def, hg1def]; decide) (by decide)
    (by simp [hl3def, hl2def, hl1def, hImp]) (by simp [hl3def, hl2def, hl1def, hVar])
    (by simp [hl3def, hl2def, hl1def, hTy]) (by simp [hl3def, hl2def, hl1def])
    (by simp [hl3def, hl2def, hl1def, hH]) (by simp [hl3def, hl2def, hl1def, hS])
  set g3 : GState := { g2 with iotaNumber := g2.iotaNumber + 1 } with hg3def
  set l4 : LState := { l3 with curlyCount := l3.curlyCount + (0 - 0) } with hl4def
  have e5 := processConstBlockClose g3 l4
    (by simp [hl4def, hl3def, hl2def, hl1def, hImp])
    (by simp [hl4def, hl3def, hl2def, hl1def, hVar])
    (by simp [hl4def, hl3def, hl2def, hl1def, hTy])
    (by simp [hl4def, hl3def, hl2def, hl1def])
  simp only [processLines, e1, e2, e3, e4, e5]
  simp [hg3def, hg2def, hg1def]
  exact ⟨by decide, by decide⟩

/-- C5 witness: the const block A = iota, B, C from the initial states. -/
theorem c5_iota_block_witness :
    (processLines initGState initLState
        [str "const (", str "A" ++ str " = iota", str "B", str "C", str ")"]).map
        (fun x => (x.1, x.2.1.iotaNumber)) =
      some ([str "const auto " ++ str "A" ++ str " = 0;",
             str "const auto " ++ str "B" ++ str " = 1;",
             str "const auto " ++ str "C" ++ str " = 2;"], 2) :=
  c5_iota_block_zero_one_two initGState initLState (str "A") (str "B") (str "C")
    (by decide) (by decide) (by decide) rfl rfl rfl rfl rfl rfl

example : goIndex (str "abcab") (str "ab") = some 0 := by decide
example : goIndex (str "xabcab") (str "ab") = some 1 := by decide
example : goLastIndex (str "xabcab") (str "ab") = some 4 := by decide
example : goIndex (str "xy") (str "ab") = none := by decide
example : goTrimSpace (str "  a b\t") = str "a b" := by decide
example : goCount (str "aaa") (str "aa") = 1 := by decide
example : goSplit (str "a,b,,c") (str ",") = [str "a", str "b", str "", str "c"] := by decide
example : goSplit (str "aaa") (str "aa") = [str "", str "a"] := by decide
example : goSplitN2 (str "a=b=c") (str "=") = [str "a", str "b=c"] := by decide
example : goReplaceAll (str "ab ab") (str "ab") (str "x") = str "x x" := by decide
example : goReplace1 (str "ab ab") (str "ab") (str "x") = str "x ab" := by decide
example : goFields (str " a  bc\td ") = [str "a", str "bc", str "d"] := by decide
example : itoa (-1) = str "-1" := by decide
example : itoa 210 = str "210" := by decide
example : goSlice (str "abcd") 1 3 = some (str "bc") := by decide
example : goSlice (str "ab") 2 1 = none := by decide

/-!
C4 support: slicing a case value out of a case line, the fallthrough, case
and default line computations, and preservation of the pending label by
every other line.
-/

theorem goSlice_boundary (a r b : GoStr) :
    goSlice (a ++ r ++ b) a.length (a.length + r.length) = some r := by
  have hcond : a.length ≤ a.length + r.length ∧
      a.length + r.length ≤ (a ++ r ++ b).length := by
    constructor
    · omega
    · rw [List.length_append, List.length_append]
      omega
  unfold goSlice
  rw [if_pos hcond, ← List.length_append a r, List.take_left, List.drop_left]

theorem leftBetween_case {v : GoStr} (hv : okIdent v = true) :
    leftBetween (str "case " ++ v ++ str ":") (str " ") (str ":") = some v := by
  have hco : ':' ∉ (str "case " ++ v : GoStr) := by
    intro hm
    rcases List.mem_append.mp hm with h1 | h2
    · simp [str] at h1
    · exact okIdent_notMem hv (by decide) h2
  have h2 : goIndex (str "case " ++ v ++ str ":") (str " ") = some 4 := by
    have e := @goIndex_boundary (str " ") ' ' rfl (str "case") (v ++ str ":") (by decide)
    have hshape : (str "case" ++ str " " ++ (v ++ str ":") : GoStr) =
        str "case " ++ v ++ str ":" := by simp [str]
    rw [hshape] at e
    exact e
  have h3 : goIndex (str "case " ++ v ++ str ":") (str ":") = some (5 + v.length) := by
    have e := @goIndex_boundary (str ":") ':' rfl (str "case " ++ v) ([] : GoStr) hco
    rw [List.append_nil] at e
    have h5 : ((str "case " : GoStr)).length = 5 := rfl
    have hL : ((str "case " ++ v : GoStr)).length = 5 + v.length := by
      rw [List.length_append, h5]
    rw [hL] at e
    exact e
  unfold leftBetween between
  simp only [h2, h3, Bool.false_eq_true, if_false, ite_false]
  rw [if_neg (by omega)]
  have e := goSlice_boundary (str "case ") v (str ":")
  have h5 : ((str "case " : GoStr)).length = 5 := rfl
  rw [h5] at e
  exact e

set_option maxHeartbeats 2000000 in
/-- The fallthrough line emits the goto jump and records the label that the
next case or default line must place, incrementing the label counter. -/
theorem procFallthroughLine (g : GState) (l : LState)
    (hImp : l.inImport = false) (hVar : l.inVar = false) (hTy : l.inType = false)
    (hC : l.inConst = false) (hH : l.inHashMap = false) (hS : l.inStruct = false) :
    processLine g l (str "fallthrough") =
      some ([str "goto " ++ LabelName g ++ str "; // fallthrough"],
            { g with switchLabel := LabelName g, labelCounter := g.labelCounter + 1 },
            { l with curlyCount := l.curlyCount + (0 - 0) }) := by
  have htrim : goTrimSpace (str "fallthrough") = str "fallthrough" := by decide
  have hstrip : stripSingleLineComment (str "fallthrough") = str "fallthrough" := by decide
  have hsemis : semiStrip (str "fallthrough") = str "fallthrough" := by decide
  have hlen : ¬ ((str "fallthrough" : GoStr)).length = 0 := by decide
  have hcb : goCount (str "fallthrough") (str "\x7b") = 0 := by decide
  have hcb2 : goCount (str "fallthrough") (str "\x7d") = 0 := by decide
  have hstart2 : goStartsWith (str "fallthrough") (str "//") = false := by decide
  have hfu : goStartsWith (str "fallthrough") (str "func") = false := by decide
  have hfo : goStartsWith (str "fallthrough") (str "for") = false := by decide
  have hsw : goStartsWith (str "fallthrough") (str "switch") = false := by decide
  have hca : goStartsWith (str "fallthrough") (str "case") = false := by decide
  have hre : goStartsWith (str "fallthrough") (str "return") = false := by decide
  have hfp : goStartsWith (str "fallthrough") (str "fmt.Print") = false := by decide
  have hpr : goStartsWith (str "fallthrough") (str "print") = false := by decide
  have hceq : goContains (str "fallthrough") (str "=") = false := by decide
  have hpk : goStartsWith (str "fallthrough") (str "package ") = false := by decide
  have him : goStartsWith (str "fallthrough") (str "import") = false := by decide
  have hifs : goStartsWith (str "fallthrough") (str "if ") = false := by decide
  have heif : goStartsWith (str "fallthrough") (str "\x7d else if ") = false := by decide
  have hvp : ¬ ((str "fallthrough" : GoStr)) = str "var (" := by decide
  have htp : ¬ ((str "fallthrough" : GoStr)) = str "type (" := by decide
  have hcp2 : ¬ ((str "fallthrough" : GoStr)) = str "const (" := by decide
  have hva : goStartsWith (str "fallthrough") (str "var ") = false := by decide
  have hty2 : goStartsWith (str "fallthrough") (str "type ") = false := by decide
  have hco2 : goStartsWith (str "fallthrough") (str "const ") = false := by decide
  have hd1 : decide ((str "fallthrough" : GoStr) = str "\x7d") = false := by decide
  have hebr : goEndsWith (str "fallthrough") (str "\x7d") = false := by decide
  have hlc2 : lastchar (str "fallthrough") = ['h'] := by decide
  have hha : has endings ['h'] = false := by decide
  have hnl : ((str "goto " ++ LabelName g ++ str "; // fallthrough" : GoStr)).getLast? =
      some 'h' := by
    rw [getLast?_append_right (by simp [str])]
    rfl
  have hnlc : lastchar (str "goto " ++ LabelName g ++ str "; // fallthrough") = ['h'] := by
    unfold lastchar
    rw [hnl]
  have hsemi2 : goEndsWith (str "goto " ++ LabelName g ++ str "; // fallthrough")
      (str ";") = false :=
    goEndsWith_eq_false_of_last_ne hnl rfl (by decide)
  have hcc : goContains (str "goto " ++ LabelName g ++ str "; // fallthrough")
      (str "//") = true :=
    goContains_of_infix ⟨str "goto " ++ LabelName g ++ str "; ", str " fallthrough",
      by simp [str]⟩
  simp only [processLine, processDispatch, htrim, hstrip, hsemis, hlen, hcb, hcb2,
    hImp, hVar, hTy, hC, hH, hS, hstart2, hfu, hfo, hsw, hca, hre, hfp, hpr, hceq,
    hpk, him, hifs, heif, hvp, htp, hcp2, hva, hty2, hco2, hd1, hebr, hlc2, hha,
    hnlc, hnl, hsemi2, hcc, eq_self_iff_true, Bool.false_eq_true, Bool.true_eq_false,
    Bool.true_and, Bool.false_and, Bool.and_true, Bool.and_false, Bool.or_false,
    Bool.false_or, Bool.not_true, Bool.not_false, if_false, if_true, ite_false, ite_true]
  simp [str]

set_option maxHeartbeats 4000000 in
/-- A case line with a pending fallthrough label, past the first case of its
switch, emits the chained alternative header followed by the pending label,
and clears the label. -/
theorem procCaseLine (g1 : GState) (l : LState) (v : GoStr) (hv : okIdent v = true)
    (hFC : g1.firstCase = false) (hSL : g1.switchLabel ≠ [])
    (hImp : l.inImport = false) (hVar : l.inVar = false) (hTy : l.inType = false)
    (hC : l.inConst = false) (hH : l.inHashMap = false) (hS : l.inStruct = false) :
    processLine g1 l (str "case " ++ v ++ str ":") =
      some ([str "\x7d else if (" ++ SwitchExpressionVariable g1 ++ str " == " ++ v ++
             str ") \x7b // case " ++ v ++ str "\n" ++ g1.switchLabel ++ str ":"],
            { g1 with switchLabel := [] },
            { l with curlyCount := l.curlyCount + (0 - 0) }) := by
  have hsl : '/' ∉ v := okIdent_notMem hv (by decide)
  have hbr : '\x7b' ∉ v := okIdent_notMem hv (by decide)
  have hbr2 : '\x7d' ∉ v := okIdent_notMem hv (by decide)
  have heqv : '=' ∉ v := okIdent_notMem hv (by decide)
  have hhd : ((str "case " ++ v ++ str ":" : GoStr)).head? = some 'c' := rfl
  have hlast : ((str "case " ++ v ++ str ":" : GoStr)).getLast? = some ':' := by
    rw [getLast?_append_right (by simp [str])]
    rfl
  have htrim : goTrimSpace (str "case " ++ v ++ str ":") = str "case " ++ v ++ str ":" := by
    refine goTrimSpace_eq_self ?_ ?_
    · intro c hc
      rw [hhd] at hc
      injection hc with h
      rw [← h]
      decide
    · intro c hc
      rw [hlast] at hc
      injection hc with h
      rw [← h]
      decide
  have hslash : '/' ∉ (str "case " ++ v ++ str ":" : GoStr) := by
    intro hm
    rcases List.mem_append.mp hm with h1 | h2
    · rcases List.mem_append.mp h1 with h3 | h4
      · simp [str] at h3
      · exact hsl h4
    · simp [str] at h2
  have hbrm : '\x7b' ∉ (str "case " ++ v ++ str ":" : GoStr) := by
    intro hm
    rcases List.mem_append.mp hm with h1 | h2
    · rcases List.mem_append.mp h1 with h3 | h4
      · simp [str] at h3
      · exact hbr h4
    · simp [str] at h2
  have hbrm2 : '\x7d' ∉ (str "case " ++ v ++ str ":" : GoStr) := by
    intro hm
    rcases List.mem_append.mp hm with h1 | h2
    · rcases List.mem_append.mp h1 with h3 | h4
      · simp [str] at h3
      · exact hbr2 h4
    · simp [str] at h2
  have heqm : '=' ∉ (str "case " ++ v ++ str ":" : GoStr) := by
    intro hm
    rcases List.mem_append.mp hm with h1 | h2
    · rcases List.mem_append.mp h1 with h3 | h4
      · simp [str] at h3
      · exact heqv h4
    · simp [str] at h2
  have hstrip : stripSingleLineComment (str "case " ++ v ++ str ":") =
      str "case " ++ v ++ str ":" := by
    unfold stripSingleLineComment
    rw [if_neg]
    rw [ goCount_eq_zero_of_not_infix
      (not_infix_of_not_mem (show '/' ∈ (str "//" : GoStr) by decide) hslash)]
    decide
  have hsemi : goEndsWith (str "case " ++ v ++ str ":") (str ";") = false :=
    goEndsWith_eq_false_of_last_ne hlast rfl (by decide)
  have hsemis : semiStrip (str "case " ++ v ++ str ":") = str "case " ++ v ++ str ":" := by
    unfold semiStrip
    rw [hsemi]
    rfl
  have hlen : ¬ ((str "case " ++ v ++ str ":" : GoStr)).length = 0 := by simp [str]
  have hcb : goCount (str "case " ++ v ++ str ":") (str "\x7b") = 0 :=
    goCount_eq_zero_of_not_infix (not_infix_of_not_mem
      (show '\x7b' ∈ (str "\x7b" : GoStr) by decide) hbrm)
  have hcb2 : goCount (str "case " ++ v ++ str ":") (str "\x7d") = 0 :=
    goCount_eq_zero_of_not_infix (not_infix_of_not_mem
      (show '\x7d' ∈ (str "\x7d" : GoStr) by decide) hbrm2)
  have hstart2 : goStartsWith (str "case " ++ v ++ str ":") (str "//") = false :=
    goStartsWith_eq_false_of_head_ne hhd rfl (by decide)
  have hfu : goStartsWith (str "case " ++ v ++ str ":") (str "func") = false :=
    goStartsWith_eq_false_of_head_ne hhd rfl (by decide)
  have hfo : goStartsWith (str "case " ++ v ++ str ":") (str "for") = false :=
    goStartsWith_eq_false_of_head_ne hhd rfl (by decide)
  have hsw : goStartsWith (str "case " ++ v ++ str ":") (str "switch") = false :=
    goStartsWith_eq_false_of_head_ne hhd rfl (by decide)
  have hca : goStartsWith (str "case " ++ v ++ str ":") (str "case") = true := rfl
  have hCaseEq : Case g1 (str "case " ++ v ++ str ":") =
      some (str "\x7d else if (" ++ SwitchExpressionVariable g1 ++ str " == " ++ v ++
            str ") \x7b // case " ++ v ++ str "\n" ++ g1.switchLabel ++ str ":",
            { g1 with switchLabel := [] }) := by
    unfold Case
    rw [leftBetween_case hv]
    simp only [bind, Option.bind, hFC, Bool.false_eq_true, if_false, ite_false]
    rw [if_pos hSL]
  have hd1 : decide ((str "case " ++ v ++ str ":" : GoStr) = str "\x7d") = false :=
    decide_eq_false (by simp [str])
  have hebr : goEndsWith (str "case " ++ v ++ str ":") (str "\x7d") = false :=
    goEndsWith_eq_false_of_last_ne hlast rfl (by decide)
  have hceq : goContains (str "case " ++ v ++ str ":") (str "=") = false :=
    goContains_eq_false_of_not_infix (not_infix_of_not_mem
      (show '=' ∈ (str "=" : GoStr) by decide) heqm)
  have hlc2 : lastchar (str "case " ++ v ++ str ":") = [':'] := by
    unfold lastchar
    rw [hlast]
  have hha : has endings [':'] = true := by decide
  simp only [processLine, processDispatch, htrim, hstrip, hsemis, hsemi, hlen, hcb, hcb2,
    hImp, hVar, hTy, hC, hH, hS, hstart2, hfu, hfo, hsw, hca, hCaseEq, hd1, hebr, hceq,
    hlc2, hha, Bool.false_eq_true, Bool.true_and, Bool.false_and, Bool.and_true,
    Bool.and_false, Bool.or_false, Bool.false_or, Bool.not_true, Bool.not_false,
    Bool.true_eq_false, if_false, if_true, ite_false, ite_true]
  simp [str]

set_option maxHeartbeats 2000000 in
/-- A default line with a pending fallthrough label emits the default header
followed by the pending label, and clears the label. -/
theorem procDefaultLine (g1 : GState) (l : LState) (hSL : g1.switchLabel ≠ [])
    (hImp : l.inImport = false) (hVar : l.inVar = false) (hTy : l.inType = false)
    (hC : l.inConst = false) (hH : l.inHashMap = false) (hS : l.inStruct = false) :
    processLine g1 l (str "default:") =
      some ([str "\x7d else \x7b // default case" ++ str "\n" ++ g1.switchLabel ++ str ":"],
            { g1 with switchLabel := [] },
            { l with curlyCount := l.curlyCount + (0 - 0) }) := by
  have hslT : (g1.switchLabel ≠ []) = True := eq_true hSL
  have htrim : goTrimSpace (str "default:") = str "default:" := by decide
  have hstrip : stripSingleLineComment (str "default:") = str "default:" := by decide
  have hsemis : semiStrip (str "default:") = str "default:" := by decide
  have hlen : ¬ ((str "default:" : GoStr)).length = 0 := by decide
  have hcb : goCount (str "default:") (str "\x7b") = 0 := by decide
  have hcb2 : goCount (str "default:") (str "\x7d") = 0 := by decide
  have hstart2 : goStartsWith (str "default:") (str "//") = false := by decide
  have hfu : goStartsWith (str "default:") (str "func") = false := by decide
  have hfo : goStartsWith (str "default:") (str "for") = false := by decide
  have hsw : goStartsWith (str "default:") (str "switch") = false := by decide
  have hca : goStartsWith (str "default:") (str "case") = false := by decide
  have hre : goStartsWith (str "default:") (str "return") = false := by decide
  have hfp : goStartsWith (str "default:") (str "fmt.Print") = false := by decide
  have hpr : goStartsWith (str "default:") (str "print") = false := by decide
  have hceq : goContains (str "default:") (str "=") = false := by decide
  have hpk : goStartsWith (str "default:") (str "package ") = false := by decide
  have him : goStartsWith (str "default:") (str "import") = false := by decide
  have hifs : goStartsWith (str "default:") (str "if ") = false := by decide
  have heif : goStartsWith (str "default:") (str "\x7d else if ") = false := by decide
  have hvp : ¬ ((str "default:" : GoStr)) = str "var (" := by decide
  have htp : ¬ ((str "default:" : GoStr)) = str "type (" := by decide
  have hcp2 : ¬ ((str "default:" : GoStr)) = str "const (" := by decide
  have hva : goStartsWith (str "default:") (str "var ") = false := by decide
  have hty2 : goStartsWith (str "default:") (str "type ") = false := by decide
  have hco2 : goStartsWith (str "default:") (str "const ") = false := by decide
  have hftne : ¬ ((str "default:" : GoStr)) = str "fallthrough" := by decide
  have hd1 : decide ((str "default:" : GoStr) = str "\x7d") = false := by decide
  have hebr : goEndsWith (str "default:") (str "\x7d") = false := by decide
  have hlc2 : lastchar (str "default:") = [':'] := by decide
  have hha : has endings [':'] = true := by decide
  simp only [processLine, processDispatch, htrim, hstrip, hsemis, hlen, hcb, hcb2,
    hImp, hVar, hTy, hC, hH, hS, hstart2, hfu, hfo, hsw, hca, hre, hfp, hpr, hceq,
    hpk, him, hifs, heif, hvp, htp, hcp2, hva, hty2, hco2, hftne, hslT, hd1, hebr,
    hlc2, hha, eq_self_iff_true, Bool.false_eq_true, Bool.true_eq_false,
    Bool.true_and, Bool.false_and, Bool.and_true, Bool.and_false, Bool.or_false,
    Bool.false_or, Bool.not_true, Bool.not_false, if_false, if_true, ite_false, ite_true]
  simp [str]

theorem labEq {α : Type} {a o : α} {G g' : GState} {L l' : LState}
    (h : (some (a, G, L) : Option (α × GState × LState)) = some (o, g', l')) :
    g'.switchLabel = G.switchLabel := by
  simp only [Option.some.injEq, Prod.mk.injEq] at h
  rw [← h.2.1]

/-- The state produced by `Switch` keeps the pending fallthrough label. -/
theorem switchLabelSwitch {g : GState} {s o : GoStr} {g' : GState}
    (h : Switch g s = some (o, g')) : g'.switchLabel = g.switchLabel := by
  unfold Switch at h
  simp only [bind, Option.bind] at h
  split at h
  · exact Option.noConfusion h
  · simp only [Option.some.injEq, Prod.mk.injEq] at h
    rw [← h.2]

/-- The state produced by `ConstDeclaration` keeps the pending fallthrough
label. -/
theorem switchLabelConst {g : GState} {s o : GoStr} {g' : GState}
    (h : ConstDeclaration g s = some (o, g')) : g'.switchLabel = g.switchLabel := by
  unfold ConstDeclaration at h
  repeat' first
    | (split at h)
    | (dsimp only at h)
  all_goals first
    | exact Option.noConfusion h
    | (simp only [Option.some.injEq, Prod.mk.injEq] at h
       rw [← h.2]
       try (split <;> rfl))

set_option maxHeartbeats 2000000 in
/-- Every dispatch branch other than the case, fallthrough and default
branches keeps the pending fallthrough label. -/
theorem dispatchLabel {g : GState} {l : LState} {line t1 : GoStr}
    {o : Option GoStr} {g' : GState} {l' : LState}
    (hcase : goStartsWith t1 (str "case") = false)
    (hft : ¬ t1 = str "fallthrough")
    (hdef : ¬ t1 = str "default:")
    (h : processDispatch g l line t1 = some (o, g', l')) :
    g'.switchLabel = g.switchLabel := by
  unfold processDispatch at h
  by_cases h1 : (l.inImport && goContains t1 (str ")")) = true
  · rw [if_pos h1] at h
    exact labEq h
  rw [if_neg h1] at h
  by_cases h2 : l.inImport = true
  · rw [if_pos h2] at h
    exact labEq h
  rw [if_neg h2] at h
  by_cases h3 : (l.inVar && goContains t1 (str ")")) = true
  · rw [if_pos h3] at h
    exact labEq h
  rw [if_neg h3] at h
  by_cases h4 : (l.inType && goContains t1 (str ")")) = true
  · rw [if_pos h4] at h
    exact labEq h
  rw [if_neg h4] at h
  by_cases h5 : (l.inConst && goContains t1 (str ")")) = true
  · rw [if_pos h5] at h
    exact labEq h
  rw [if_neg h5] at h
  by_cases h6 : (l.inHashMap && decide (t1 = str "\x7d")) = true
  · rw [if_pos h6] at h
    exact labEq h
  rw [if_neg h6] at h
  by_cases h7 : (l.inVar || l.inStruct && decide (t1 ≠ str "\x7d")) = true
  · rw [if_pos h7] at h
    repeat' split at h
    all_goals first
      | exact Option.noConfusion h
      | exact labEq h
  rw [if_neg h7] at h
  by_cases h8 : l.inType = true
  · rw [if_pos h8] at h
    repeat' first
      | (split at h)
      | (dsimp only at h)
    all_goals first
      | exact Option.noConfusion h
      | exact labEq h
  rw [if_neg h8] at h
  by_cases h9 : l.inConst = true
  · rw [if_pos h9] at h
    repeat' split at h
    all_goals first
      | exact Option.noConfusion h
      | exact (labEq h).trans (switchLabelConst (by assumption))
  rw [if_neg h9] at h
  by_cases h10 : l.inHashMap = true
  · rw [if_pos h10] at h
    repeat' split at h
    all_goals first
      | exact Option.noConfusion h
      | exact labEq h
  rw [if_neg h10] at h
  by_cases h11 : goStartsWith t1 (str "func") = true
  · rw [if_pos h11] at h
    repeat' split at h
    all_goals first
      | exact Option.noConfusion h
      | exact labEq h
  rw [if_neg h11] at h
  by_cases h12 : goStartsWith t1 (str "for") = true
  · rw [if_pos h12] at h
    repeat' split at h
    all_goals first
      | exact Option.noConfusion h
      | exact labEq h
  rw [if_neg h12] at h
  by_cases h13 : goStartsWith t1 (str "switch") = true
  · rw [if_pos h13] at h
    repeat' split at h
    all_goals first
      | exact Option.noConfusion h
      | exact (labEq h).trans (switchLabelSwitch (by assumption))
  rw [if_neg h13] at h
  rw [if_neg (show ¬ (goStartsWith t1 (str "case") = true) by simp [hcase])] at h
  by_cases h14 : goStartsWith t1 (str "return") = true
  · rw [if_pos h14] at h
    repeat' split at h
    all_goals first
      | exact Option.noConfusion h
      | exact labEq h
  rw [if_neg h14] at h
  by_cases h15 : (goStartsWith t1 (str "fmt.Print") || goStartsWith t1 (str "print")) = true
  · rw [if_pos h15] at h
    repeat' split at h
    all_goals first
      | exact Option.noConfusion h
      | exact labEq h
  rw [if_neg h15] at h
  by_cases h16 : (goContains t1 (str "=") && !goStartsWith t1 (str "var ") &&
      !goStartsWith t1 (str "if ") && !goStartsWith t1 (str "const ") &&
      !goStartsWith t1 (str "type ")) = true
  · rw [if_pos h16] at h
    repeat' first
      | (split at h)
      | (dsimp only at h)
    all_goals first
      | exact Option.noConfusion h
      | exact labEq h
  rw [if_neg h16] at h
  by_cases h17 : goStartsWith t1 (str "package ") = true
  · rw [if_pos h17] at h
    exact labEq h
  rw [if_neg h17] at h
  by_cases h18 : goStartsWith t1 (str "import") = true
  · rw [if_pos h18] at h
    repeat' first
      | (split at h)
      | (dsimp only at h)
    all_goals first
      | exact Option.noConfusion h
      | exact labEq h
  rw [if_neg h18] at h
  by_cases h19 : goStartsWith t1 (str "if ") = true
  · rw [if_pos h19] at h
    repeat' split at h
    all_goals first
      | exact Option.noConfusion h
      | exact labEq h
  rw [if_neg h19] at h
  by_cases h20 : goStartsWith t1 (str "\x7d else if ") = true
  · rw [if_pos h20] at h
    repeat' split at h
    all_goals first
      | exact Option.noConfusion h
      | exact labEq h
  rw [if_neg h20] at h
  by_cases h21 : t1 = str "var ("
  · rw [if_pos h21] at h
    exact labEq h
  rw [if_neg h21] at h
  by_cases h22 : t1 = str "type ("
  · rw [if_pos h22] at h
    exact labEq h
  rw [if_neg h22] at h
  by_cases h23 : t1 = str "const ("
  · rw [if_pos h23] at h
    exact labEq h
  rw [if_neg h23] at h
  by_cases h24 : goStartsWith t1 (str "var ") = true
  · rw [if_pos h24] at h
    repeat' split at h
    all_goals first
      | exact Option.noConfusion h
      | exact labEq h
  rw [if_neg h24] at h
  by_cases h25 : goStartsWith t1 (str "type ") = true
  · rw [if_pos h25] at h
    repeat' split at h
    all_goals first
      | exact Option.noConfusion h
      | exact labEq h
  rw [if_neg h25] at h
  by_cases h26 : goStartsWith t1 (str "const ") = true
  · rw [if_pos h26] at h
    repeat' split at h
    all_goals first
      | exact Option.noConfusion h
      | exact (labEq h).trans (switchLabelConst (by assumption))
  rw [if_neg h26] at h
  rw [if_neg hft] at h
  rw [if_neg hdef] at h
  exact labEq h

set_option maxHeartbeats 2000000 in
/-- A processed line whose comment-stripped, trimmed, semicolon-stripped text
is not a case line, not a fallthrough line and not a default line keeps the
pending fallthrough label. -/
theorem processLineLabel {g1 g2 : GState} {l1 l2 : LState} {line : GoStr} {out : List GoStr}
    (hcase : goStartsWith (semiStrip (stripSingleLineComment (goTrimSpace line)))
      (str "case") = false)
    (hft : ¬ semiStrip (stripSingleLineComment (goTrimSpace line)) = str "fallthrough")
    (hdef : ¬ semiStrip (stripSingleLineComment (goTrimSpace line)) = str "default:")
    (h : processLine g1 l1 line = some (out, g2, l2)) :
    g2.switchLabel = g1.switchLabel := by
  unfold processLine at h
  repeat' first
    | (split at h)
    | (dsimp only at h)
  all_goals first
    | exact Option.noConfusion h
    | exact labEq h
    | exact (labEq h).trans (dispatchLabel hcase hft hdef (by assumption))

/-- C4: with a fallthrough directive inside a switch alternative, the emitted
unconditional jump `goto L;` names exactly the label L that the next case
line (or default line) places at the top of its emitted body, and that
pending label is consumed there and cleared: the fallthrough line records L
in the pending-label state, the next case or default line appends `L:` right
after its emitted header and resets the pending label to empty, and every
line that is not a case, fallthrough or default line leaves the pending
label untouched, so the label is consumed by exactly the next case or
default transformer. -/
theorem c4_fallthrough_label_consumed_by_next_case (g : GState) (l : LState) (v : GoStr)
    (hv : okIdent v = true)
    (hImp : l.inImport = false) (hVar : l.inVar = false) (hTy : l.inType = false)
    (hC : l.inConst = false) (hH : l.inHashMap = false) (hS : l.inStruct = false) :
    processLine g l (str "fallthrough") =
      some ([str "goto " ++ LabelName g ++ str "; // fallthrough"],
            { g with switchLabel := LabelName g, labelCounter := g.labelCounter + 1 },
            { l with curlyCount := l.curlyCount + (0 - 0) }) ∧
    (∀ g1 : GState, g1.firstCase = false → g1.switchLabel = LabelName g →
      processLine g1 l (str "case " ++ v ++ str ":") =
        some ([str "\x7d else if (" ++ SwitchExpressionVariable g1 ++ str " == " ++ v ++
               str ") \x7b // case " ++ v ++ str "\n" ++ LabelName g ++ str ":"],
              { g1 with switchLabel := [] },
              { l with curlyCount := l.curlyCount + (0 - 0) })) ∧
    (∀ g1 : GState, g1.switchLabel = LabelName g →
      processLine g1 l (str "default:") =
        some ([str "\x7d else \x7b // default case" ++ str "\n" ++ LabelName g ++ str ":"],
              { g1 with switchLabel := [] },
              { l with curlyCount := l.curlyCount + (0 - 0) })) ∧
    (∀ (ga gb : GState) (la lb : LState) (other : GoStr) (out : List GoStr),
      goStartsWith (semiStrip (stripSingleLineComment (goTrimSpace other)))
        (str "case") = false →
      ¬ semiStrip (stripSingleLineComment (goTrimSpace other)) = str "fallthrough" →
      ¬ semiStrip (stripSingleLineComment (goTrimSpace other)) = str "default:" →
      processLine ga la other = some (out, gb, lb) →
      gb.switchLabel = ga.switchLabel) := by
  refine ⟨procFallthroughLine g l hImp hVar hTy hC hH hS, ?_, ?_, ?_⟩
  · intro g1 hFC hSL
    have hne : g1.switchLabel ≠ [] := by
      rw [hSL]
      simp [LabelName, labelPrefixC, str]
    have e := procCaseLine g1 l v hv hFC hne hImp hVar hTy hC hH hS
    rw [e, hSL]
  · intro g1 hSL
    have hne : g1.switchLabel ≠ [] := by
      rw [hSL]
      simp [LabelName, labelPrefixC, str]
    have e := procDefaultLine g1 l hne hImp hVar hTy hC hH hS
    rw [e, hSL]
  · intro ga gb la lb other out hc hf hd hp
    exact processLineLabel hc hf hd hp

theorem c4_fallthrough_label_witness :
    processLine initGState initLState (str "fallthrough") =
      some ([str "goto " ++ LabelName initGState ++ str "; // fallthrough"],
            { initGState with switchLabel := LabelName initGState,
                              labelCounter := initGState.labelCounter + 1 },
            { initLState with curlyCount := initLState.curlyCount + (0 - 0) }) :=
  (c4_fallthrough_label_consumed_by_next_case initGState initLState (str "x")
    (by decide) rfl rfl rfl rfl rfl rfl).1

/-!
C6 support: the two-return-value function signature computation and the
return-line tuple wrap.
-/

theorem goLastIndex_none_of_not_mem {c : Char} {B : GoStr} (h : c ∉ B) :
    goLastIndex B [c] = none := by
  induction B with
  | nil => rfl
  | cons d t ih =>
      have hd : ¬ (c = d) := fun he => h (by rw [he]; exact List.mem_cons_self d t)
      rw [goLastIndex, ih (fun hm => h (List.mem_cons_of_mem d hm))]
      simp [List.isPrefixOf, hd]

theorem goLastIndex_singleton_boundary {c : Char} {A B : GoStr} (hA : c ∉ A) (hB : c ∉ B) :
    goLastIndex (A ++ [c] ++ B) [c] = some A.length := by
  induction A with
  | nil =>
      show goLastIndex (c :: B) [c] = some 0
      rw [goLastIndex, goLastIndex_none_of_not_mem hB]
      simp [List.isPrefixOf]
  | cons d t ih =>
      have e := ih (fun hm => hA (List.mem_cons_of_mem d hm))
      rw [show ((d :: t) ++ [c] ++ B : GoStr) = d :: (t ++ [c] ++ B) from by simp]
      rw [goLastIndex, e]
      simp

theorem not_infix_append {p x y : GoStr} (hp : p ≠ []) (hy : ¬ p <:+: y)
    (hx : ∀ c ∈ x, c ∉ p) : ¬ p <:+: (x ++ y) := by
  induction x with
  | nil => simpa using hy
  | cons d t ih =>
      intro hin
      rw [List.cons_append, List.infix_cons_iff] at hin
      rcases hin with hpre | hinf
      · obtain ⟨w, hw⟩ := hpre
        cases p with
        | nil => exact hp rfl
        | cons e q =>
            rw [List.cons_append] at hw
            injection hw with h1 h2
            subst h1
            exact hx e (List.mem_cons_self e t) (List.mem_cons_self e q)
      · exact ih (fun c2 hc2 => hx c2 (List.mem_cons_of_mem d hc2)) hinf

theorem funcArgsPair {t1 t2 : GoStr} (h1 : okIdent t1 = true) (h2 : okIdent t2 = true)
    (hni : ¬ t1 <:+: t2) :
    FunctionArguments (t1 ++ str ", " ++ t2) = t1 ++ str ",  " ++ t2 := by
  obtain ⟨c1, hc1h, hc1i⟩ := okIdent_head?_ident h1
  have hc1 : goContains (t1 ++ str ", " ++ t2) (str ",") = true :=
    goContains_of_infix ⟨t1, str " " ++ t2, by simp [str]⟩
  have hsplit : goSplit (t1 ++ str ", " ++ t2) (str ",") = [t1, str " " ++ t2] := by
    have hnm : ',' ∉ (str " " ++ t2 : GoStr) := by
      intro hm
      rcases List.mem_append.mp hm with hA | hB
      · simp [str] at hA
      · exact okIdent_notMem h2 (by decide) hB
    have e := @goSplit_boundary (str ",") ',' rfl t1 (str " " ++ t2)
      (okIdent_notMem h1 (by decide)) (by simp [str])
    rw [show (t1 ++ str ", " ++ t2 : GoStr) = t1 ++ str "," ++ (str " " ++ t2) from
      by simp [str]]
    rw [e, goSplit_of_not_infix (by simp [str])
      (not_infix_of_not_mem (show ',' ∈ (str "," : GoStr) by decide) hnm)]
  have hm1 : goTrimSpace (str " " ++ t2) = t2 := by
    rw [show (str " " ++ t2 : GoStr) = ' ' :: t2 from by simp [str]]
    rw [goTrimSpace_cons_space (by decide)]
    exact okIdent_trim h2
  have hnc2 : goContains t2 (str " ") = false :=
    goContains_eq_false_of_not_infix (not_infix_of_not_mem
      (show ' ' ∈ (str " " : GoStr) by decide) (okIdent_notMem h2 (by decide)))
  have hnc1 : goContains t1 (str " ") = false :=
    goContains_eq_false_of_not_infix (not_infix_of_not_mem
      (show ' ' ∈ (str " " : GoStr) by decide) (okIdent_notMem h1 (by decide)))
  have htr1 : goTrimSpace t1 = t1 := okIdent_trim h1
  have hrep1 : goReplaceAll (t1 ++ str ", " ++ t2) (str " " ++ t2)
      (str " " ++ [] ++ str " " ++ t2) = t1 ++ str ",  " ++ t2 := by
    have hb : ¬ (str " " ++ t2 : GoStr) <:+: ([] : GoStr) := by
      simp [str]
    have ha : ' ' ∉ (t1 ++ str "," : GoStr) := by
      intro hm
      rcases List.mem_append.mp hm with hA | hB
      · exact okIdent_notMem h1 (by decide) hA
      · simp [str] at hB
    have e := @goReplaceAll_boundary (str " " ++ t2) ' ' rfl (t1 ++ str ",") ([] : GoStr)
      ha hb (str " " ++ [] ++ str " " ++ t2)
    rw [show ((t1 ++ str ",") ++ (str " " ++ t2) ++ ([] : GoStr) : GoStr) =
      t1 ++ str ", " ++ t2 from by simp [str]] at e
    rw [e]
    simp [str]
  have hrep2 : goReplaceAll (t1 ++ str ",  " ++ t2) t1
      (str " " ++ [] ++ str " " ++ t1) = str "  " ++ t1 ++ str ",  " ++ t2 := by
    have hx : ∀ c ∈ (str ",  " : GoStr), c ∉ t1 := by
      intro c hcm
      have hor : c = ',' ∨ c = ' ' := by simpa [str] using hcm
      rcases hor with h | h <;> (subst h; exact okIdent_notMem h1 (by decide))
    have hb : ¬ t1 <:+: (str ",  " ++ t2 : GoStr) :=
      not_infix_append (okIdent_ne_nil h1) hni hx
    have e := @goReplaceAll_boundary t1 c1 hc1h ([] : GoStr) (str ",  " ++ t2)
      (by simp) hb (str " " ++ [] ++ str " " ++ t1)
    rw [show (([] : GoStr) ++ t1 ++ (str ",  " ++ t2) : GoStr) =
      t1 ++ str ",  " ++ t2 from by simp [str]] at e
    rw [e]
    simp [str]
  have e1 : functionArgsStep ([], [], t1 ++ str ", " ++ t2) (str " " ++ t2) =
      (t2, [], t1 ++ str ",  " ++ t2) := by
    unfold functionArgsStep
    simp only [hm1, hnc2, Bool.false_eq_true, if_false, ite_false, hrep1]
  have e2 : functionArgsStep (t2, [], t1 ++ str ",  " ++ t2) t1 =
      (t1, [], str "  " ++ t1 ++ str ",  " ++ t2) := by
    unfold functionArgsStep
    simp only [htr1, hnc1, Bool.false_eq_true, if_false, ite_false, hrep2]
  have htrE : goTrimSpace (str "  " ++ t1 ++ str ",  " ++ t2) = t1 ++ str ",  " ++ t2 := by
    rw [show (str "  " ++ t1 ++ str ",  " ++ t2 : GoStr) =
      ' ' :: (' ' :: (t1 ++ str ",  " ++ t2)) from by simp [str]]
    rw [goTrimSpace_cons_space (by decide), goTrimSpace_cons_space (by decide)]
    refine goTrimSpace_eq_self ?_ ?_
    · intro c hc
      rw [head?_append_left (by simp [str]), head?_append_left (okIdent_ne_nil h1),
        hc1h] at hc
      injection hc with hh
      rw [← hh]
      exact isSpaceChar_eq_false_of_isIdentChar hc1i
    · intro c hc
      obtain ⟨c2, hc2h, hc2i⟩ := okIdent_getLast?_ident h2
      rw [getLast?_append_right (okIdent_ne_nil h2), hc2h] at hc
      injection hc with hh
      rw [← hh]
      exact isSpaceChar_eq_false_of_isIdentChar hc2i
  unfold FunctionArguments
  simp only [hc1, if_true, ite_true, hsplit, List.reverse_cons, List.reverse_nil,
    List.nil_append, List.cons_append, List.foldl_cons, List.foldl_nil, e1, e2, htrE]

theorem funcRetvalsPair {t1 t2 : GoStr} (h1 : okIdent t1 = true) (h2 : okIdent t2 = true)
    (hni : ¬ t1 <:+: t2) :
    FunctionRetvals (str " (" ++ t1 ++ str ", " ++ t2 ++ str ") ") =
      some (str "(" ++ t1 ++ str ",  " ++ t2 ++ str ")") := by
  obtain ⟨c1, hc1h, hc1i⟩ := okIdent_head?_ident h1
  obtain ⟨c2, hc2h, hc2i⟩ := okIdent_getLast?_ident h2
  have hrp1 : ')' ∉ t1 := okIdent_notMem h1 (by decide)
  have hrp2 : ')' ∉ t2 := okIdent_notMem h2 (by decide)
  have htrim2 : goTrimSpace (str " (" ++ t1 ++ str ", " ++ t2 ++ str ") ") =
      str "(" ++ t1 ++ str ", " ++ t2 ++ str ")" := by
    rw [show (str " (" ++ t1 ++ str ", " ++ t2 ++ str ") " : GoStr) =
      ' ' :: ((str "(" ++ t1 ++ str ", " ++ t2 ++ str ")") ++ [' ']) from by simp [str]]
    rw [goTrimSpace_cons_space (by decide)]
    rw [goTrimSpace_append_space_of_head (by decide) (fun d hd => by
      rw [show ((str "(" ++ t1 ++ str ", " ++ t2 ++ str ")" : GoStr)).head? = some '('
        from rfl] at hd
      injection hd with hh
      rw [← hh]
      decide)]
    refine goTrimSpace_eq_self ?_ ?_
    · intro c hc
      rw [show ((str "(" ++ t1 ++ str ", " ++ t2 ++ str ")" : GoStr)).head? = some '('
        from rfl] at hc
      injection hc with hh
      rw [← hh]
      decide
    · intro c hc
      rw [getLast?_append_right (by simp [str])] at hc
      injection hc with hh
      rw [← hh]
      decide
  have hlenm : ¬ ((str "(" ++ t1 ++ str ", " ++ t2 ++ str ")" : GoStr)).length = 0 := by
    simp [str]
  have hC : goContains (str " (" ++ t1 ++ str ", " ++ t2 ++ str ") ") (str "(") = true :=
    goContains_of_infix ⟨str " ", t1 ++ str ", " ++ t2 ++ str ") ", by simp [str]⟩
  have hIdxL : goIndex (str " (" ++ t1 ++ str ", " ++ t2 ++ str ") ") (str "(") =
      some ((str " " : GoStr)).length := by
    have e := @goIndex_boundary (str "(") '(' rfl (str " ")
      (t1 ++ str ", " ++ t2 ++ str ") ") (by decide)
    rw [show (str " " ++ str "(" ++ (t1 ++ str ", " ++ t2 ++ str ") ") : GoStr) =
      str " (" ++ t1 ++ str ", " ++ t2 ++ str ") " from by simp [str]] at e
    exact e
  have hnrA : ')' ∉ (str " (" ++ t1 ++ str ", " ++ t2 : GoStr) := by
    intro hm
    rcases List.mem_append.mp hm with hA | hB
    · rcases List.mem_append.mp hA with hA2 | hB2
      · rcases List.mem_append.mp hA2 with hA3 | hB3
        · simp [str] at hA3
        · exact hrp1 hB3
      · simp [str] at hB2
    · exact hrp2 hB
  have hLIdx : goLastIndex (str " (" ++ t1 ++ str ", " ++ t2 ++ str ") ") (str ")") =
      some ((str " (" ++ t1 ++ str ", " ++ t2 : GoStr)).length := by
    have e := goLastIndex_singleton_boundary hnrA
      (show ')' ∉ (str " " : GoStr) by decide)
    rw [show ((str " (" ++ t1 ++ str ", " ++ t2) ++ [')'] ++ str " " : GoStr) =
      str " (" ++ t1 ++ str ", " ++ t2 ++ str ") " from by simp [str]] at e
    exact e
  have hA4d : (str " (" ++ t1 ++ str ", " ++ t2 : GoStr) =
      str " " ++ (str "(" ++ t1 ++ str ", " ++ t2) := by simp [str]
  have hGB : greedyBetween (str " (" ++ t1 ++ str ", " ++ t2 ++ str ") ")
      (str "(") (str ")") = some (t1 ++ str ", " ++ t2) := by
    unfold greedyBetween between
    simp only [hIdxL, hLIdx, Bool.false_eq_true, if_false, ite_false, if_true, ite_true]
    rw [if_neg (by
      rw [hA4d, List.length_append]
      omega)]
    rw [← List.length_append (str " ") (str "(")]
    have e := goSlice_boundary (str " " ++ str "(") (t1 ++ str ", " ++ t2) (str ") ")
    rw [show ((str " " ++ str "(") ++ (t1 ++ str ", " ++ t2) ++ str ") " : GoStr) =
      str " (" ++ t1 ++ str ", " ++ t2 ++ str ") " from by simp [str]] at e
    rw [show ((str " (" ++ t1 ++ str ", " ++ t2 : GoStr)).length =
      (str " " ++ str "(" : GoStr).length + (t1 ++ str ", " ++ t2 : GoStr).length from by
        rw [← List.length_append]
        try exact congrArg List.length (by simp [str])]
    exact e
  have hFA := funcArgsPair h1 h2 hni
  have hCret : goContains (t1 ++ str ",  " ++ t2) (str ",") = true :=
    goContains_of_infix ⟨t1, str "  " ++ t2, by simp [str]⟩
  have htrim3 : goTrimSpace (str "(" ++ (t1 ++ str ",  " ++ t2) ++ str ")") =
      str "(" ++ (t1 ++ str ",  " ++ t2) ++ str ")" := by
    refine goTrimSpace_eq_self ?_ ?_
    · intro c hc
      rw [show ((str "(" ++ (t1 ++ str ",  " ++ t2) ++ str ")" : GoStr)).head? = some '('
        from rfl] at hc
      injection hc with hh
      rw [← hh]
      decide
    · intro c hc
      rw [getLast?_append_right (by simp [str])] at hc
      injection hc with hh
      rw [← hh]
      decide
  unfold FunctionRetvals
  rw [htrim2]
  rw [if_neg hlenm]
  simp only [hC, if_true, ite_true, bind, Option.bind, hGB, hFA, hCret, htrim3]
  simp [str]

theorem cppTypesPair {t1 t2 : GoStr} (h1 : okIdent t1 = true) (h2 : okIdent t2 = true) :
    CPPTypes (str "(" ++ t1 ++ str ",  " ++ t2 ++ str ")") = some (t1 ++ str ", " ++ t2) := by
  have hrp1 : ')' ∉ t1 := okIdent_notMem h1 (by decide)
  have hrp2 : ')' ∉ t2 := okIdent_notMem h2 (by decide)
  have hcm1 : ',' ∉ t1 := okIdent_notMem h1 (by decide)
  have hsp1 : ' ' ∉ t1 := okIdent_notMem h1 (by decide)
  have hsp2 : ' ' ∉ t2 := okIdent_notMem h2 (by decide)
  have hIdx0 : goIndex (str "(" ++ t1 ++ str ",  " ++ t2 ++ str ")") (str "(") = some 0 :=
    goIndex_of_isPrefixOf (List.isPrefixOf_iff_prefix.mpr
      ⟨t1 ++ str ",  " ++ t2 ++ str ")", by simp [str]⟩)
  have hnrA : ')' ∉ (str "(" ++ t1 ++ str ",  " ++ t2 : GoStr) := by
    intro hm
    rcases List.mem_append.mp hm with hA | hB
    · rcases List.mem_append.mp hA with hA2 | hB2
      · rcases List.mem_append.mp hA2 with hA3 | hB3
        · simp [str] at hA3
        · exact hrp1 hB3
      · simp [str] at hB2
    · exact hrp2 hB
  have hIdxR : goIndex (str "(" ++ t1 ++ str ",  " ++ t2 ++ str ")") (str ")") =
      some ((str "(" ++ t1 ++ str ",  " ++ t2 : GoStr)).length := by
    have e := @goIndex_boundary (str ")") ')' rfl (str "(" ++ t1 ++ str ",  " ++ t2)
      ([] : GoStr) hnrA
    rw [List.append_nil] at e
    exact e
  have hLB : leftBetween (str "(" ++ t1 ++ str ",  " ++ t2 ++ str ")") (str "(") (str ")") =
      some (t1 ++ str ",  " ++ t2) := by
    unfold leftBetween between
    simp only [hIdx0, hIdxR, Bool.false_eq_true, if_false, ite_false]
    rw [if_neg (by omega)]
    have e := goSlice_boundary (str "(") (t1 ++ str ",  " ++ t2) (str ")")
    rw [show ((str "(") ++ (t1 ++ str ",  " ++ t2) ++ str ")" : GoStr) =
      str "(" ++ t1 ++ str ",  " ++ t2 ++ str ")" from by simp [str]] at e
    rw [show ((str "(" ++ t1 ++ str ",  " ++ t2 : GoStr)).length =
      (str "(" : GoStr).length + (t1 ++ str ",  " ++ t2 : GoStr).length from by
        rw [← List.length_append]
        try exact congrArg List.length (by simp [str])]
    exact e
  have hsplitI : goSplit (t1 ++ str ",  " ++ t2) (str ",") = [t1, str "  " ++ t2] := by
    have hnm : ',' ∉ (str "  " ++ t2 : GoStr) := by
      intro hm
      rcases List.mem_append.mp hm with hA | hB
      · simp [str] at hA
      · exact okIdent_notMem h2 (by decide) hB
    have e := @goSplit_boundary (str ",") ',' rfl t1 (str "  " ++ t2) hcm1 (by simp [str])
    rw [show (t1 ++ str ",  " ++ t2 : GoStr) = t1 ++ str "," ++ (str "  " ++ t2) from
      by simp [str]]
    rw [e, goSplit_of_not_infix (by simp [str])
      (not_infix_of_not_mem (show ',' ∈ (str "," : GoStr) by decide) hnm)]
  have htr1 : goTrimSpace t1 = t1 := okIdent_trim h1
  have htr2 : goTrimSpace (str "  " ++ t2) = t2 := by
    rw [show (str "  " ++ t2 : GoStr) = ' ' :: (' ' :: t2) from by simp [str]]
    rw [goTrimSpace_cons_space (by decide), goTrimSpace_cons_space (by decide)]
    exact okIdent_trim h2
  have hsp1' : goSplit t1 (str " ") = [t1] :=
    goSplit_of_not_infix (by simp [str])
      (not_infix_of_not_mem (show ' ' ∈ (str " " : GoStr) by decide) hsp1)
  have hsp2' : goSplit t2 (str " ") = [t2] :=
    goSplit_of_not_infix (by simp [str])
      (not_infix_of_not_mem (show ' ' ∈ (str " " : GoStr) by decide) hsp2)
  unfold CPPTypes
  simp only [bind, Option.bind, hLB, hsplitI, List.map_cons, List.map_nil,
    htr1, htr2, hsp1', hsp2']
  simp [goJoin]

set_option maxHeartbeats 1000000 in
theorem funcSigTwoRets {f t1 t2 : GoStr} (hf : okIdent f = true)
    (h1 : okIdent t1 = true) (h2 : okIdent t2 = true)
    (hni : ¬ t1 <:+: t2) (hm : ¬ f = str "main") :
    FunctionSignature (str "func " ++ f ++ str "() (" ++ t1 ++ str ", " ++ t2 ++
        str ") \x7b") =
      some (str "auto " ++ f ++ str "() -> std::tuple<" ++ t1 ++ str ", " ++ t2 ++
            str "> \x7b",
            str "std::tuple<" ++ t1 ++ str ", " ++ t2 ++ str ">", f) := by
  obtain ⟨cf, hcfh, hcfi⟩ := okIdent_head?_ident hf
  have hpf : '(' ∉ (str "func " ++ f : GoStr) := by
    intro hm2
    rcases List.mem_append.mp hm2 with hA | hB
    · simp [str] at hA
    · exact okIdent_notMem hf (by decide) hB
  have hpr : ')' ∉ (str "func " ++ f ++ str "(" : GoStr) := by
    intro hm2
    rcases List.mem_append.mp hm2 with hA | hB
    · rcases List.mem_append.mp hA with hA2 | hB2
      · simp [str] at hA2
      · exact okIdent_notMem hf (by decide) hB2
    · simp [str] at hB
  have htrimS : goTrimSpace (str "func " ++ f ++ str "() (" ++ t1 ++ str ", " ++ t2 ++
      str ") \x7b") = str "func " ++ f ++ str "() (" ++ t1 ++ str ", " ++ t2 ++
      str ") \x7b" := by
    refine goTrimSpace_eq_self ?_ ?_
    · intro c hc
      rw [show ((str "func " ++ f ++ str "() (" ++ t1 ++ str ", " ++ t2 ++
        str ") \x7b" : GoStr)).head? = some 'f' from rfl] at hc
      injection hc with hh
      rw [← hh]
      decide
    · intro c hc
      rw [getLast?_append_right (by simp [str])] at hc
      injection hc with hh
      rw [← hh]
      decide
  have hlenS : ¬ ((str "func " ++ f ++ str "() (" ++ t1 ++ str ", " ++ t2 ++
      str ") \x7b" : GoStr)).length = 0 := by simp [str]
  have hIdx1 : goIndex (str "func " ++ f ++ str "() (" ++ t1 ++ str ", " ++ t2 ++
      str ") \x7b") (str "(") = some ((str "func " ++ f : GoStr)).length := by
    have e := @goIndex_boundary (str "(") '(' rfl (str "func " ++ f)
      (str ") (" ++ t1 ++ str ", " ++ t2 ++ str ") \x7b") hpf
    rw [show ((str "func " ++ f) ++ str "(" ++ (str ") (" ++ t1 ++ str ", " ++ t2 ++
      str ") \x7b") : GoStr) = str "func " ++ f ++ str "() (" ++ t1 ++ str ", " ++ t2 ++
      str ") \x7b" from by simp [str]] at e
    exact e
  have hIdx2 : goIndex (str "func " ++ f ++ str "() (" ++ t1 ++ str ", " ++ t2 ++
      str ") \x7b") (str ")") = some ((str "func " ++ f ++ str "(" : GoStr)).length := by
    have e := @goIndex_boundary (str ")") ')' rfl (str "func " ++ f ++ str "(")
      (str " (" ++ t1 ++ str ", " ++ t2 ++ str ") \x7b") hpr
    rw [show ((str "func " ++ f ++ str "(") ++ str ")" ++ (str " (" ++ t1 ++ str ", " ++
      t2 ++ str ") \x7b") : GoStr) = str "func " ++ f ++ str "() (" ++ t1 ++ str ", " ++
      t2 ++ str ") \x7b" from by simp [str]] at e
    exact e
  have hLB1 : leftBetween (str "func " ++ f ++ str "() (" ++ t1 ++ str ", " ++ t2 ++
      str ") \x7b") (str "(") (str ")") = some [] := by
    unfold leftBetween between
    simp only [hIdx1, hIdx2, Bool.false_eq_true, if_false, ite_false]
    rw [if_neg (by
      rw [show ((str "func " ++ f ++ str "(" : GoStr)).length =
        (str "func " ++ f : GoStr).length + (str "(" : GoStr).length from
        List.length_append _ _]
      omega)]
    rw [← List.length_append (str "func " ++ f) (str "(")]
    have e := goSlice_boundary (str "func " ++ f ++ str "(") ([] : GoStr)
      (str ") (" ++ t1 ++ str ", " ++ t2 ++ str ") \x7b")
    rw [show ((str "func " ++ f ++ str "(") ++ ([] : GoStr) ++ (str ") (" ++ t1 ++
      str ", " ++ t2 ++ str ") \x7b") : GoStr) = str "func " ++ f ++ str "() (" ++ t1 ++
      str ", " ++ t2 ++ str ") \x7b" from by simp [str]] at e
    exact e
  have hC1 : goContains (str "func " ++ f ++ str "() (" ++ t1 ++ str ", " ++ t2 ++
      str ") \x7b") (str ") (") = true :=
    goContains_of_infix ⟨str "func " ++ f ++ str "(",
      t1 ++ str ", " ++ t2 ++ str ") \x7b", by simp [str]⟩
  have hnbr : '\x7b' ∉ (str "func " ++ f ++ str "() (" ++ t1 ++ str ", " ++ t2 ++
      str ") " : GoStr) := by
    intro hm2
    rcases List.mem_append.mp hm2 with h6 | h7
    · rcases List.mem_append.mp h6 with h5 | hc6
      · rcases List.mem_append.mp h5 with h4 | hc5
        · rcases List.mem_append.mp h4 with h3 | hc4
          · rcases List.mem_append.mp h3 with h2m | hc3
            · rcases List.mem_append.mp h2m with hc1 | hc2
              · simp [str] at hc1
              · exact okIdent_notMem hf (by decide) hc2
            · simp [str] at hc3
          · exact okIdent_notMem h1 (by decide) hc4
        · simp [str] at hc5
      · exact okIdent_notMem h2 (by decide) hc6
    · simp [str] at h7
  have hLIdx : goLastIndex (str "func " ++ f ++ str "() (" ++ t1 ++ str ", " ++ t2 ++
      str ") \x7b") (str "\x7b") =
      some ((str "func " ++ f ++ str "() (" ++ t1 ++ str ", " ++ t2 ++
        str ") " : GoStr)).length := by
    have e := goLastIndex_singleton_boundary hnbr
      (show '\x7b' ∉ ([] : GoStr) by simp)
    rw [show ((str "func " ++ f ++ str "() (" ++ t1 ++ str ", " ++ t2 ++ str ") ") ++
      ['\x7b'] ++ ([] : GoStr) : GoStr) = str "func " ++ f ++ str "() (" ++ t1 ++
      str ", " ++ t2 ++ str ") \x7b" from by simp [str]] at e
    exact e
  have hP3eq : (str "func " ++ f ++ str "() (" ++ t1 ++ str ", " ++ t2 ++
      str ") " : GoStr) = (str "func " ++ f ++ str "(") ++
      (str ") (" ++ t1 ++ str ", " ++ t2 ++ str ") ") := by simp [str]
  have hBet1 : between (str "func " ++ f ++ str "() (" ++ t1 ++ str ", " ++ t2 ++
      str ") \x7b") (str ")") (str "\x7b") false true =
      some (str " (" ++ t1 ++ str ", " ++ t2 ++ str ") ") := by
    unfold between
    simp only [hIdx2, hLIdx, Bool.false_eq_true, if_false, ite_false, if_true, ite_true]
    rw [if_neg (by
      rw [hP3eq, List.length_append]
      omega)]
    rw [← List.length_append (str "func " ++ f ++ str "(") (str ")")]
    have e := goSlice_boundary ((str "func " ++ f ++ str "(") ++ str ")")
      (str " (" ++ t1 ++ str ", " ++ t2 ++ str ") ") (str "\x7b")
    rw [show (((str "func " ++ f ++ str "(") ++ str ")") ++ (str " (" ++ t1 ++
      str ", " ++ t2 ++ str ") ") ++ str "\x7b" : GoStr) = str "func " ++ f ++
      str "() (" ++ t1 ++ str ", " ++ t2 ++ str ") \x7b" from by simp [str]] at e
    rw [show ((str "func " ++ f ++ str "() (" ++ t1 ++ str ", " ++ t2 ++
      str ") " : GoStr)).length = ((str "func " ++ f ++ str "(") ++ str ")" : GoStr).length +
      (str " (" ++ t1 ++ str ", " ++ t2 ++ str ") " : GoStr).length from by
        rw [← List.length_append]
        try exact congrArg List.length (by simp [str])]
    exact e
  have hFR := funcRetvalsPair h1 h2 hni
  have hCret2 : goContains (str "(" ++ t1 ++ str ",  " ++ t2 ++ str ")") (str ",") = true :=
    goContains_of_infix ⟨str "(" ++ t1, str "  " ++ t2 ++ str ")", by simp [str]⟩
  have hCT := cppTypesPair h1 h2
  have hIdxF : goIndex (str "func " ++ f ++ str "() (" ++ t1 ++ str ", " ++ t2 ++
      str ") \x7b") (str "func ") = some 0 :=
    goIndex_of_isPrefixOf (List.isPrefixOf_iff_prefix.mpr
      ⟨f ++ str "() (" ++ t1 ++ str ", " ++ t2 ++ str ") \x7b", by simp [str]⟩)
  have hName : leftBetween (str "func " ++ f ++ str "() (" ++ t1 ++ str ", " ++ t2 ++
      str ") \x7b") (str "func ") (str "(") = some f := by
    unfold leftBetween between
    simp only [hIdxF, hIdx1, Bool.false_eq_true, if_false, ite_false]
    rw [if_neg (by omega)]
    have e := goSlice_boundary (str "func ") f
      (str "() (" ++ t1 ++ str ", " ++ t2 ++ str ") \x7b")
    rw [show ((str "func ") ++ f ++ (str "() (" ++ t1 ++ str ", " ++ t2 ++
      str ") \x7b") : GoStr) = str "func " ++ f ++ str "() (" ++ t1 ++ str ", " ++ t2 ++
      str ") \x7b" from by simp [str]] at e
    rw [show ((str "func " ++ f : GoStr)).length =
      (str "func " : GoStr).length + f.length from List.length_append _ _]
    exact e
  have hFA0 : FunctionArguments [] = [] := by decide
  have hFin : goTrimSpace (str "auto " ++ f ++ str "(" ++ [] ++ str ") -> " ++
      (tupleType ++ str "<" ++ (t1 ++ str ", " ++ t2) ++ str ">") ++ str " \x7b") =
      str "auto " ++ f ++ str "(" ++ [] ++ str ") -> " ++
      (tupleType ++ str "<" ++ (t1 ++ str ", " ++ t2) ++ str ">") ++ str " \x7b" := by
    refine goTrimSpace_eq_self ?_ ?_
    · intro c hc
      rw [show ((str "auto " ++ f ++ str "(" ++ [] ++ str ") -> " ++
        (tupleType ++ str "<" ++ (t1 ++ str ", " ++ t2) ++ str ">") ++
        str " \x7b" : GoStr)).head? = some 'a' from rfl] at hc
      injection hc with hh
      rw [← hh]
      decide
    · intro c hc
      rw [getLast?_append_right (by simp [str])] at hc
      injection hc with hh
      rw [← hh]
      decide
  unfold FunctionSignature
  rw [htrimS]
  rw [if_neg hlenS]
  simp only [bind, Option.bind, hLB1, hC1, if_true, ite_true, hBet1, hFR, hCret2,
    hCT, hName, hFA0, hm, if_false, ite_false, hFin, pure]
  simp [str, tupleType]


set_option maxHeartbeats 1000000 in
/-- The dispatch of a return line with several values, under a registered
tuple return type, wraps the values into a construction of that type. -/
theorem dispatchReturnPair (g : GState) (l2 : LState) (x y : GoStr)
    (hx : okIdent x = true) (hy : okIdent y = true)
    (hTup : goStartsWith l2.currentReturnType tupleType = true)
    (hImp : l2.inImport = false) (hVar : l2.inVar = false) (hTy : l2.inType = false)
    (hC : l2.inConst = false) (hH : l2.inHashMap = false) (hS : l2.inStruct = false) :
    processDispatch g l2 (str "return " ++ x ++ str ", " ++ y)
        (str "return " ++ x ++ str ", " ++ y) =
      some (some (str "return " ++ l2.currentReturnType ++ str "\x7b" ++
                  (x ++ str ", " ++ y) ++ str "\x7d;"), g, l2) := by
  have hhd : ((str "return " ++ x ++ str ", " ++ y : GoStr)).head? = some 'r' := rfl
  have hfu : goStartsWith (str "return " ++ x ++ str ", " ++ y) (str "func") = false :=
    goStartsWith_eq_false_of_head_ne hhd rfl (by decide)
  have hfo : goStartsWith (str "return " ++ x ++ str ", " ++ y) (str "for") = false :=
    goStartsWith_eq_false_of_head_ne hhd rfl (by decide)
  have hsw : goStartsWith (str "return " ++ x ++ str ", " ++ y) (str "switch") = false :=
    goStartsWith_eq_false_of_head_ne hhd rfl (by decide)
  have hca : goStartsWith (str "return " ++ x ++ str ", " ++ y) (str "case") = false :=
    goStartsWith_eq_false_of_head_ne hhd rfl (by decide)
  have hre : goStartsWith (str "return " ++ x ++ str ", " ++ y) (str "return") = true := by
    unfold goStartsWith
    exact List.isPrefixOf_iff_prefix.mpr ⟨str " " ++ x ++ str ", " ++ y, by simp [str]⟩
  have hsplitR : goSplitN2 (str "return " ++ x ++ str ", " ++ y) (str "return ") =
      [[], x ++ str ", " ++ y] := by
    have e := @goSplitN2_boundary (str "return ") 'r' rfl ([] : GoStr)
      (x ++ str ", " ++ y) (by simp)
    rw [show (([] : GoStr) ++ str "return " ++ (x ++ str ", " ++ y) : GoStr) =
      str "return " ++ x ++ str ", " ++ y from by simp [str]] at e
    exact e
  have hge : (([([] : GoStr), x ++ str ", " ++ y])[1]? : Option GoStr) =
      some (x ++ str ", " ++ y) := rfl
  simp only [processDispatch, hImp, hVar, hTy, hC, hH, hS, hfu, hfo, hsw, hca, hre,
    hTup, hsplitR, hge, Bool.false_eq_true, Bool.true_eq_false, Bool.true_and,
    Bool.false_and, Bool.and_true, Bool.and_false, Bool.or_false, Bool.false_or,
    Bool.not_true, Bool.not_false, if_false, if_true, ite_false, ite_true]

set_option maxHeartbeats 2000000 in
/-- A return line with several values, inside a function whose registered
return type is the fixed-size tuple, is wrapped into a construction of that
tuple type. -/
theorem procReturnLine (g : GState) (l : LState) (x y : GoStr)
    (hx : okIdent x = true) (hy : okIdent y = true)
    (hTup : goStartsWith l.currentReturnType tupleType = true)
    (hImp : l.inImport = false) (hVar : l.inVar = false) (hTy : l.inType = false)
    (hC : l.inConst = false) (hH : l.inHashMap = false) (hS : l.inStruct = false) :
    processLine g l (str "return " ++ x ++ str ", " ++ y) =
      some ([str "return " ++ l.currentReturnType ++ str "\x7b" ++ x ++ str ", " ++ y ++
             str "\x7d;"], g,
            { l with curlyCount := l.curlyCount + (0 - 0) }) := by
  obtain ⟨ly, hlyh, hlyi⟩ := okIdent_getLast?_ident hy
  have hslx : '/' ∉ x := okIdent_notMem hx (by decide)
  have hsly : '/' ∉ y := okIdent_notMem hy (by decide)
  have hhd : ((str "return " ++ x ++ str ", " ++ y : GoStr)).head? = some 'r' := rfl
  have hlast : ((str "return " ++ x ++ str ", " ++ y : GoStr)).getLast? = some ly := by
    rw [getLast?_append_right (okIdent_ne_nil hy)]
    exact hlyh
  have htrim : goTrimSpace (str "return " ++ x ++ str ", " ++ y) =
      str "return " ++ x ++ str ", " ++ y := by
    refine goTrimSpace_eq_self ?_ ?_
    · intro c hc
      rw [hhd] at hc
      injection hc with hh
      rw [← hh]
      decide
    · intro c hc
      rw [hlast] at hc
      injection hc with hh
      rw [← hh]
      exact isSpaceChar_eq_false_of_isIdentChar hlyi
  have hslash : '/' ∉ (str "return " ++ x ++ str ", " ++ y : GoStr) := by
    intro hm
    rcases List.mem_append.mp hm with hA | hB
    · rcases List.mem_append.mp hA with hA2 | hB2
      · rcases List.mem_append.mp hA2 with hA3 | hB3
        · simp [str] at hA3
        · exact hslx hB3
      · simp [str] at hB2
    · exact hsly hB
  have hbrm : '\x7b' ∉ (str "return " ++ x ++ str ", " ++ y : GoStr) := by
    intro hm
    rcases List.mem_append.mp hm with hA | hB
    · rcases List.mem_append.mp hA with hA2 | hB2
      · rcases List.mem_append.mp hA2 with hA3 | hB3
        · simp [str] at hA3
        · exact okIdent_notMem hx (by decide) hB3
      · simp [str] at hB2
    · exact okIdent_notMem hy (by decide) hB
  have hbrm2 : '\x7d' ∉ (str "return " ++ x ++ str ", " ++ y : GoStr) := by
    intro hm
    rcases List.mem_append.mp hm with hA | hB
    · rcases List.mem_append.mp hA with hA2 | hB2
      · rcases List.mem_append.mp hA2 with hA3 | hB3
        · simp [str] at hA3
        · exact okIdent_notMem hx (by decide) hB3
      · simp [str] at hB2
    · exact okIdent_notMem hy (by decide) hB
  have heqm : '=' ∉ (str "return " ++ x ++ str ", " ++ y : GoStr) := by
    intro hm
    rcases List.mem_append.mp hm with hA | hB
    · rcases List.mem_append.mp hA with hA2 | hB2
      · rcases List.mem_append.mp hA2 with hA3 | hB3
        · simp [str] at hA3
        · exact okIdent_notMem hx (by decide) hB3
      · simp [str] at hB2
    · exact okIdent_notMem hy (by decide) hB
  have hstrip : stripSingleLineComment (str "return " ++ x ++ str ", " ++ y) =
      str "return " ++ x ++ str ", " ++ y := by
    unfold stripSingleLineComment
    rw [if_neg]
    rw [ goCount_eq_zero_of_not_infix
      (not_infix_of_not_mem (show '/' ∈ (str "//" : GoStr) by decide) hslash)]
    decide
  have hsemi : goEndsWith (str "return " ++ x ++ str ", " ++ y) (str ";") = false :=
    goEndsWith_eq_false_of_last_ne hlast rfl (ident_char_ne hlyi (by decide))
  have hsemis : semiStrip (str "return " ++ x ++ str ", " ++ y) =
      str "return " ++ x ++ str ", " ++ y := by
    unfold semiStrip
    rw [hsemi]
    rfl
  have hlen : ¬ ((str "return " ++ x ++ str ", " ++ y : GoStr)).length = 0 := by simp [str]
  have hcb : goCount (str "return " ++ x ++ str ", " ++ y) (str "\x7b") = 0 :=
    goCount_eq_zero_of_not_infix (not_infix_of_not_mem
      (show '\x7b' ∈ (str "\x7b" : GoStr) by decide) hbrm)
  have hcb2 : goCount (str "return " ++ x ++ str ", " ++ y) (str "\x7d") = 0 :=
    goCount_eq_zero_of_not_infix (not_infix_of_not_mem
      (show '\x7d' ∈ (str "\x7d" : GoStr) by decide) hbrm2)
  have hstart2 : goStartsWith (str "return " ++ x ++ str ", " ++ y) (str "//") = false :=
    goStartsWith_eq_false_of_head_ne hhd rfl (by decide)
  have hfu : goStartsWith (str "return " ++ x ++ str ", " ++ y) (str "func") = false :=
    goStartsWith_eq_false_of_head_ne hhd rfl (by decide)
  have hfo : goStartsWith (str "return " ++ x ++ str ", " ++ y) (str "for") = false :=
    goStartsWith_eq_false_of_head_ne hhd rfl (by decide)
  have hsw : goStartsWith (str "return " ++ x ++ str ", " ++ y) (str "switch") = false :=
    goStartsWith_eq_false_of_head_ne hhd rfl (by decide)
  have hca : goStartsWith (str "return " ++ x ++ str ", " ++ y) (str "case") = false :=
    goStartsWith_eq_false_of_head_ne hhd rfl (by decide)
  have hre : goStartsWith (str "return " ++ x ++ str ", " ++ y) (str "return") = true := by
    unfold goStartsWith
    exact List.isPrefixOf_iff_prefix.mpr ⟨str " " ++ x ++ str ", " ++ y, by simp [str]⟩
  have hsplitR : goSplitN2 (str "return " ++ x ++ str ", " ++ y) (str "return ") =
      [[], x ++ str ", " ++ y] := by
    have e := @goSplitN2_boundary (str "return ") 'r' rfl ([] : GoStr)
      (x ++ str ", " ++ y) (by simp)
    rw [show (([] : GoStr) ++ str "return " ++ (x ++ str ", " ++ y) : GoStr) =
      str "return " ++ x ++ str ", " ++ y from by simp [str]] at e
    exact e
  have hge : (([([] : GoStr), x ++ str ", " ++ y])[1]? : Option GoStr) =
      some (x ++ str ", " ++ y) := rfl
  have hd1 : decide ((str "return " ++ x ++ str ", " ++ y : GoStr) = str "\x7d") = false :=
    decide_eq_false (by simp [str])
  have hebr : goEndsWith (str "return " ++ x ++ str ", " ++ y) (str "\x7d") = false :=
    goEndsWith_eq_false_of_last_ne hlast rfl (ident_char_ne hlyi (by decide))
  have hceq : goContains (str "return " ++ x ++ str ", " ++ y) (str "=") = false :=
    goContains_eq_false_of_not_infix (not_infix_of_not_mem
      (show '=' ∈ (str "=" : GoStr) by decide) heqm)
  have hse : goEndsWith (str "return " ++ l.currentReturnType ++ str "\x7b" ++
      (x ++ str ", " ++ y) ++ str "\x7d;") (str ";") = true := by
    rw [show (str "return " ++ l.currentReturnType ++ str "\x7b" ++
      (x ++ str ", " ++ y) ++ str "\x7d;" : GoStr) =
      (str "return " ++ l.currentReturnType ++ str "\x7b" ++ x ++ str ", " ++ y ++
       str "\x7d") ++ str ";" from by simp [str]]
    exact goEndsWith_append
  have hdisp := dispatchReturnPair g
    { l with curlyCount := l.curlyCount +
        ((goCount (str "return " ++ x ++ str ", " ++ y) (str "\x7b") : Int) -
         (goCount (str "return " ++ x ++ str ", " ++ y) (str "\x7d") : Int)) }
    x y hx hy hTup hImp hVar hTy hC hH hS
  simp only [processLine, htrim, hstrip, hsemis, hsemi, hlen,
    hstart2, hdisp, hd1, hebr, hceq, hse, eq_self_iff_true, Bool.false_eq_true,
    Bool.true_eq_false, Bool.true_and, Bool.false_and, Bool.and_true, Bool.and_false,
    Bool.or_false, Bool.false_or, Bool.not_true, Bool.not_false, if_false, if_true,
    ite_false, ite_true]
  simp only [hcb, hcb2, Nat.cast_zero]
  simp [str]

/-- C6 (corrected): for a one-line function declaration with two return
values, the emitted declaration's return type is the two-element fixed-size
tuple `std::tuple<t1, t2>` of the *raw* Go element types — never passed
through the type mapper, as the counterexample with `float64` shows — and,
with that tuple registered as the current return type, a return line with
two values is wrapped into a construction of that tuple type.  The element
types are reproduced verbatim under the proviso that the first type's text
does not occur inside the second's: the argument rewriter's textual
replace-all makes an overlap corrupt the second element unless the overlap
is a leading prefix, as the theorem's two closed conjuncts compute —
`func f() (b, ab) {` yields `std::tuple<b, a>`, while the prefix overlap
`func f() (int, int64) {` still yields `std::tuple<int, int64>` because
the inserted spaces land at the front of the second type and are trimmed
away. -/
theorem c6_two_return_values_tuple_amended (f t1 t2 x y : GoStr)
    (hf : okIdent f = true) (h1 : okIdent t1 = true) (h2 : okIdent t2 = true)
    (hx : okIdent x = true) (hy : okIdent y = true)
    (hni : ¬ t1 <:+: t2) (hm : ¬ f = str "main") :
    FunctionSignature (str "func " ++ f ++ str "() (" ++ t1 ++ str ", " ++ t2 ++
        str ") \x7b") =
      some (str "auto " ++ f ++ str "() -> std::tuple<" ++ t1 ++ str ", " ++ t2 ++
            str "> \x7b",
            str "std::tuple<" ++ t1 ++ str ", " ++ t2 ++ str ">", f) ∧
    (∀ (g : GState) (l : LState),
      goStartsWith l.currentReturnType tupleType = true →
      l.inImport = false → l.inVar = false → l.inType = false → l.inConst = false →
      l.inHashMap = false → l.inStruct = false →
      processLine g l (str "return " ++ x ++ str ", " ++ y) =
        some ([str "return " ++ l.currentReturnType ++ str "\x7b" ++ x ++ str ", " ++ y ++
               str "\x7d;"], g,
              { l with curlyCount := l.curlyCount + (0 - 0) })) ∧
    FunctionSignature (str "func f() (b, ab) \x7b") =
      some (str "auto f() -> std::tuple<b, a> \x7b", str "std::tuple<b, a>", str "f") ∧
    FunctionSignature (str "func f() (int, int64) \x7b") =
      some (str "auto f() -> std::tuple<int, int64> \x7b",
            str "std::tuple<int, int64>", str "f") :=
  ⟨funcSigTwoRets hf h1 h2 hni hm,
   fun g l hTup hImp hVar hTy hC hH hS =>
     procReturnLine g l x y hx hy hTup hImp hVar hTy hC hH hS,
   by decide, by decide⟩

theorem c6_two_return_values_witness :
    FunctionSignature (str "func " ++ str "f" ++ str "() (" ++ str "int" ++ str ", " ++
        str "float64" ++ str ") \x7b") =
      some (str "auto " ++ str "f" ++ str "() -> std::tuple<" ++ str "int" ++ str ", " ++
            str "float64" ++ str "> \x7b",
            str "std::tuple<" ++ str "int" ++ str ", " ++ str "float64" ++ str ">",
            str "f") :=
  (c6_two_return_values_tuple_amended (str "f") (str "int") (str "float64")
    (str "a") (str "b") (by decide) (by decide) (by decide) (by decide) (by decide)
    (by decide) (by decide)).1

/-!
C8 support: the print fast path on literal-string arguments.
specStreamChain is stated from the claim's words — direct stream-insertion
operations separated by a single-space literal — and the theorem compares
the source's print loop against it.
-/

/-- specStreamChain renders a list of arguments as direct stream-insertion
operations separated by the single-space literal, ending with the given
newline tail; this definition follows the claim's wording and is compared
against the source's `printStmtLoop`. -/
def specStreamChain (pipe blank pipeNewline : GoStr) : List GoStr → GoStr
  | [] => []
  | [a] => pipe ++ a ++ pipeNewline
  | a :: rest => pipe ++ a ++ pipe ++ blank ++ specStreamChain pipe blank pipeNewline rest

theorem specStreamChain_notMem {c : Char} {pipe blank pnl : GoStr} (hp : c ∉ pipe)
    (hb : c ∉ blank) (hn : c ∉ pnl) :
    ∀ args : List GoStr, (∀ a ∈ args, c ∉ a) → c ∉ specStreamChain pipe blank pnl args := by
  intro args
  induction args with
  | nil =>
      intro _ hm
      simp [specStreamChain] at hm
  | cons a rest ih =>
      intro hall hm
      cases rest with
      | nil =>
          rw [show specStreamChain pipe blank pnl [a] = pipe ++ a ++ pnl from rfl] at hm
          rcases List.mem_append.mp hm with h1 | h2
          · rcases List.mem_append.mp h1 with h3 | h4
            · exact hp h3
            · exact hall a (List.mem_cons_self a []) h4
          · exact hn h2
      | cons b rest2 =>
          rw [show specStreamChain pipe blank pnl (a :: b :: rest2) =
            pipe ++ a ++ pipe ++ blank ++ specStreamChain pipe blank pnl (b :: rest2)
            from rfl] at hm
          rcases List.mem_append.mp hm with h1 | h2
          · rcases List.mem_append.mp h1 with h3 | h4
            · rcases List.mem_append.mp h3 with h5 | h6
              · rcases List.mem_append.mp h5 with h7 | h8
                · exact hp h7
                · exact hall a (List.mem_cons_self a (b :: rest2)) h8
              · exact hp h6
            · exact hb h4
          · exact ih (fun x hx => hall x (List.mem_cons_of_mem a hx)) h2

theorem isNum_quote {a : GoStr} (h : goStartsWith a (str "\"") = true) : isNum a = false := by
  unfold goStartsWith at h
  obtain ⟨t, ht⟩ := List.isPrefixOf_iff_prefix.mp h
  rw [show (str "\"" ++ t : GoStr) = '"' :: t from rfl] at ht
  rw [← ht]
  simp [isNum, numBody, intBody, List.takeWhile, List.dropWhile, isDigitChar]

theorem printStmtLoopLit (oN pipe blank pnl : GoStr) :
    ∀ (args : List GoStr) (lastIndex i : Nat) (acc : GoStr),
      lastIndex + 1 = i + args.length →
      args.all (fun a => goStartsWith a (str "\"")) = true →
      printStmtLoop oN pipe blank pnl lastIndex i acc args =
        acc ++ specStreamChain pipe blank pnl args := by
  intro args
  induction args with
  | nil =>
      intro lastIndex i acc _ _
      simp [printStmtLoop, specStreamChain]
  | cons a rest ih =>
      intro lastIndex i acc hL hall
      rw [List.all_cons, Bool.and_eq_true] at hall
      rw [printStmtLoop]
      simp only [hall.1, if_true, ite_true]
      cases rest with
      | nil =>
          have hieq : ¬ (i < lastIndex) := by
            simp at hL
            omega
          rw [if_neg hieq]
          rw [show printStmtLoop oN pipe blank pnl lastIndex (i + 1)
            (acc ++ pipe ++ a ++ pnl) [] = acc ++ pipe ++ a ++ pnl from rfl]
          rw [show specStreamChain pipe blank pnl [a] = pipe ++ a ++ pnl from rfl]
          simp [List.append_assoc]
      | cons b rest2 =>
          have hlt : i < lastIndex := by
            simp [List.length_cons] at hL
            omega
          rw [if_pos hlt]
          rw [ih lastIndex (i + 1) (acc ++ pipe ++ a ++ pipe ++ blank)
            (by simp [List.length_cons] at hL ⊢; omega) hall.2]
          rw [show specStreamChain pipe blank pnl (a :: b :: rest2) =
            pipe ++ a ++ pipe ++ blank ++ specStreamChain pipe blank pnl (b :: rest2)
            from rfl]
          simp [List.append_assoc]

set_option maxHeartbeats 1000000 in
/-- C8: for a print-family call (not a *printf form) whose arguments are all
literal strings, the transformed statement is the direct stream-insertion
chain: the chosen output stream followed by the arguments separated by the
single-space literal, with the std::endl tail exactly when the function name
ends in ln; and whenever the arguments contain no underscore character the
transformed statement contains no invocation of the generic formatting
helper _format_output. -/
theorem c8_print_literal_strings_fast_path
    (source inner fname : GoStr) (idx : Nat) (args : List GoStr)
    (hGB : greedyBetween (goTrimSpace source) (str "(") (str ")") = some inner)
    (hArgs : SplitArgs inner = args)
    (hC : goContains source (str "(") = true)
    (hIdx : goIndex source (str "(") = some idx)
    (hfn : goTrimSpace (source.take idx) = fname)
    (hrintf : goEndsWith fname (str "rintf") = false)
    (hlits : args.all (fun a => goStartsWith a (str "\"")) = true)
    (hn : 2 ≤ args.length) :
    PrintStatement source =
      some ((if goStartsWith fname (str "print") then str "std::cerr" else str "std::cout") ++
            specStreamChain (str " << ") (str "\" \"")
              (if goEndsWith fname (str "ln") then str " << " ++ str "std::endl" else [])
              args,
            true) ∧
    ((∀ a ∈ args, '_' ∉ a) →
      ∀ o p, PrintStatement source = some (o, p) →
        goContains o (str "_format_output") = false) := by
  have hd0 : decide (args.length = 0) = false := decide_eq_false (by omega)
  have hd1 : decide (args.length = 1) = false := decide_eq_false (by omega)
  have hne1 : ¬ (args.length = 1) := by omega
  have hnums : args.all isNum = false := by
    cases args with
    | nil => simp at hn
    | cons a rest =>
        rw [List.all_cons] at hlits ⊢
        rw [Bool.and_eq_true] at hlits
        rw [isNum_quote hlits.1]
        rfl
  have hloop := printStmtLoopLit
    (if goStartsWith fname (str "print") then str "std::cerr" else str "std::cout")
    (str " << ") (str "\" \"")
    (if goEndsWith fname (str "ln") then str " << " ++ str "std::endl" else [])
    args (args.length - 1) 0
    (if goStartsWith fname (str "print") then str "std::cerr" else str "std::cout")
    (by omega) hlits
  have h1 : PrintStatement source =
      some ((if goStartsWith fname (str "print") then str "std::cerr" else str "std::cout") ++
            specStreamChain (str " << ") (str "\" \"")
              (if goEndsWith fname (str "ln") then str " << " ++ str "std::endl" else [])
              args,
            true) := by
    unfold PrintStatement
    simp only [bind, Option.bind, hGB, hArgs, hC, hIdx, hfn, hrintf, hlits, hnums,
      hd0, hd1, hne1, hloop, decide_False, decide_True, Bool.not_true, Bool.not_false, Bool.false_and,
      Bool.and_false, Bool.true_and, Bool.and_true, Bool.false_or, Bool.or_false,
      Bool.or_true, Bool.true_or, Bool.false_eq_true, Bool.true_eq_false,
      if_false, if_true, ite_false, ite_true]
  refine ⟨h1, ?_⟩
  intro hund o p hPS
  rw [h1] at hPS
  injection hPS with hPS2
  injection hPS2 with hO hP
  rw [← hO]
  refine goContains_eq_false_of_not_infix
    (not_infix_of_not_mem (show '_' ∈ (str "_format_output" : GoStr) by decide) ?_)
  intro hm
  rcases List.mem_append.mp hm with hA | hB
  · have : '_' ∉ (if goStartsWith fname (str "print") then str "std::cerr"
        else str "std::cout" : GoStr) := by
      split
      · decide
      · decide
    exact this hA
  · refine specStreamChain_notMem (by decide) (by decide) ?_ args hund hB
    split
    · decide
    · simp

theorem c8_print_literal_strings_witness :
    PrintStatement (str "fmt.Println(\"a\", \"b\")") =
      some ((if goStartsWith (str "fmt.Println") (str "print") then str "std::cerr"
             else str "std::cout") ++
            specStreamChain (str " << ") (str "\" \"")
              (if goEndsWith (str "fmt.Println") (str "ln") then
                str " << " ++ str "std::endl" else [])
              [str "\"a\"", str "\"b\""],
            true) :=
  (c8_print_literal_strings_fast_path (str "fmt.Println(\"a\", \"b\")")
    (str "\"a\", \"b\"") (str "fmt.Println") 11 [str "\"a\"", str "\"b\""]
    (by decide) (by decide) (by decide) (by decide) (by decide) (by decide)
    (by decide) (by decide)).1
